import Mathlib

/-!
Connected Spaces Platform: components, entities and script modules

A shallow embedding of `CustomSpaceComponent.cpp` and of the `ComponentBase`
interface it is built on, of the entity and entity-system operations on
components, and of the script-run and script-module functions of
`ScriptSystem.cpp`, followed by theorems about custom properties,
property-change subscriptions, action handlers, patch application, component
ids, selection, script runs and script modules.

Conventions of the embedding

* `csp::common::String` is a list of characters (`CspString`).
* `csp::common::Map<K, V>` is an association list with pairwise distinct keys.
* `uint32_t` property keys are natural numbers; `static_cast<uint32_t>` is `% 2 ^ 32`.
* `std::hash<std::string>` is implementation defined: every function that hashes
  a name takes the hash function as its first argument.
* `CustomComponentPropertyKeys::ApplicationOrigin` is declared in a header that is
  not part of the sources at hand: the functions that use it take its numeric
  value as an argument.
* Pointers to the parent entity and to the script interface are left out: none of
  the functions embedded here reads them.
* An asynchronous function of the script system is the list of what it does, in
  order: its requests to the asset system and the invocations of the caller's
  callback. The asset system is an argument that gives the result of each request.
-/

namespace csp

/-! ## csp::common -/

namespace common

/-- The type `csp::common::String`, as the list of its characters. -/
abbrev CspString := List Char

/-- The type `csp::common::Map<K, V>`: entries with pairwise distinct keys. -/
structure Map (K V : Type) [DecidableEq K] where
  entries : List (K × V)
  nodup : (entries.map Prod.fst).Nodup

namespace Map

variable {K V : Type} [DecidableEq K]

/-- Value stored under `k` in a list of entries, if any. -/
def rawFind (k : K) : List (K × V) → Option V
  | [] => none
  | e :: l => if e.1 = k then some e.2 else rawFind k l

/-- The entries whose key is not `k`. -/
def rawErase (k : K) (l : List (K × V)) : List (K × V) :=
  l.filter (fun e => decide (e.1 ≠ k))

/-- The empty map (a default-constructed `Map`). -/
def empty : Map K V := ⟨[], List.nodup_nil⟩

/-- Lookup: the value stored under `k`, if any. -/
def find (m : Map K V) (k : K) : Option V := rawFind k m.entries

/-- The method `Map::HasKey`. -/
def HasKey (m : Map K V) (k : K) : Bool := (m.find k).isSome

/-- The method `Map::Remove`: afterwards the map has no entry for `k`. -/
def Remove (m : Map K V) (k : K) : Map K V :=
  ⟨rawErase k m.entries, m.nodup.sublist ((List.filter_sublist m.entries).map Prod.fst)⟩

/-- Assignment through `Map::operator[]`, `m[k] = v`: the entry of `k` is replaced,
or created when there is none. -/
def set (m : Map K V) (k : K) (v : V) : Map K V :=
  ⟨(k, v) :: rawErase k m.entries, by
    rw [List.map_cons, List.nodup_cons]
    refine ⟨?_, m.nodup.sublist ((List.filter_sublist m.entries).map Prod.fst)⟩
    simp [rawErase, List.mem_filter]⟩

/-- The method `Map::Size`. -/
def Size (m : Map K V) : Nat := m.entries.length

/-- The map with the same keys whose values are the images under `f`. -/
def mapValues {W : Type} (f : V → W) (m : Map K V) : Map K W :=
  ⟨m.entries.map (fun e => (e.1, f e.2)), by
    have h : (m.entries.map (fun e => (e.1, f e.2))).map Prod.fst = m.entries.map Prod.fst := by
      rw [List.map_map]
      rfl
    rw [h]
    exact m.nodup⟩

/-- Two maps are equal when their entries are. -/
instance instDecidableEqMap [DecidableEq V] : DecidableEq (Map K V) := fun a b =>
  decidable_of_iff (a.entries = b.entries) (by
    cases a
    cases b
    simp)

end Map

/-- Modelled from the spec: `csp::common::String::Split` is declared in
`CSP/Common/String.h`, which is not among the sources, and the spec does not
describe it; it is taken to be the usual split, the pieces between consecutive
separators (one piece more than there are separators). -/
def Split : CspString → Char → List CspString
  | [], _ => [[]]
  | c :: cs, Separator =>
    if c = Separator then [] :: Split cs Separator
    else
      match Split cs Separator with
      | [] => [[c]]
      | p :: ps => (c :: p) :: ps

/-- Conversion `static_cast<uint32_t>` of an unsigned value. -/
def toUInt32 (n : Nat) : Nat := n % 2 ^ 32

/-- Conversion to `uint16_t`. -/
def toUInt16 (n : Nat) : Nat := n % 2 ^ 16

/-- Whether the 32-bit pattern of a `float` is a NaN: all exponent bits set and a
non-zero fraction. -/
def Float32.isNaN (bits : Nat) : Bool := decide (0x7F800000 < bits % 2 ^ 31)

/-- The place of a `float` that is not a NaN in the numerical order, from its
32-bit pattern: `2 ^ 31` plus the magnitude bits when the sign bit is clear,
`2 ^ 31` minus the magnitude bits when it is set (the two zeros share a place). -/
def Float32.rank (bits : Nat) : Nat :=
  if bits % 2 ^ 32 < 2 ^ 31 then 2 ^ 31 + bits % 2 ^ 31 else 2 ^ 31 - bits % 2 ^ 31

/-- The comparison `a <= b` of two `float`s given by their bit patterns; false
when one is a NaN. -/
def Float32.le (a b : Nat) : Bool :=
  !Float32.isNaN a && !Float32.isNaN b && decide (Float32.rank a ≤ Float32.rank b)

/-- The comparison `a < b` of two `float`s given by their bit patterns; false when
one is a NaN. -/
def Float32.lt (a b : Nat) : Bool :=
  !Float32.isNaN a && !Float32.isNaN b && decide (Float32.rank a < Float32.rank b)

/-- The bit pattern of `0.f`. -/
def Float32.zero : Nat := 0

/-- The bit pattern of `1.f`. -/
def Float32.one : Nat := 0x3F800000

/-- Conversion of a `uint32_t` to `int32_t` (two's complement). -/
def toInt32 (n : Nat) : Int :=
  if n % 2 ^ 32 < 2 ^ 31 then ((n % 2 ^ 32 : Nat) : Int) else ((n % 2 ^ 32 : Nat) : Int) - 2 ^ 32

end common

/-! ## csp::multiplayer -/

namespace multiplayer

open common

/-- The enumeration `ComponentType` of `ComponentBase.h`. -/
inductive ComponentType
  | Invalid
  | Core
  | UIController_DEPRECATED
  | StaticModel
  | AnimatedModel
  | MediaSurface_DEPRECATED
  | VideoPlayer
  | ImageSequencer_DEPRECATED
  | ExternalLink
  | AvatarData
  | Light
  | Button
  | Image
  | ScriptData
  | Custom
  | Conversation
  | Portal
  | Audio
  | Spline
  | Collision
  | Reflection
  | Fog
  deriving DecidableEq, Repr

/-- The tags of a `ReplicatedValue`, as the sources and tests use them. -/
inductive ReplicatedValueType
  | InvalidType
  | Boolean
  | Integer
  | Float
  | String
  | Vector3
  | Vector4
  deriving DecidableEq, Repr

/-- Modelled from the spec: `ReplicatedValue` (its header is not among the
sources) is a tagged value holding exactly one payload that matches its tag.
A float is kept as its 32-bit pattern, a vector as the patterns of its
components; a default-constructed value has the tag `InvalidType`. -/
inductive ReplicatedValue
  | invalid
  | boolean (b : Bool)
  | integer (i : Int)
  | float (bits : Nat)
  | string (s : CspString)
  | vector3 (x y z : Nat)
  | vector4 (x y z w : Nat)
  deriving DecidableEq, Repr

namespace ReplicatedValue

/-- The method `ReplicatedValue::GetReplicatedValueType`. -/
def GetReplicatedValueType : ReplicatedValue → ReplicatedValueType
  | invalid => .InvalidType
  | boolean _ => .Boolean
  | integer _ => .Integer
  | float _ => .Float
  | string _ => .String
  | vector3 _ _ _ => .Vector3
  | vector4 _ _ _ _ => .Vector4

/-- The accessor `ReplicatedValue::GetInt`; reading another kind of value is a
contract violation and gives no result. -/
def GetInt : ReplicatedValue → Option Int
  | integer i => some i
  | _ => none

end ReplicatedValue

/-- One call of an action handler: the callable and the three arguments it is
given, `(ComponentBase*, const String&, const String&)`. The component argument
is the state of the component the pointer refers to. -/
structure ActionCall (H C : Type) where
  Handler : H
  Component : C
  Action : CspString
  Params : CspString

/-- The class `ComponentBase`. `H` is the type of the callables stored in
`ActionMap` (`EntityActionHandler`): the component stores and calls them and
never looks inside.

Modelled from the spec: `Subscriptions` and `RaisedMessages` are not members of
the class declaration; they stand for the per-key change subscriptions of the
component (property key to script message) and for the script messages raised
so far, oldest first. -/
structure ComponentBase (H : Type) where
  Id : Nat
  Type_ : ComponentType
  Properties : Map Nat ReplicatedValue
  DirtyProperties : Map Nat ReplicatedValue
  ActionMap : Map CspString H
  Subscriptions : Map Nat CspString
  RaisedMessages : List CspString

namespace ComponentBase

variable {H : Type}

/-- Modelled from the spec: the constructor `ComponentBase::ComponentBase(Type, Parent)`
is defined in `ComponentBase.cpp`, which is not among the sources. A new component has no
properties, nothing dirty, no handlers and no subscriptions; its id is the one
`SpaceEntity::AddComponent` gives it. -/
def create (Type_ : ComponentType) (Id : Nat) : ComponentBase H :=
  { Id := Id
    Type_ := Type_
    Properties := Map.empty
    DirtyProperties := Map.empty
    ActionMap := Map.empty
    Subscriptions := Map.empty
    RaisedMessages := [] }

/-- Modelled from the spec: `ComponentBase::GetProperty` (defined in
`ComponentBase.cpp`, not among the sources) returns the current value or a typed
"not found" signal; the declaration returns a `const ReplicatedValue&`, so the
signal is the value of type `InvalidType`. -/
def GetProperty (c : ComponentBase H) (Key : Nat) : ReplicatedValue :=
  match c.Properties.find Key with
  | some v => v
  | none => ReplicatedValue.invalid

/-- The script messages of a change of `Key`: the message subscribed for the key,
if there is one. -/
def changeMessages (c : ComponentBase H) (Key : Nat) : List CspString :=
  match c.Subscriptions.find Key with
  | some Message => [Message]
  | none => []

/-- Modelled from the spec: `ComponentBase::SetProperty` (defined in
`ComponentBase.cpp`, not among the sources) replaces `properties[key]`,
inserts or overwrites `dirtyProperties[key]` and, if a subscription is registered
for `key`, schedules the associated script message. -/
def SetProperty (c : ComponentBase H) (Key : Nat) (Value : ReplicatedValue) : ComponentBase H :=
  { c with
    Properties := c.Properties.set Key Value
    DirtyProperties := c.DirtyProperties.set Key Value
    RaisedMessages := c.RaisedMessages ++ c.changeMessages Key }

/-- Modelled from the spec: `ComponentBase::RemoveProperty` (defined in
`ComponentBase.cpp`, not among the sources) erases the key from both maps. -/
def RemoveProperty (c : ComponentBase H) (Key : Nat) : ComponentBase H :=
  { c with
    Properties := c.Properties.Remove Key
    DirtyProperties := c.DirtyProperties.Remove Key }

/-- Modelled from the spec: `ComponentBase::SetPropertyFromPatch` (defined in
`ComponentBase.cpp`, not among the sources) has the same storage effect as
`SetProperty` but must not re-mark the key dirty; applying a remote patch clears
dirtiness for the applied keys, and the affected component fires its change
subscriptions. -/
def SetPropertyFromPatch (c : ComponentBase H) (Key : Nat) (Value : ReplicatedValue) :
    ComponentBase H :=
  { c with
    Properties := c.Properties.set Key Value
    DirtyProperties := c.DirtyProperties.Remove Key
    RaisedMessages := c.RaisedMessages ++ c.changeMessages Key }

/-- Modelled from the spec: `ComponentBase::SubscribeToPropertyChange` (defined in
`ComponentBase.cpp`, not among the sources) binds the script message to raise
when the property of the given key changes. -/
def SubscribeToPropertyChange (c : ComponentBase H) (PropertyKey : Nat) (Message : CspString) :
    ComponentBase H :=
  { c with Subscriptions := c.Subscriptions.set PropertyKey Message }

/-- Modelled from the spec: `ComponentBase::RegisterActionHandler` (defined in
`ComponentBase.cpp`, not among the sources); several handlers per name are not
supported, the last registration wins. -/
def RegisterActionHandler (c : ComponentBase H) (InAction : CspString) (ActionHandler : H) :
    ComponentBase H :=
  { c with ActionMap := c.ActionMap.set InAction ActionHandler }

/-- Modelled from the spec: `ComponentBase::UnregisterActionHandler` (defined in
`ComponentBase.cpp`, not among the sources) removes the action handler callback
for the given action. -/
def UnregisterActionHandler (c : ComponentBase H) (InAction : CspString) : ComponentBase H :=
  { c with ActionMap := c.ActionMap.Remove InAction }

/-- Modelled from the spec: `ComponentBase::InvokeAction` (defined in
`ComponentBase.cpp`, not among the sources) is a synchronous dispatch keyed by the
action name; invoking an unregistered action is a no-op, not an error. The
result is the list of handler calls the invocation makes. -/
def InvokeAction (c : ComponentBase H) (InAction InActionParams : CspString) :
    List (ActionCall H (ComponentBase H)) :=
  match c.ActionMap.find InAction with
  | some ActionHandler => [⟨ActionHandler, c, InAction, InActionParams⟩]
  | none => []

end ComponentBase

/-- The constant `CUSTOM_PROPERTY_LIST_KEY` of `CustomSpaceComponent.cpp`. -/
def CUSTOM_PROPERTY_LIST_KEY : Nat := 0

namespace CustomSpaceComponent

variable {H : Type}

open ComponentBase

/-- The constructor `CustomSpaceComponent::CustomSpaceComponent`: the base
constructor with `ComponentType::Custom`, then
`Properties[ApplicationOrigin] = ""`. -/
def create (ApplicationOrigin : Nat) (Id : Nat) : ComponentBase H :=
  let c : ComponentBase H := ComponentBase.create ComponentType.Custom Id
  { c with Properties := c.Properties.set ApplicationOrigin (ReplicatedValue.string []) }

/-- The method `CustomSpaceComponent::GetApplicationOrigin`; the result is the empty
default string when the stored value is not a string. -/
def GetApplicationOrigin (ApplicationOrigin : Nat) (c : ComponentBase H) : CspString :=
  match c.GetProperty ApplicationOrigin with
  | ReplicatedValue.string s => s
  | _ => []

/-- The method `CustomSpaceComponent::SetApplicationOrigin`. -/
def SetApplicationOrigin (ApplicationOrigin : Nat) (c : ComponentBase H) (Value : CspString) :
    ComponentBase H :=
  c.SetProperty ApplicationOrigin (ReplicatedValue.string Value)

/-- The method `CustomSpaceComponent::GetCustomPropertySubscriptionKey`. It is a
non-static member function, hence the component argument. -/
def GetCustomPropertySubscriptionKey (hash : CspString → Nat) (_c : ComponentBase H)
    (Key : CspString) : Nat :=
  toUInt32 (hash Key)

/-- The method `CustomSpaceComponent::HasCustomProperty`. -/
def HasCustomProperty (hash : CspString → Nat) (c : ComponentBase H) (Key : CspString) : Bool :=
  let PropertyKey := toUInt32 (hash Key)
  c.Properties.HasKey PropertyKey

/-- The method `CustomSpaceComponent::GetCustomProperty`. -/
def GetCustomProperty (hash : CspString → Nat) (c : ComponentBase H) (Key : CspString) :
    ReplicatedValue :=
  let PropertyKey := toUInt32 (hash Key)
  c.GetProperty PropertyKey

/-- The method `CustomSpaceComponent::GetCustomPropertyKeys`. -/
def GetCustomPropertyKeys (c : ComponentBase H) : List CspString :=
  if c.Properties.HasKey CUSTOM_PROPERTY_LIST_KEY then
    match c.GetProperty CUSTOM_PROPERTY_LIST_KEY with
    | ReplicatedValue.string s => if !s.isEmpty then Split s ',' else []
    | _ => []
  else []

/-- The method `CustomSpaceComponent::GetNumProperties`: the size of `Properties`,
less one when the key-list entry is present, cast to `uint32_t` and returned as
`int32_t`. -/
def GetNumProperties (c : ComponentBase H) : Int :=
  if c.Properties.HasKey CUSTOM_PROPERTY_LIST_KEY then
    toInt32 (toUInt32 (c.Properties.Size - 1))
  else
    toInt32 (toUInt32 c.Properties.Size)

/-- The method `CustomSpaceComponent::AddKey`. -/
def AddKey (c : ComponentBase H) (Value : CspString) : ComponentBase H :=
  if c.Properties.HasKey CUSTOM_PROPERTY_LIST_KEY then
    match c.GetProperty CUSTOM_PROPERTY_LIST_KEY with
    | ReplicatedValue.string ReturnKeys =>
      if !ReturnKeys.isEmpty then
        c.SetProperty CUSTOM_PROPERTY_LIST_KEY (ReplicatedValue.string (ReturnKeys ++ [','] ++ Value))
      else
        c.SetProperty CUSTOM_PROPERTY_LIST_KEY (ReplicatedValue.string Value)
    | _ => c
  else
    c.SetProperty CUSTOM_PROPERTY_LIST_KEY (ReplicatedValue.string Value)

/-- The loop of `RemoveKey` that joins what is left of the key list: the first
name, then a comma and the next name for every further one; the empty string
when nothing is left. -/
def joinKeys : List CspString → CspString
  | [] => []
  | k :: ks => ks.foldl (fun ReturnKeys x => ReturnKeys ++ [','] ++ x) k

/-- The method `CustomSpaceComponent::RemoveKey`. `List::Contains` is membership
and `List::RemoveItem` removes the first item equal to the key. -/
def RemoveKey (c : ComponentBase H) (Key : CspString) : ComponentBase H :=
  match c.GetProperty CUSTOM_PROPERTY_LIST_KEY with
  | ReplicatedValue.string CurrentKeys =>
    let KeyList := Split CurrentKeys ','
    if KeyList.contains Key then
      c.SetProperty CUSTOM_PROPERTY_LIST_KEY (ReplicatedValue.string (joinKeys (KeyList.erase Key)))
    else c
  | _ => c

/-- The method `CustomSpaceComponent::SetCustomProperty`. -/
def SetCustomProperty (hash : CspString → Nat) (c : ComponentBase H) (Key : CspString)
    (Value : ReplicatedValue) : ComponentBase H :=
  if Value.GetReplicatedValueType ≠ ReplicatedValueType.InvalidType then
    let PropertyKey := toUInt32 (hash Key)
    if !c.Properties.HasKey PropertyKey then
      (AddKey c Key).SetProperty PropertyKey Value
    else
      c.SetProperty PropertyKey Value
  else c

/-- The method `CustomSpaceComponent::RemoveCustomProperty`. -/
def RemoveCustomProperty (hash : CspString → Nat) (c : ComponentBase H) (Key : CspString) :
    ComponentBase H :=
  let PropertyKey := toUInt32 (hash Key)
  if c.Properties.HasKey PropertyKey then
    RemoveKey (c.RemoveProperty PropertyKey) Key
  else c

/-- A call that changes the custom properties of a component. -/
inductive CustomCall
  | Set (Key : CspString) (Value : ReplicatedValue)
  | Remove (Key : CspString)
  deriving DecidableEq

/-- The component after one call. -/
def CustomCall.apply (hash : CspString → Nat) (c : ComponentBase H) : CustomCall → ComponentBase H
  | CustomCall.Set Key Value => SetCustomProperty hash c Key Value
  | CustomCall.Remove Key => RemoveCustomProperty hash c Key

/-- The component after a sequence of calls, made in order. -/
def CustomCall.run (hash : CspString → Nat) (c : ComponentBase H) (calls : List CustomCall) :
    ComponentBase H :=
  calls.foldl (CustomCall.apply hash) c

/-- The name a call is about. -/
def CustomCall.Key : CustomCall → CspString
  | CustomCall.Set Key _ => Key
  | CustomCall.Remove Key => Key

/-- The names in use after one more call, given the names `L` in use before it: a
name set with a valid value for the first time goes to the end of the list, a
removed name leaves it. -/
def CustomCall.track (L : List CspString) : CustomCall → List CspString
  | CustomCall.Set Key Value =>
    if Value.GetReplicatedValueType ≠ ReplicatedValueType.InvalidType then
      if Key ∈ L then L else L ++ [Key]
    else L
  | CustomCall.Remove Key => L.erase Key

/-- A sample hash function, for instantiating statements at concrete names: a
polynomial hash of the character codes. -/
def sampleHash (s : CspString) : Nat :=
  s.foldl (fun a ch => 31 * a + ch.toNat) 7

/-- The six properties that the test `CustomComponentTest` sets, in its order
(the floats as their bit patterns). -/
def testProperties : List (CspString × ReplicatedValue) :=
  [ ("Vector3".toList, ReplicatedValue.vector3 1092616192 1092616192 1092616192),
    ("Vector4".toList, ReplicatedValue.vector4 1092616192 1092616192 1092616192 1092616192),
    ("String".toList, ReplicatedValue.string "OKO".toList),
    ("Boolean".toList, ReplicatedValue.boolean true),
    ("Integer".toList, ReplicatedValue.integer 1),
    ("Float".toList, ReplicatedValue.float 1065353216) ]

/-- The keys of `Properties`, described by the list `L` of the names in use: the
application-origin entry, the entries of the names in `L` and, possibly, the
key-list entry. `P` singles out the names the calls may use. -/
structure KeyInvariant (hash : CspString → Nat) (ApplicationOrigin : Nat)
    (P : CspString → Prop) (c : ComponentBase H) (L : List CspString) : Prop where
  origin : c.Properties.HasKey ApplicationOrigin = true
  keys : ∀ k, k ≠ 0 → k ≠ ApplicationOrigin →
    (c.Properties.HasKey k = true ↔ ∃ K ∈ L, toUInt32 (hash K) = k)
  size : c.Properties.Size
    = L.length + 1 + (if ApplicationOrigin ≠ 0 ∧ c.Properties.HasKey 0 = true then 1 else 0)
  nodup : L.Nodup
  names : ∀ K ∈ L, P K

/-- The entry under `CUSTOM_PROPERTY_LIST_KEY`, described by the list `L` of the
names in use: the names of `L` joined with commas. -/
structure ListInvariant (c : ComponentBase H) (L : List CspString) : Prop where
  absent : c.Properties.HasKey 0 = false → L = []
  stored : ∀ v, c.Properties.find 0 = some v → v = ReplicatedValue.string (joinKeys L)
  shape : ∀ K ∈ L, K ≠ [] ∧ ',' ∉ K

end CustomSpaceComponent

namespace ComponentBase

variable {H : Type}

/-- The method `ComponentBase::GetId`; the member `Id` is a `uint16_t`. -/
def GetId (c : ComponentBase H) : Nat := toUInt16 c.Id

/-- The method `ComponentBase::GetComponentType`. -/
def GetComponentType (c : ComponentBase H) : ComponentType := c.Type_

/-- Modelled from the spec: `ComponentBase::SetProperties` is defined in
`ComponentBase.cpp`, which is not among the sources, and the spec names no bulk
setter: property values change via `SetProperty`, which always re-dirties the
key, so every entry of the given map is set through `SetProperty`. -/
def SetProperties (c : ComponentBase H) (Value : Map Nat ReplicatedValue) : ComponentBase H :=
  Value.entries.foldl (fun c e => c.SetProperty e.1 e.2) c

/-- Modelled from the spec: the flush of a component, the part of `BuildPatch` that
clears the dirty markers of the component once they are in the built patch. -/
def ClearDirtyProperties (c : ComponentBase H) : ComponentBase H :=
  { c with DirtyProperties := Map.empty }

/-- A call that changes the properties of a component: the four setters of
`ComponentBase`, the flush, and the two setters of `CustomSpaceComponent`. -/
inductive PropertyCall
  | SetProperty (Key : Nat) (Value : ReplicatedValue)
  | RemoveProperty (Key : Nat)
  | SetProperties (Value : Map Nat ReplicatedValue)
  | SetPropertyFromPatch (Key : Nat) (Value : ReplicatedValue)
  | ClearDirtyProperties
  | SetCustomProperty (Key : CspString) (Value : ReplicatedValue)
  | RemoveCustomProperty (Key : CspString)

/-- The component after one call. -/
def PropertyCall.apply (hash : CspString → Nat) (c : ComponentBase H) :
    PropertyCall → ComponentBase H
  | PropertyCall.SetProperty Key Value => c.SetProperty Key Value
  | PropertyCall.RemoveProperty Key => c.RemoveProperty Key
  | PropertyCall.SetProperties Value => c.SetProperties Value
  | PropertyCall.SetPropertyFromPatch Key Value => c.SetPropertyFromPatch Key Value
  | PropertyCall.ClearDirtyProperties => c.ClearDirtyProperties
  | PropertyCall.SetCustomProperty Key Value =>
    CustomSpaceComponent.SetCustomProperty hash c Key Value
  | PropertyCall.RemoveCustomProperty Key => CustomSpaceComponent.RemoveCustomProperty hash c Key

/-- The component after a sequence of calls, made in order. -/
def PropertyCall.run (hash : CspString → Nat) (c : ComponentBase H)
    (calls : List PropertyCall) : ComponentBase H :=
  calls.foldl (PropertyCall.apply hash) c

end ComponentBase

namespace AudioSpaceComponent

variable {H : Type}

/-- Modelled from the spec: `AudioSpaceComponent::GetVolume` (`AudioSpaceComponent.cpp`
is not among the sources) reads the volume property, a float; `Volume` is the
numeric value of the property key, which is declared in a header that is not
among the sources. The result is `0.f` when the stored value is not a float. -/
def GetVolume (Volume : Nat) (c : ComponentBase H) : Nat :=
  match c.GetProperty Volume with
  | ReplicatedValue.float bits => bits
  | _ => Float32.zero

/-- Modelled from the spec: `AudioSpaceComponent::SetVolume` (`AudioSpaceComponent.cpp`
is not among the sources) sets a property bounded by 0.0 and 1.0: a value outside
the range leaves the stored value unchanged from its last valid setting. -/
def SetVolume (Volume : Nat) (c : ComponentBase H) (Value : Nat) : ComponentBase H :=
  if Float32.le Float32.zero Value && Float32.le Value Float32.one then
    c.SetProperty Volume (ReplicatedValue.float Value)
  else c

end AudioSpaceComponent

/-- The structure `SpaceTransform`: position, rotation and scale, the floats of
each vector as their bit patterns. -/
structure SpaceTransform where
  Position : Nat × Nat × Nat
  Rotation : Nat × Nat × Nat × Nat
  Scale : Nat × Nat × Nat
  deriving DecidableEq, Repr

/-- Modelled from the spec: the class `SpaceEntity` (its sources are not among the
files at hand), with the attributes of an entity that the operations below read
or write: name, transform, the components keyed by their `uint16_t` id, the
monotonic counter of component ids, the markers of the components removed since
the last flush, the dirty flag and the selection state. -/
structure SpaceEntity (H : Type) where
  Name : CspString
  Transform : SpaceTransform
  Components : Map Nat (ComponentBase H)
  NextComponentId : Nat
  RemovedComponents : List Nat
  IsDirty : Bool
  Selected : Bool

namespace SpaceEntity

variable {H : Type}

/-- Modelled from the spec: a newly created entity has the given name and transform,
no component, and is not selected; it is dirty, its creation being staged for
the next flush. -/
def create (Name : CspString) (Transform : SpaceTransform) : SpaceEntity H :=
  { Name := Name
    Transform := Transform
    Components := Map.empty
    NextComponentId := 0
    RemovedComponents := []
    IsDirty := true
    Selected := false }

/-- Modelled from the spec: `SpaceEntity::GetName`. -/
def GetName (e : SpaceEntity H) : CspString := e.Name

/-- Modelled from the spec: `SpaceEntity::GetPosition`. -/
def GetPosition (e : SpaceEntity H) : Nat × Nat × Nat := e.Transform.Position

/-- Modelled from the spec: `SpaceEntity::GetRotation`. -/
def GetRotation (e : SpaceEntity H) : Nat × Nat × Nat × Nat := e.Transform.Rotation

/-- Modelled from the spec: `SpaceEntity::GetScale`. -/
def GetScale (e : SpaceEntity H) : Nat × Nat × Nat := e.Transform.Scale

/-- Modelled from the spec: `SpaceEntity::GetComponents`, the component map. -/
def GetComponents (e : SpaceEntity H) : Map Nat (ComponentBase H) := e.Components

/-- Modelled from the spec: `SpaceEntity::GetComponent`, the component with the given
id, if the entity has one. -/
def GetComponent (e : SpaceEntity H) (Key : Nat) : Option (ComponentBase H) :=
  e.Components.find Key

/-- The first component of the given kind in the component map, if any. -/
def FindFirstComponentOfType (e : SpaceEntity H) (Type_ : ComponentType) :
    Option (ComponentBase H) :=
  (e.Components.entries.find? (fun kv => decide (kv.2.Type_ = Type_))).map Prod.snd

/-- The component that `AddComponent` reuses instead of creating one: for the
singleton kind `ScriptData`, the component of that kind the entity already
has. -/
def ExistingSingleton (e : SpaceEntity H) (Type_ : ComponentType) : Option (ComponentBase H) :=
  if Type_ = ComponentType.ScriptData then e.FindFirstComponentOfType Type_ else none

/-- Modelled from the spec: `SpaceEntity::AddComponent` allocates the next unused
component id from a monotonic counter (the id is a `uint16_t`), seeds the
default properties of the kind, marks the entity dirty and returns the new
component; a second `AddComponent(ScriptData)` is rejected and the existing
instance is returned. `defaults` gives the default properties of every kind (the
catalog of component kinds is not part of the core). The result is the entity
after the call and the component returned. -/
def AddComponent (defaults : ComponentType → Map Nat ReplicatedValue) (e : SpaceEntity H)
    (Type_ : ComponentType) : SpaceEntity H × ComponentBase H :=
  match e.ExistingSingleton Type_ with
  | some Existing => (e, Existing)
  | none =>
    let ComponentId := toUInt16 e.NextComponentId
    let Component : ComponentBase H :=
      { ComponentBase.create Type_ ComponentId with Properties := defaults Type_ }
    ({ e with
        Components := e.Components.set ComponentId Component
        NextComponentId := e.NextComponentId + 1
        IsDirty := true },
      Component)

/-- Modelled from the spec: `SpaceEntity::RemoveComponent` marks the component for
removal, which is communicated as a dirty operation, and takes effect locally
at once: further lookups of the id fail. -/
def RemoveComponent (e : SpaceEntity H) (Key : Nat) : SpaceEntity H :=
  { e with
    Components := e.Components.Remove Key
    RemovedComponents := e.RemovedComponents ++ [Key]
    IsDirty := true }

/-- Modelled from the spec: `SpaceEntity::QueueUpdate` marks the entity dirty. -/
def QueueUpdate (e : SpaceEntity H) : SpaceEntity H :=
  { e with IsDirty := true }

/-- Modelled from the spec: the entity after `BuildPatch`, which clears every dirty
marker that is in the built patch: the dirty flag, the dirty maps of the
components and the removal markers. This is what a processed update does to a
queued entity. -/
def BuildPatch (e : SpaceEntity H) : SpaceEntity H :=
  { e with
    Components := e.Components.mapValues ComponentBase.ClearDirtyProperties
    RemovedComponents := []
    IsDirty := false }

/-- Modelled from the spec: `SpaceEntity::Select`, the selection flag goes to
Selected. -/
def Select (e : SpaceEntity H) : SpaceEntity H :=
  { e with Selected := true }

/-- Modelled from the spec: `SpaceEntity::Deselect`, the selection flag goes to
Unselected. -/
def Deselect (e : SpaceEntity H) : SpaceEntity H :=
  { e with Selected := false }

/-- Modelled from the spec: `SpaceEntity::IsSelected`. -/
def IsSelected (e : SpaceEntity H) : Bool := e.Selected

/-- A call that adds or removes a component. -/
inductive ComponentCall
  | Add (Type_ : ComponentType)
  | Remove (Key : Nat)
  deriving DecidableEq

/-- The entity after one call, and the ids of the components created so far with
the id of the component the call creates, if it creates one, at the end. -/
def ComponentCall.apply (defaults : ComponentType → Map Nat ReplicatedValue)
    (s : SpaceEntity H × List Nat) : ComponentCall → SpaceEntity H × List Nat
  | ComponentCall.Add Type_ =>
    ((s.1.AddComponent defaults Type_).1,
      if (s.1.ExistingSingleton Type_).isSome then s.2
      else s.2 ++ [(s.1.AddComponent defaults Type_).2.GetId])
  | ComponentCall.Remove Key => (s.1.RemoveComponent Key, s.2)

/-- The entity after a sequence of calls, made in order, and the ids of the
components the calls create, in the order of their creation. -/
def ComponentCall.run (defaults : ComponentType → Map Nat ReplicatedValue)
    (e : SpaceEntity H) (calls : List ComponentCall) : SpaceEntity H × List Nat :=
  calls.foldl (ComponentCall.apply defaults) (e, [])

/-- A call that changes the selection of an entity. -/
inductive SelectionCall
  | Select
  | Deselect
  deriving DecidableEq

/-- The entity after one selection call. -/
def SelectionCall.apply (e : SpaceEntity H) : SelectionCall → SpaceEntity H
  | SelectionCall.Select => e.Select
  | SelectionCall.Deselect => e.Deselect

/-- The entity after a sequence of selection calls, made in order. -/
def SelectionCall.run (e : SpaceEntity H) (calls : List SelectionCall) : SpaceEntity H :=
  calls.foldl SelectionCall.apply e

end SpaceEntity

/-- Modelled from the spec: the class `SpaceEntitySystem` (its sources are not among
the files at hand), the collection of all the entities of the session, in the
order of their creation. -/
structure SpaceEntitySystem (H : Type) where
  Entities : List (SpaceEntity H)

namespace SpaceEntitySystem

variable {H : Type}

/-- Modelled from the spec: `SpaceEntitySystem::CreateObject` stages a locally owned
entity with the given name and transform. The result is the system after the
call and the created entity. -/
def CreateObject (s : SpaceEntitySystem H) (Name : CspString) (Transform : SpaceTransform) :
    SpaceEntitySystem H × SpaceEntity H :=
  ({ s with Entities := s.Entities ++ [SpaceEntity.create Name Transform] },
    SpaceEntity.create Name Transform)

/-- Modelled from the spec: `SpaceEntitySystem::FindComponentById` is a linear lookup
across the components of all entities: the first component whose id is the
given one. -/
def FindComponentById (s : SpaceEntitySystem H) (Id : Nat) : Option (ComponentBase H) :=
  s.Entities.findSome? (fun e =>
    (e.Components.entries.find? (fun kv => decide (kv.2.GetId = Id))).map Prod.snd)

end SpaceEntitySystem

end multiplayer

/-! ## csp::systems -/

namespace systems

open common

/-- The enumeration `csp::services::EResultCode`; its header is not among the
sources, `ScriptSystem.cpp` uses `Success` and `Failed`. -/
inductive EResultCode
  | Init
  | InProgress
  | Success
  | Failed
  deriving DecidableEq, Repr

/-- The class `NullResult`: a result code and an HTTP result code. -/
structure NullResult where
  ResultCode : EResultCode
  HttpResultCode : Nat
  deriving DecidableEq

/-- The class `AssetCollection`, with the members that `ScriptSystem.cpp` uses. -/
structure AssetCollection where
  Id : CspString
  Metadata : Map CspString CspString
  deriving DecidableEq

/-- The class `AssetCollectionResult`. -/
structure AssetCollectionResult where
  ResultCode : EResultCode
  HttpResultCode : Nat
  AssetCollection : AssetCollection
  deriving DecidableEq

/-- The class `Asset`, with the member that `ScriptSystem.cpp` uses. -/
structure Asset where
  Id : CspString
  deriving DecidableEq

/-- The class `AssetResult`. -/
structure AssetResult where
  ResultCode : EResultCode
  HttpResultCode : Nat
  Asset : Asset
  deriving DecidableEq

/-- The class `ScriptModuleCollection`. -/
structure ScriptModuleCollection where
  Id : CspString
  LookupTable : Map CspString CspString
  deriving DecidableEq

/-- The class `ScriptModuleCollectionResult`. -/
structure ScriptModuleCollectionResult where
  ResultCode : EResultCode
  HttpResultCode : Nat
  Collection : ScriptModuleCollection
  deriving DecidableEq

/-- The class `ScriptModuleAssetResult`, with the members that `ScriptSystem.cpp`
sets: the two codes given to the constructor and the response body, which is
empty unless it is set. -/
structure ScriptModuleAssetResult where
  ResultCode : EResultCode
  HttpResultCode : Nat
  ResponseBody : CspString
  deriving DecidableEq

/-- The asset system, an outside collaborator: for every request that
`ScriptSystem.cpp` makes and whose result it reads, the result that the asset
system hands to the callback of the request. Every request calls its callback
once. -/
structure AssetSystem where
  GetAssetCollectionByName : CspString → AssetCollectionResult
  GetAssetCollectionById : CspString → AssetCollectionResult
  CreateAsset : CspString → CspString → AssetResult
  UpdateAssetCollectionMetadata : CspString → Map CspString CspString → AssetCollectionResult

/-- What a function of the script system does that can be seen from outside: the
requests to the asset system with their arguments, and the invocations of the
caller's callback (a `NullResultCallback` or a `ScriptModuleAssetResultCallback`)
with the result passed. -/
inductive Event
  | GetAssetCollectionByName (Name : CspString)
  | GetAssetCollectionById (Id : CspString)
  | GetAssetById (AssetCollectionId AssetId : CspString)
  | CreateAsset (AssetCollectionId Name : CspString)
  | UploadAssetData (AssetCollectionId AssetId Data : CspString)
  | UpdateAssetCollectionMetadata (AssetCollectionId : CspString)
      (NewMetadata : Map CspString CspString)
  | Callback (Result : NullResult)
  | ModuleCallback (Result : ScriptModuleAssetResult)
  deriving DecidableEq

/-- Whether an event is an invocation of the caller's callback. -/
def Event.isCallback : Event → Bool
  | Event.Callback _ => true
  | Event.ModuleCallback _ => true
  | _ => false

/-- Whether an event creates or uploads an asset or updates a lookup table. -/
def Event.isWrite : Event → Bool
  | Event.CreateAsset _ _ => true
  | Event.UploadAssetData _ _ _ => true
  | Event.UpdateAssetCollectionMetadata _ _ => true
  | _ => false

/-- The caller's callback, as the event of its invocation. -/
def recordCallback (Result : NullResult) : List Event := [Event.Callback Result]

/-- The caller's `ScriptModuleAssetResultCallback`, as the event of its invocation. -/
def recordModuleCallback (Result : ScriptModuleAssetResult) : List Event :=
  [Event.ModuleCallback Result]

/-- The script runtime as `RunScript` and `RunScriptFile` use it (`ScriptRuntime.h`,
`ScriptContext.h` and quickjs are not among the sources). `GetContext` gives the
context of an id, or none for `nullptr`; `eval` and `evalFile` give the value of
an evaluation in a context; `isException` tells whether a value is an exception.
`C` is the type of contexts and `V` the type of values. -/
structure ScriptRuntime (C V : Type) where
  GetContext : Int → Option C
  eval : C → CspString → V
  evalFile : C → CspString → V
  isException : V → Bool

/-- An evaluation that a call asks of a context: of a script text, or of the file
at a path. -/
inductive Evaluation (C : Type)
  | eval (Context : C) (ScriptText : CspString)
  | evalFile (Context : C) (ScriptFilePath : CspString)

/-- The constant `ASSET_COLLECTION_NAME_PREFIX` of `ScriptSystem.cpp`. -/
def ASSET_COLLECTION_NAME_PREFIX : CspString := "OKO_SCRIPTMODULENAMESPACE_".toList

namespace ScriptSystem

/-- The function `ScriptSystem::_GetScriptModuleCollectionCallback`: the events of
the callback it is given, called with the result it builds. -/
def _GetScriptModuleCollectionCallback (Callback : ScriptModuleCollectionResult → List Event)
    (Result : AssetCollectionResult) : List Event :=
  let AssetCollection := Result.AssetCollection
  let Metadata := AssetCollection.Metadata
  let InternalResult : ScriptModuleCollectionResult :=
    { ResultCode := EResultCode.Success
      HttpResultCode := 400
      Collection := { Id := AssetCollection.Id, LookupTable := Metadata } }
  Callback InternalResult

/-- The method `ScriptSystem::GetScriptModuleCollection`. -/
def GetScriptModuleCollection (AssetSystem : AssetSystem) (Namespace : CspString)
    (Callback : ScriptModuleCollectionResult → List Event) : List Event :=
  let AssetCollectionName := ASSET_COLLECTION_NAME_PREFIX ++ Namespace
  Event.GetAssetCollectionByName AssetCollectionName ::
    _GetScriptModuleCollectionCallback Callback
      (AssetSystem.GetAssetCollectionByName AssetCollectionName)

/-- The method `ScriptSystem::GetScriptModuleCollectionById`. -/
def GetScriptModuleCollectionById (AssetSystem : AssetSystem) (Id : CspString)
    (Callback : ScriptModuleCollectionResult → List Event) : List Event :=
  Event.GetAssetCollectionById Id ::
    _GetScriptModuleCollectionCallback Callback (AssetSystem.GetAssetCollectionById Id)

/-- The method `ScriptSystem::UpdateScriptModuleCollectionLookupTable`. -/
def UpdateScriptModuleCollectionLookupTable (AssetSystem : AssetSystem)
    (Collection : ScriptModuleCollection) (NewLookupTable : Map CspString CspString)
    (Callback : NullResult → List Event) : List Event :=
  let Result := AssetSystem.UpdateAssetCollectionMetadata Collection.Id NewLookupTable
  Event.UpdateAssetCollectionMetadata Collection.Id NewLookupTable ::
    Callback { ResultCode := Result.ResultCode, HttpResultCode := Result.HttpResultCode }

/-- The method `ScriptSystem::CreateScriptModuleAsset`. `InvalidNullResult` is the
value of `NullResult::Invalid()`, which is defined in a file that is not among
the sources. -/
def CreateScriptModuleAsset (AssetSystem : AssetSystem) (InvalidNullResult : NullResult)
    (Namespace Name ModuleText : CspString) (Callback : NullResult → List Event) : List Event :=
  GetScriptModuleCollection AssetSystem Namespace (fun Result =>
    let Collection := Result.Collection
    let LookupTable := Collection.LookupTable
    (if LookupTable.HasKey Name then Callback InvalidNullResult else []) ++
      (let AssetName := Collection.Id ++ "_".toList ++ Name
      Event.CreateAsset Collection.Id AssetName ::
        (let Asset := (AssetSystem.CreateAsset Collection.Id AssetName).Asset
        Event.UploadAssetData Collection.Id Asset.Id ModuleText ::
          (let NewLookupTable := LookupTable.set Name Asset.Id
          UpdateScriptModuleCollectionLookupTable AssetSystem Collection NewLookupTable
            Callback))))

/-- The method `ScriptSystem::GetScriptModuleAsset`. `GetAssetCallback` is a lambda
with an empty body: the request `GetAssetById` is made and nothing follows from
its result. `LookupTable[Name]` is read only where `HasKey(Name)` holds, so the
test and the read are one lookup here. -/
def GetScriptModuleAsset (AssetSystem : AssetSystem) (Collection : ScriptModuleCollection)
    (Name : CspString) (Callback : ScriptModuleAssetResult → List Event) : List Event :=
  let LookupTable := Collection.LookupTable
  match LookupTable.find Name with
  | some AssetId => [Event.GetAssetById Collection.Id AssetId]
  | none =>
    GetScriptModuleCollectionById AssetSystem Collection.Id (fun Result =>
      if Result.ResultCode = EResultCode.Success then
        let Collection := Result.Collection
        let LookupTable := Collection.LookupTable
        match LookupTable.find Name with
        | some AssetId => [Event.GetAssetById Collection.Id AssetId]
        | none =>
          Callback
            { ResultCode := EResultCode.Failed
              HttpResultCode := Result.HttpResultCode
              ResponseBody := "Module does not exist in namespace!".toList }
      else if Result.ResultCode = EResultCode.Failed then
        Callback
          { ResultCode := Result.ResultCode
            HttpResultCode := Result.HttpResultCode
            ResponseBody := [] }
      else [])

/-- The method `ScriptSystem::RunScript`, for an initialised script system
(`TheScriptRuntime` is not null): the value returned and the evaluations asked
of the context. -/
def RunScript {C V : Type} (TheScriptRuntime : ScriptRuntime C V) (ContextId : Int)
    (ScriptText : CspString) : Bool × List (Evaluation C) :=
  match TheScriptRuntime.GetContext ContextId with
  | none => (false, [])
  | some TheScriptContext =>
    let Result := TheScriptRuntime.eval TheScriptContext ScriptText
    let HasErrors := TheScriptRuntime.isException Result
    (!HasErrors, [Evaluation.eval TheScriptContext ScriptText])

/-- The method `ScriptSystem::RunScriptFile`, for an initialised script system: the
value returned and the evaluations asked of the context. -/
def RunScriptFile {C V : Type} (TheScriptRuntime : ScriptRuntime C V) (ContextId : Int)
    (ScriptFilePath : CspString) : Bool × List (Evaluation C) :=
  match TheScriptRuntime.GetContext ContextId with
  | none => (false, [])
  | some TheScriptContext =>
    let Result := TheScriptRuntime.evalFile TheScriptContext ScriptFilePath
    let HasErrors := TheScriptRuntime.isException Result
    (!HasErrors, [Evaluation.evalFile TheScriptContext ScriptFilePath])

end ScriptSystem

end systems

/-! ## Lemmas on maps -/

namespace common

namespace Map

variable {K V : Type} [DecidableEq K]

theorem rawFind_eq_none_iff (k : K) (l : List (K × V)) :
    rawFind k l = none ↔ k ∉ l.map Prod.fst := by
  induction l with
  | nil => simp [rawFind]
  | cons e l ih =>
    by_cases h : e.1 = k
    · simp [rawFind, h]
    · simp only [rawFind, h, if_false, ih, List.map_cons, List.mem_cons, not_or]
      exact ⟨fun h1 => ⟨fun h2 => h h2.symm, h1⟩, fun h1 => h1.2⟩

theorem rawFind_rawErase_same (k : K) (l : List (K × V)) : rawFind k (rawErase k l) = none := by
  rw [rawFind_eq_none_iff]
  simp [rawErase, List.mem_filter]

theorem rawFind_rawErase_ne (k k' : K) (l : List (K × V)) (h : k' ≠ k) :
    rawFind k' (rawErase k l) = rawFind k' l := by
  induction l with
  | nil => rfl
  | cons e l ih =>
    by_cases he : e.1 = k
    · have h1 : ¬ e.1 = k' := fun h2 => h (h2.symm.trans he)
      have h2 : rawErase k (e :: l) = rawErase k l := by simp [rawErase, he]
      rw [h2, ih]
      simp [rawFind, h1]
    · have h2 : rawErase k (e :: l) = e :: rawErase k l := by simp [rawErase, he]
      rw [h2]
      by_cases h1 : e.1 = k'
      · simp [rawFind, h1]
      · simp [rawFind, h1, ih]

theorem rawErase_of_not_mem (k : K) (l : List (K × V)) (h : k ∉ l.map Prod.fst) :
    rawErase k l = l := by
  unfold rawErase
  rw [List.filter_eq_self]
  intro e he
  have h1 : e.1 ≠ k := fun h2 => h (List.mem_map.mpr ⟨e, he, h2⟩)
  simpa using h1

theorem length_rawErase (k : K) (l : List (K × V)) (hn : (l.map Prod.fst).Nodup) :
    (rawErase k l).length = if (rawFind k l).isSome then l.length - 1 else l.length := by
  induction l with
  | nil => rfl
  | cons e l ih =>
    have hl := List.nodup_cons.mp hn
    by_cases he : e.1 = k
    · have h2 : rawErase k (e :: l) = rawErase k l := by simp [rawErase, he]
      have h3 : k ∉ l.map Prod.fst := he ▸ hl.1
      rw [h2, rawErase_of_not_mem k l h3]
      simp [rawFind, he]
    · have h2 : rawErase k (e :: l) = e :: rawErase k l := by simp [rawErase, he]
      rw [h2]
      simp only [List.length_cons, rawFind, he, if_false, ih hl.2]
      split
      · rename_i h4
        have h5 : l ≠ [] := by
          rintro rfl
          simp [rawFind] at h4
        have h6 := List.length_pos.mpr h5
        omega
      · rfl

@[simp] theorem find_empty (k : K) : (empty : Map K V).find k = none := rfl

@[simp] theorem find_set_same (m : Map K V) (k : K) (v : V) : (m.set k v).find k = some v := by
  simp [find, set, rawFind]

theorem find_set_ne (m : Map K V) (k k' : K) (v : V) (h : k' ≠ k) :
    (m.set k v).find k' = m.find k' := by
  have h1 : ¬ k = k' := fun h2 => h h2.symm
  simp [find, set, rawFind, h1, rawFind_rawErase_ne k k' m.entries h]

theorem find_set (m : Map K V) (k k' : K) (v : V) :
    (m.set k v).find k' = if k' = k then some v else m.find k' := by
  by_cases h : k' = k
  · subst h
    simp
  · simp [h, find_set_ne m k k' v h]

@[simp] theorem find_Remove_same (m : Map K V) (k : K) : (m.Remove k).find k = none :=
  rawFind_rawErase_same k m.entries

theorem find_Remove_ne (m : Map K V) (k k' : K) (h : k' ≠ k) :
    (m.Remove k).find k' = m.find k' :=
  rawFind_rawErase_ne k k' m.entries h

theorem find_Remove (m : Map K V) (k k' : K) :
    (m.Remove k).find k' = if k' = k then none else m.find k' := by
  by_cases h : k' = k
  · subst h
    simp
  · simp [h, find_Remove_ne m k k' h]

theorem HasKey_set (m : Map K V) (k k' : K) (v : V) :
    (m.set k v).HasKey k' = (decide (k' = k) || m.HasKey k') := by
  unfold HasKey
  rw [find_set]
  by_cases h : k' = k <;> simp [h]

theorem HasKey_Remove (m : Map K V) (k k' : K) :
    (m.Remove k).HasKey k' = (decide (k' ≠ k) && m.HasKey k') := by
  unfold HasKey
  rw [find_Remove]
  by_cases h : k' = k <;> simp [h]

theorem Size_Remove (m : Map K V) (k : K) :
    (m.Remove k).Size = if m.HasKey k then m.Size - 1 else m.Size :=
  length_rawErase k m.entries m.nodup

theorem Size_set (m : Map K V) (k : K) (v : V) :
    (m.set k v).Size = if m.HasKey k then m.Size else m.Size + 1 := by
  have h := length_rawErase k m.entries m.nodup
  show ((k, v) :: rawErase k m.entries).length = _
  rw [List.length_cons, h]
  unfold HasKey find Size
  split
  · rename_i h4
    have h5 : m.entries ≠ [] := by
      intro h6
      rw [h6] at h4
      simp [rawFind] at h4
    have h6 := List.length_pos.mpr h5
    omega
  · rfl

theorem Size_pos_of_HasKey (m : Map K V) (k : K) (h : m.HasKey k = true) : 0 < m.Size := by
  unfold HasKey find at h
  unfold Size
  cases hm : m.entries with
  | nil =>
    rw [hm] at h
    simp [rawFind] at h
  | cons e l => simp

theorem rawFind_of_mem (k : K) (v : V) (l : List (K × V)) (hn : (l.map Prod.fst).Nodup)
    (h : (k, v) ∈ l) : rawFind k l = some v := by
  induction l with
  | nil => exact absurd h (List.not_mem_nil _)
  | cons e l ih =>
    have hl := List.nodup_cons.mp hn
    rcases List.mem_cons.mp h with h1 | h1
    · subst h1
      simp [rawFind]
    · have hne : ¬ e.1 = k := by
        intro he
        exact hl.1 (he ▸ List.mem_map_of_mem Prod.fst h1)
      simp only [rawFind, hne, if_false]
      exact ih hl.2 h1

theorem mem_of_rawFind (k : K) (v : V) (l : List (K × V)) (h : rawFind k l = some v) :
    (k, v) ∈ l := by
  induction l with
  | nil => simp [rawFind] at h
  | cons e l ih =>
    by_cases he : e.1 = k
    · simp only [rawFind, he, if_true, Option.some.injEq] at h
      have : e = (k, v) := Prod.ext he h
      rw [this]
      exact List.mem_cons_self _ _
    · simp only [rawFind, he, if_false] at h
      exact List.mem_cons_of_mem _ (ih h)

theorem find_of_mem_entries (m : Map K V) (k : K) (v : V) (h : (k, v) ∈ m.entries) :
    m.find k = some v :=
  rawFind_of_mem k v m.entries m.nodup h

theorem mem_entries_of_find (m : Map K V) (k : K) (v : V) (h : m.find k = some v) :
    (k, v) ∈ m.entries :=
  mem_of_rawFind k v m.entries h

theorem find_mapValues {W : Type} (f : V → W) (m : Map K V) (k : K) :
    (m.mapValues f).find k = (m.find k).map f := by
  unfold find mapValues
  simp only
  induction m.entries with
  | nil => rfl
  | cons e l ih =>
    by_cases he : e.1 = k
    · simp [rawFind, he]
    · simp [rawFind, he, ih]

theorem HasKey_mapValues {W : Type} (f : V → W) (m : Map K V) (k : K) :
    (m.mapValues f).HasKey k = m.HasKey k := by
  unfold HasKey
  rw [find_mapValues]
  cases m.find k <;> rfl

theorem Size_mapValues {W : Type} (f : V → W) (m : Map K V) :
    (m.mapValues f).Size = m.Size := by
  unfold Size mapValues
  simp

theorem HasKey_eq_false_iff (m : Map K V) (k : K) : m.HasKey k = false ↔ m.find k = none := by
  unfold HasKey
  cases m.find k <;> simp

theorem HasKey_eq_true_iff (m : Map K V) (k : K) : m.HasKey k = true ↔ ∃ v, m.find k = some v := by
  unfold HasKey
  cases m.find k <;> simp

end Map

/-! ## Lemmas on `Split` -/

theorem Split_cons (c : Char) (cs : CspString) (sep : Char) :
    Split (c :: cs) sep
      = if c = sep then [] :: Split cs sep
        else
          match Split cs sep with
          | [] => [[c]]
          | p :: ps => (c :: p) :: ps := by
  rw [Split]

theorem Split_ne_nil (s : CspString) (sep : Char) : Split s sep ≠ [] := by
  induction s with
  | nil => simp [Split]
  | cons c cs ih =>
    unfold Split
    split
    · simp
    · split <;> simp

theorem not_mem_of_mem_Split (sep : Char) (s p : CspString) (h : p ∈ Split s sep) : sep ∉ p := by
  induction s generalizing p with
  | nil =>
    simp only [Split, List.mem_singleton] at h
    subst h
    simp
  | cons c cs ih =>
    unfold Split at h
    split at h
    · rcases List.mem_cons.mp h with h1 | h1
      · subst h1
        simp
      · exact ih p h1
    · rename_i hc
      split at h
      · rename_i h2
        exact absurd h2 (Split_ne_nil cs sep)
      · rename_i q qs h2
        rcases List.mem_cons.mp h with h1 | h1
        · subst h1
          have hq : sep ∉ q := ih q (by rw [h2]; exact List.mem_cons_self _ _)
          intro h3
          rcases List.mem_cons.mp h3 with h4 | h4
          · exact hc h4.symm
          · exact hq h4
        · exact ih p (by rw [h2]; exact List.mem_cons_of_mem _ h1)

theorem Split_of_not_mem (sep : Char) (p : CspString) (h : sep ∉ p) : Split p sep = [p] := by
  induction p with
  | nil => rfl
  | cons c cs ih =>
    have hc : ¬ c = sep := fun h1 => h (h1 ▸ List.mem_cons_self _ _)
    have hcs : sep ∉ cs := fun h1 => h (List.mem_cons_of_mem _ h1)
    unfold Split
    rw [if_neg hc, ih hcs]

theorem Split_append (sep : Char) (p rest : CspString) (h : sep ∉ p) :
    Split (p ++ sep :: rest) sep = p :: Split rest sep := by
  induction p with
  | nil =>
    show Split (sep :: rest) sep = _
    rw [Split_cons, if_pos rfl]
  | cons c cs ih =>
    have hc : ¬ c = sep := fun h1 => h (h1 ▸ List.mem_cons_self _ _)
    have hcs : sep ∉ cs := fun h1 => h (List.mem_cons_of_mem _ h1)
    show Split (c :: (cs ++ sep :: rest)) sep = _
    rw [Split_cons, if_neg hc, ih hcs]

end common

/-! ## Lemmas on the key list of a custom component -/

namespace multiplayer

namespace CustomSpaceComponent

open common ComponentBase

variable {H : Type}

theorem foldl_join_append (a b : CspString) (ks : List CspString) :
    ks.foldl (fun ReturnKeys x => ReturnKeys ++ [','] ++ x) (a ++ b)
      = a ++ ks.foldl (fun ReturnKeys x => ReturnKeys ++ [','] ++ x) b := by
  induction ks generalizing b with
  | nil => rfl
  | cons x ks ih =>
    simp only [List.foldl_cons]
    rw [← ih]
    simp [List.append_assoc]

theorem joinKeys_cons_cons (k k' : CspString) (ks : List CspString) :
    joinKeys (k :: k' :: ks) = k ++ ',' :: joinKeys (k' :: ks) := by
  show (ks.foldl _ (k ++ [','] ++ k')) = k ++ ',' :: ks.foldl _ k'
  rw [List.append_assoc, foldl_join_append, foldl_join_append]
  rfl

theorem Split_joinKeys (L : List CspString) (hL : L ≠ []) (hc : ∀ K ∈ L, ',' ∉ K) :
    Split (joinKeys L) ',' = L := by
  induction L with
  | nil => exact absurd rfl hL
  | cons k ks ih =>
    cases ks with
    | nil =>
      show Split k ',' = [k]
      exact Split_of_not_mem ',' k (hc k (List.mem_cons_self _ _))
    | cons k' ks =>
      rw [joinKeys_cons_cons, Split_append ',' k _ (hc k (List.mem_cons_self _ _))]
      rw [ih (by simp) (fun K hK => hc K (List.mem_cons_of_mem _ hK))]

theorem joinKeys_append_singleton (L : List CspString) (K : CspString) (hL : L ≠ []) :
    joinKeys (L ++ [K]) = joinKeys L ++ [','] ++ K := by
  cases L with
  | nil => exact absurd rfl hL
  | cons k ks =>
    show (ks ++ [K]).foldl _ k = ks.foldl _ k ++ [','] ++ K
    rw [List.foldl_append]
    rfl

theorem joinKeys_ne_nil (L : List CspString) (hL : L ≠ []) (hne : ∀ K ∈ L, K ≠ []) :
    joinKeys L ≠ [] := by
  cases L with
  | nil => exact absurd rfl hL
  | cons k ks =>
    have h := foldl_join_append k [] ks
    rw [List.append_nil] at h
    show ks.foldl _ k ≠ []
    rw [h]
    intro h1
    exact hne k (List.mem_cons_self _ _) (List.append_eq_nil.mp h1).1

/-! ## How the calls change `Properties` -/

theorem GetProperty_of_find (c : ComponentBase H) (k : Nat) (v : ReplicatedValue)
    (h : c.Properties.find k = some v) : c.GetProperty k = v := by
  simp [GetProperty, h]

theorem GetProperty_of_absent (c : ComponentBase H) (k : Nat)
    (h : c.Properties.find k = none) : c.GetProperty k = ReplicatedValue.invalid := by
  simp [GetProperty, h]

theorem AddKey_of_absent (c : ComponentBase H) (K : CspString)
    (h : c.Properties.HasKey 0 = false) :
    AddKey c K = c.SetProperty 0 (ReplicatedValue.string K) := by
  simp [AddKey, CUSTOM_PROPERTY_LIST_KEY, h]

theorem AddKey_of_string (c : ComponentBase H) (K s : CspString)
    (h : c.Properties.find 0 = some (ReplicatedValue.string s)) :
    AddKey c K
      = c.SetProperty 0 (ReplicatedValue.string (if s = [] then K else s ++ [','] ++ K)) := by
  have h1 : c.Properties.HasKey 0 = true := (Map.HasKey_eq_true_iff _ _).mpr ⟨_, h⟩
  have h2 := GetProperty_of_find c 0 _ h
  by_cases hs : s = []
  · subst hs
    simp [AddKey, CUSTOM_PROPERTY_LIST_KEY, h1, h2]
  · have h3 : s.isEmpty = false := by
      cases s with
      | nil => exact absurd rfl hs
      | cons a l => rfl
    simp [AddKey, CUSTOM_PROPERTY_LIST_KEY, h1, h2, h3, hs]

theorem AddKey_of_other (c : ComponentBase H) (K : CspString) (v : ReplicatedValue)
    (h : c.Properties.find 0 = some v) (hv : ∀ s, v ≠ ReplicatedValue.string s) :
    AddKey c K = c := by
  have h1 : c.Properties.HasKey 0 = true := (Map.HasKey_eq_true_iff _ _).mpr ⟨_, h⟩
  have h2 := GetProperty_of_find c 0 _ h
  cases v with
  | string s => exact absurd rfl (hv s)
  | _ => simp [AddKey, CUSTOM_PROPERTY_LIST_KEY, h1, h2]

theorem RemoveKey_of_string (c : ComponentBase H) (K s : CspString)
    (h : c.Properties.find 0 = some (ReplicatedValue.string s)) :
    RemoveKey c K
      = if K ∈ Split s ',' then
          c.SetProperty 0 (ReplicatedValue.string (joinKeys ((Split s ',').erase K)))
        else c := by
  have h2 := GetProperty_of_find c 0 _ h
  simp [RemoveKey, CUSTOM_PROPERTY_LIST_KEY, h2]

theorem RemoveKey_of_other (c : ComponentBase H) (K : CspString)
    (h : ∀ s, c.Properties.find 0 ≠ some (ReplicatedValue.string s)) :
    RemoveKey c K = c := by
  unfold RemoveKey GetProperty
  rw [CUSTOM_PROPERTY_LIST_KEY]
  cases hf : c.Properties.find 0 with
  | none => rfl
  | some v =>
    cases v with
    | string s => exact absurd hf (h s)
    | _ => rfl

theorem AddKey_HasKey (c : ComponentBase H) (K : CspString) (k : Nat) :
    (AddKey c K).Properties.HasKey k = (decide (k = 0) || c.Properties.HasKey k) := by
  cases hf : c.Properties.find 0 with
  | none =>
    rw [AddKey_of_absent c K ((Map.HasKey_eq_false_iff _ _).mpr hf)]
    exact Map.HasKey_set _ _ _ _
  | some v =>
    have h1 : c.Properties.HasKey 0 = true := (Map.HasKey_eq_true_iff _ _).mpr ⟨_, hf⟩
    by_cases hv : ∃ s, v = ReplicatedValue.string s
    · obtain ⟨s, rfl⟩ := hv
      rw [AddKey_of_string c K s hf]
      exact Map.HasKey_set _ _ _ _
    · rw [AddKey_of_other c K v hf (fun s hs => hv ⟨s, hs⟩)]
      by_cases hk : k = 0
      · subst hk
        simp [h1]
      · simp [hk]

theorem AddKey_Size (c : ComponentBase H) (K : CspString) :
    (AddKey c K).Properties.Size
      = if c.Properties.HasKey 0 = true then c.Properties.Size else c.Properties.Size + 1 := by
  cases hf : c.Properties.find 0 with
  | none =>
    have h1 : c.Properties.HasKey 0 = false := (Map.HasKey_eq_false_iff _ _).mpr hf
    rw [AddKey_of_absent c K h1]
    show (c.Properties.set 0 _).Size = _
    rw [Map.Size_set]
  | some v =>
    have h1 : c.Properties.HasKey 0 = true := (Map.HasKey_eq_true_iff _ _).mpr ⟨_, hf⟩
    by_cases hv : ∃ s, v = ReplicatedValue.string s
    · obtain ⟨s, rfl⟩ := hv
      rw [AddKey_of_string c K s hf]
      show (c.Properties.set 0 _).Size = _
      rw [Map.Size_set]
    · rw [AddKey_of_other c K v hf (fun s hs => hv ⟨s, hs⟩), if_pos h1]

theorem AddKey_find_ne (c : ComponentBase H) (K : CspString) (k : Nat) (hk : k ≠ 0) :
    (AddKey c K).Properties.find k = c.Properties.find k := by
  cases hf : c.Properties.find 0 with
  | none =>
    rw [AddKey_of_absent c K ((Map.HasKey_eq_false_iff _ _).mpr hf)]
    exact Map.find_set_ne _ _ _ _ hk
  | some v =>
    by_cases hv : ∃ s, v = ReplicatedValue.string s
    · obtain ⟨s, rfl⟩ := hv
      rw [AddKey_of_string c K s hf]
      exact Map.find_set_ne _ _ _ _ hk
    · rw [AddKey_of_other c K v hf (fun s hs => hv ⟨s, hs⟩)]

theorem RemoveKey_cases (c : ComponentBase H) (K : CspString) :
    RemoveKey c K = c ∨
      ∃ s, c.Properties.HasKey 0 = true ∧ RemoveKey c K = c.SetProperty 0 (ReplicatedValue.string s) := by
  by_cases h : ∃ s, c.Properties.find 0 = some (ReplicatedValue.string s)
  · obtain ⟨s, hs⟩ := h
    rw [RemoveKey_of_string c K s hs]
    by_cases hK : K ∈ Split s ','
    · rw [if_pos hK]
      exact Or.inr ⟨_, (Map.HasKey_eq_true_iff _ _).mpr ⟨_, hs⟩, rfl⟩
    · rw [if_neg hK]
      exact Or.inl rfl
  · exact Or.inl (RemoveKey_of_other c K (fun s hs => h ⟨s, hs⟩))

theorem RemoveKey_HasKey (c : ComponentBase H) (K : CspString) (k : Nat) :
    (RemoveKey c K).Properties.HasKey k = c.Properties.HasKey k := by
  rcases RemoveKey_cases c K with h | ⟨s, h0, h⟩
  · rw [h]
  · rw [h]
    show (c.Properties.set 0 _).HasKey k = _
    rw [Map.HasKey_set]
    by_cases hk : k = 0
    · subst hk
      simp [h0]
    · simp [hk]

theorem RemoveKey_Size (c : ComponentBase H) (K : CspString) :
    (RemoveKey c K).Properties.Size = c.Properties.Size := by
  rcases RemoveKey_cases c K with h | ⟨s, h0, h⟩
  · rw [h]
  · rw [h]
    show (c.Properties.set 0 _).Size = _
    rw [Map.Size_set, if_pos h0]

theorem RemoveKey_find_ne (c : ComponentBase H) (K : CspString) (k : Nat) (hk : k ≠ 0) :
    (RemoveKey c K).Properties.find k = c.Properties.find k := by
  rcases RemoveKey_cases c K with h | ⟨s, _, h⟩
  · rw [h]
  · rw [h]
    exact Map.find_set_ne _ _ _ _ hk

theorem SetCustomProperty_of_valid (hash : CspString → Nat) (c : ComponentBase H)
    (K : CspString) (V : ReplicatedValue)
    (hV : V.GetReplicatedValueType ≠ ReplicatedValueType.InvalidType) :
    SetCustomProperty hash c K V
      = if c.Properties.HasKey (toUInt32 (hash K)) = true then c.SetProperty (toUInt32 (hash K)) V
        else (AddKey c K).SetProperty (toUInt32 (hash K)) V := by
  unfold SetCustomProperty
  rw [if_pos hV]
  by_cases h : c.Properties.HasKey (toUInt32 (hash K)) = true
  · simp [h]
  · simp [h]

theorem SetCustomProperty_of_invalid (hash : CspString → Nat) (c : ComponentBase H)
    (K : CspString) (V : ReplicatedValue)
    (hV : V.GetReplicatedValueType = ReplicatedValueType.InvalidType) :
    SetCustomProperty hash c K V = c := by
  unfold SetCustomProperty
  rw [if_neg (not_not.mpr hV)]

theorem SetCustomProperty_find_key (hash : CspString → Nat) (c : ComponentBase H)
    (K : CspString) (V : ReplicatedValue)
    (hV : V.GetReplicatedValueType ≠ ReplicatedValueType.InvalidType) :
    (SetCustomProperty hash c K V).Properties.find (toUInt32 (hash K)) = some V := by
  rw [SetCustomProperty_of_valid hash c K V hV]
  split <;> exact Map.find_set_same _ _ _

theorem SetCustomProperty_find_ne (hash : CspString → Nat) (c : ComponentBase H)
    (K : CspString) (V : ReplicatedValue) (k : Nat) (hk : k ≠ toUInt32 (hash K)) (h0 : k ≠ 0) :
    (SetCustomProperty hash c K V).Properties.find k = c.Properties.find k := by
  by_cases hV : V.GetReplicatedValueType = ReplicatedValueType.InvalidType
  · rw [SetCustomProperty_of_invalid hash c K V hV]
  · rw [SetCustomProperty_of_valid hash c K V hV]
    split
    · exact Map.find_set_ne _ _ _ _ hk
    · show ((AddKey c K).Properties.set _ _).find k = _
      rw [Map.find_set_ne _ _ _ _ hk, AddKey_find_ne c K k h0]

theorem SetCustomProperty_HasKey (hash : CspString → Nat) (c : ComponentBase H)
    (K : CspString) (V : ReplicatedValue) (k : Nat)
    (hV : V.GetReplicatedValueType ≠ ReplicatedValueType.InvalidType) :
    (SetCustomProperty hash c K V).Properties.HasKey k
      = (decide (k = toUInt32 (hash K))
          || (decide (k = 0) && !c.Properties.HasKey (toUInt32 (hash K)))
          || c.Properties.HasKey k) := by
  rw [SetCustomProperty_of_valid hash c K V hV]
  by_cases h : c.Properties.HasKey (toUInt32 (hash K)) = true
  · rw [if_pos h]
    show (c.Properties.set _ _).HasKey k = _
    rw [Map.HasKey_set, h]
    simp
  · rw [if_neg h]
    show ((AddKey c K).Properties.set _ _).HasKey k = _
    rw [Map.HasKey_set, AddKey_HasKey]
    rw [Bool.not_eq_true] at h
    rw [h]
    simp [Bool.or_assoc]

theorem SetCustomProperty_HasKey_mono (hash : CspString → Nat) (c : ComponentBase H)
    (K : CspString) (V : ReplicatedValue) (k : Nat) (h : c.Properties.HasKey k = true) :
    (SetCustomProperty hash c K V).Properties.HasKey k = true := by
  by_cases hV : V.GetReplicatedValueType = ReplicatedValueType.InvalidType
  · rw [SetCustomProperty_of_invalid hash c K V hV]
    exact h
  · rw [SetCustomProperty_HasKey hash c K V k hV, h]
    simp

theorem SetCustomProperty_Size (hash : CspString → Nat) (c : ComponentBase H)
    (K : CspString) (V : ReplicatedValue)
    (hV : V.GetReplicatedValueType ≠ ReplicatedValueType.InvalidType) :
    (SetCustomProperty hash c K V).Properties.Size
      = if c.Properties.HasKey (toUInt32 (hash K)) = true then c.Properties.Size
        else if toUInt32 (hash K) = 0 ∨ c.Properties.HasKey 0 = true then c.Properties.Size + 1
        else c.Properties.Size + 2 := by
  rw [SetCustomProperty_of_valid hash c K V hV]
  by_cases h : c.Properties.HasKey (toUInt32 (hash K)) = true
  · rw [if_pos h, if_pos h]
    show (c.Properties.set _ _).Size = _
    rw [Map.Size_set, if_pos h]
  · rw [if_neg h, if_neg h]
    show ((AddKey c K).Properties.set _ _).Size = _
    rw [Map.Size_set, AddKey_HasKey, AddKey_Size]
    rw [Bool.not_eq_true] at h
    by_cases hk : toUInt32 (hash K) = 0
    · rw [hk] at h
      simp [hk, h]
    · by_cases h0 : c.Properties.HasKey 0 = true
      · simp [hk, h0, h]
      · simp [hk, h0, h]

theorem RemoveCustomProperty_HasKey (hash : CspString → Nat) (c : ComponentBase H)
    (K : CspString) (k : Nat) :
    (RemoveCustomProperty hash c K).Properties.HasKey k
      = (decide (k ≠ toUInt32 (hash K)) && c.Properties.HasKey k) := by
  unfold RemoveCustomProperty
  by_cases h : c.Properties.HasKey (toUInt32 (hash K)) = true
  · simp only [h, if_true]
    rw [RemoveKey_HasKey]
    exact Map.HasKey_Remove _ _ _
  · simp only [h, if_false]
    rw [Bool.not_eq_true] at h
    by_cases hk : k = toUInt32 (hash K)
    · subst hk
      simp [h]
    · simp [hk]

theorem RemoveCustomProperty_Size (hash : CspString → Nat) (c : ComponentBase H)
    (K : CspString) :
    (RemoveCustomProperty hash c K).Properties.Size
      = if c.Properties.HasKey (toUInt32 (hash K)) = true then c.Properties.Size - 1
        else c.Properties.Size := by
  unfold RemoveCustomProperty
  by_cases h : c.Properties.HasKey (toUInt32 (hash K)) = true
  · simp only [h, if_true]
    rw [RemoveKey_Size]
    show (c.Properties.Remove _).Size = _
    rw [Map.Size_Remove, if_pos h]
  · simp only [h, if_false]
    simp

theorem RemoveCustomProperty_find_ne (hash : CspString → Nat) (c : ComponentBase H)
    (K : CspString) (k : Nat) (hk : k ≠ toUInt32 (hash K)) (h0 : k ≠ 0) :
    (RemoveCustomProperty hash c K).Properties.find k = c.Properties.find k := by
  unfold RemoveCustomProperty
  by_cases h : c.Properties.HasKey (toUInt32 (hash K)) = true
  · simp only [h, if_true]
    rw [RemoveKey_find_ne _ _ _ h0]
    exact Map.find_Remove_ne _ _ _ hk
  · simp only [h, if_false]
    simp

theorem run_cons (hash : CspString → Nat) (c : ComponentBase H) (call : CustomCall)
    (calls : List CustomCall) :
    CustomCall.run hash c (call :: calls)
      = CustomCall.run hash (CustomCall.apply hash c call) calls := rfl

/-- Every hash function sends two different names to the same 32-bit key. -/
theorem exists_key_collision (hash : CspString → Nat) :
    ∃ K K' : CspString, K ≠ K' ∧ toUInt32 (hash K) = toUInt32 (hash K') := by
  have hlt : ∀ K, toUInt32 (hash K) < 2 ^ 32 := fun K => Nat.mod_lt _ (by norm_num)
  obtain ⟨K, K', hne, heq⟩ :=
    Finite.exists_ne_map_eq_of_infinite (fun K : CspString => (⟨toUInt32 (hash K), hlt K⟩ : Fin (2 ^ 32)))
  exact ⟨K, K', hne, congrArg Fin.val heq⟩

/-! ## The key invariant along a sequence of calls -/

theorem KeyInvariant_create (hash : CspString → Nat) (ApplicationOrigin Id : Nat)
    (P : CspString → Prop) :
    KeyInvariant hash ApplicationOrigin P (create ApplicationOrigin Id : ComponentBase H) [] := by
  have hk : ∀ k, (create ApplicationOrigin Id : ComponentBase H).Properties.HasKey k
      = decide (k = ApplicationOrigin) := by
    intro k
    show ((Map.empty : Map Nat ReplicatedValue).set _ _).HasKey k = _
    rw [Map.HasKey_set]
    simp [Map.HasKey]
  refine ⟨?_, ?_, ?_, List.nodup_nil, ?_⟩
  · rw [hk]
    simp
  · intro k _ h1
    rw [hk]
    simp [h1]
  · rw [hk]
    show ((Map.empty : Map Nat ReplicatedValue).set _ _).Size = _
    rw [Map.Size_set]
    by_cases h : ApplicationOrigin = 0
    · simp [h, Map.HasKey, Map.Size, Map.empty, Map.find, Map.rawFind]
    · have h1 : ¬ (0 = ApplicationOrigin) := fun h2 => h h2.symm
      simp [h, h1, Map.HasKey, Map.Size, Map.empty, Map.find, Map.rawFind]
  · intro K hK
    exact absurd hK (List.not_mem_nil K)

theorem KeyInvariant.mem_iff {hash : CspString → Nat} {ApplicationOrigin : Nat}
    {P : CspString → Prop} {c : ComponentBase H} {L : List CspString}
    (inv : KeyInvariant hash ApplicationOrigin P c L)
    (hP : ∀ K, P K → toUInt32 (hash K) ≠ 0 ∧ toUInt32 (hash K) ≠ ApplicationOrigin)
    (hinj : ∀ K K', P K → P K' → toUInt32 (hash K) = toUInt32 (hash K') → K = K')
    (K : CspString) (hK : P K) :
    c.Properties.HasKey (toUInt32 (hash K)) = true ↔ K ∈ L := by
  rw [inv.keys _ (hP K hK).1 (hP K hK).2]
  constructor
  · rintro ⟨K', hK', he⟩
    rw [← hinj K' K (inv.names K' hK') hK he]
    exact hK'
  · intro h
    exact ⟨K, h, rfl⟩

theorem KeyInvariant.key_set {hash : CspString → Nat} {ApplicationOrigin : Nat}
    {P : CspString → Prop} {c : ComponentBase H} {L : List CspString}
    (inv : KeyInvariant hash ApplicationOrigin P c L)
    (hP : ∀ K, P K → toUInt32 (hash K) ≠ 0 ∧ toUInt32 (hash K) ≠ ApplicationOrigin)
    (hinj : ∀ K K', P K → P K' → toUInt32 (hash K) = toUInt32 (hash K') → K = K')
    (K : CspString) (V : ReplicatedValue) (hK : P K) :
    KeyInvariant hash ApplicationOrigin P (SetCustomProperty hash c K V)
      (CustomCall.track L (CustomCall.Set K V)) := by
  by_cases hV : V.GetReplicatedValueType = ReplicatedValueType.InvalidType
  · rw [SetCustomProperty_of_invalid hash c K V hV]
    simpa [CustomCall.track, hV] using inv
  have hmem := inv.mem_iff hP hinj K hK
  have hk0 := (hP K hK).1
  by_cases hin : K ∈ L
  · have hhas := hmem.mpr hin
    have hsame : ∀ k, (SetCustomProperty hash c K V).Properties.HasKey k = c.Properties.HasKey k := by
      intro k
      rw [SetCustomProperty_HasKey hash c K V k hV, hhas]
      by_cases hk : k = toUInt32 (hash K)
      · subst hk
        simp [hhas]
      · simp [hk]
    have ht : CustomCall.track L (CustomCall.Set K V) = L := by simp [CustomCall.track, hV, hin]
    rw [ht]
    refine ⟨?_, ?_, ?_, inv.nodup, inv.names⟩
    · rw [hsame]
      exact inv.origin
    · intro k h0 h1
      rw [hsame]
      exact inv.keys k h0 h1
    · rw [hsame, SetCustomProperty_Size hash c K V hV, if_pos hhas]
      exact inv.size
  · have hhas : c.Properties.HasKey (toUInt32 (hash K)) = false := by
      rw [← Bool.not_eq_true]
      exact fun h => hin (hmem.mp h)
    have hnew : ∀ k, (SetCustomProperty hash c K V).Properties.HasKey k
        = (decide (k = toUInt32 (hash K)) || decide (k = 0) || c.Properties.HasKey k) := by
      intro k
      rw [SetCustomProperty_HasKey hash c K V k hV, hhas]
      simp
    have ht : CustomCall.track L (CustomCall.Set K V) = L ++ [K] := by
      simp [CustomCall.track, hV, hin]
    rw [ht]
    refine ⟨?_, ?_, ?_, ?_, ?_⟩
    · rw [hnew, inv.origin]
      simp
    · intro k h0 h1
      rw [hnew]
      have := inv.keys k h0 h1
      simp only [h0, decide_False, Bool.or_false, Bool.or_eq_true, decide_eq_true_eq, this,
        List.mem_append, List.mem_singleton]
      constructor
      · rintro (h | ⟨K', hK', he⟩)
        · exact ⟨K, Or.inr rfl, h.symm⟩
        · exact ⟨K', Or.inl hK', he⟩
      · rintro ⟨K', hK' | hK', he⟩
        · exact Or.inr ⟨K', hK', he⟩
        · subst hK'
          exact Or.inl he.symm
    · rw [hnew, SetCustomProperty_Size hash c K V hV, hhas, inv.size]
      have h00 : ¬ (0 = toUInt32 (hash K)) := fun h => hk0 h.symm
      by_cases hA : ApplicationOrigin = 0
      · have ho := inv.origin
        rw [hA] at ho
        simp [hA, ho, hk0]
      · by_cases hz : c.Properties.HasKey 0 = true
        · simp [hA, hz, hk0]
        · simp [hA, hz, hk0]
    · exact List.Nodup.append inv.nodup (List.nodup_singleton K) (by simpa using hin)
    · intro K' hK'
      rcases List.mem_append.mp hK' with h | h
      · exact inv.names K' h
      · rw [List.mem_singleton.mp h]
        exact hK

theorem KeyInvariant.key_remove {hash : CspString → Nat} {ApplicationOrigin : Nat}
    {P : CspString → Prop} {c : ComponentBase H} {L : List CspString}
    (inv : KeyInvariant hash ApplicationOrigin P c L)
    (hP : ∀ K, P K → toUInt32 (hash K) ≠ 0 ∧ toUInt32 (hash K) ≠ ApplicationOrigin)
    (hinj : ∀ K K', P K → P K' → toUInt32 (hash K) = toUInt32 (hash K') → K = K')
    (K : CspString) (hK : P K) :
    KeyInvariant hash ApplicationOrigin P (RemoveCustomProperty hash c K) (L.erase K) := by
  have hmem := inv.mem_iff hP hinj K hK
  have hk0 := (hP K hK).1
  have hkA := (hP K hK).2
  refine ⟨?_, ?_, ?_, inv.nodup.erase K, fun K' hK' => inv.names K' (List.mem_of_mem_erase hK')⟩
  · rw [RemoveCustomProperty_HasKey, inv.origin]
    simpa using fun h => hkA h.symm
  · intro k h0 h1
    rw [RemoveCustomProperty_HasKey]
    simp only [Bool.and_eq_true, decide_eq_true_eq, inv.keys k h0 h1]
    constructor
    · rintro ⟨hne, K', hK', he⟩
      refine ⟨K', (List.mem_erase_of_ne ?_).mpr hK', he⟩
      rintro rfl
      exact hne he.symm
    · rintro ⟨K', hK', he⟩
      have h2 := (inv.nodup.mem_erase_iff).mp hK'
      refine ⟨?_, K', h2.2, he⟩
      intro h3
      exact h2.1 (hinj K' K (inv.names K' h2.2) hK (he.trans h3))
  · rw [RemoveCustomProperty_HasKey, RemoveCustomProperty_Size, inv.size]
    have h00 : (0 : Nat) ≠ toUInt32 (hash K) := fun h => hk0 h.symm
    simp only [h00, ne_eq, not_false_eq_true, decide_True, Bool.true_and]
    by_cases hin : K ∈ L
    · rw [if_pos (hmem.mpr hin), List.length_erase_of_mem hin]
      have := List.length_pos_of_mem hin
      omega
    · have hhas : ¬ c.Properties.HasKey (toUInt32 (hash K)) = true := fun h => hin (hmem.mp h)
      rw [if_neg hhas, List.erase_of_not_mem hin]

theorem KeyInvariant.key_apply {hash : CspString → Nat} {ApplicationOrigin : Nat}
    {P : CspString → Prop} {c : ComponentBase H} {L : List CspString}
    (inv : KeyInvariant hash ApplicationOrigin P c L)
    (hP : ∀ K, P K → toUInt32 (hash K) ≠ 0 ∧ toUInt32 (hash K) ≠ ApplicationOrigin)
    (hinj : ∀ K K', P K → P K' → toUInt32 (hash K) = toUInt32 (hash K') → K = K')
    (call : CustomCall) (hK : P call.Key) :
    KeyInvariant hash ApplicationOrigin P (CustomCall.apply hash c call)
      (CustomCall.track L call) := by
  cases call with
  | Set K V => exact inv.key_set hP hinj K V hK
  | Remove K => exact inv.key_remove hP hinj K hK

theorem KeyInvariant.key_run {hash : CspString → Nat} {ApplicationOrigin : Nat}
    {P : CspString → Prop}
    (hP : ∀ K, P K → toUInt32 (hash K) ≠ 0 ∧ toUInt32 (hash K) ≠ ApplicationOrigin)
    (hinj : ∀ K K', P K → P K' → toUInt32 (hash K) = toUInt32 (hash K') → K = K')
    (calls : List CustomCall) (hcalls : ∀ call ∈ calls, P call.Key)
    (c : ComponentBase H) (L : List CspString)
    (inv : KeyInvariant hash ApplicationOrigin P c L) :
    KeyInvariant hash ApplicationOrigin P (CustomCall.run hash c calls)
      (calls.foldl CustomCall.track L) := by
  induction calls generalizing c L with
  | nil => exact inv
  | cons call calls ih =>
    rw [run_cons, List.foldl_cons]
    exact ih (fun x hx => hcalls x (List.mem_cons_of_mem _ hx)) _ _
      (inv.key_apply hP hinj call (hcalls call (List.mem_cons_self _ _)))

theorem toInt32_toUInt32 (n : Nat) (h : n < 2 ^ 31) : toInt32 (toUInt32 n) = (n : Int) := by
  have h1 : n % 2 ^ 32 = n := Nat.mod_eq_of_lt (by omega)
  unfold toInt32 toUInt32
  rw [h1, h1, if_pos h]

theorem KeyInvariant.GetNumProperties_eq {hash : CspString → Nat} {ApplicationOrigin : Nat}
    {P : CspString → Prop} {c : ComponentBase H} {L : List CspString}
    (inv : KeyInvariant hash ApplicationOrigin P c L) (hlen : L.length + 2 < 2 ^ 31) :
    GetNumProperties c = (L.length : Int) + (if ApplicationOrigin = 0 then 0 else 1) := by
  unfold GetNumProperties
  rw [CUSTOM_PROPERTY_LIST_KEY]
  have hs := inv.size
  by_cases hA : ApplicationOrigin = 0
  · have ho := inv.origin
    rw [hA] at ho
    simp only [hA, ne_eq, not_true_eq_false, false_and, if_false] at hs
    rw [if_pos ho, toInt32_toUInt32 _ (by omega), hs, if_pos hA]
    simp
  · by_cases hz : c.Properties.HasKey 0 = true
    · simp only [hA, ne_eq, not_false_eq_true, hz, and_self, if_true] at hs
      rw [if_pos hz, toInt32_toUInt32 _ (by omega), hs, if_neg hA]
      simp
    · have hs2 : c.Properties.Size = L.length + 1 := by
        rw [hs, if_neg (fun h => hz h.2)]
      rw [if_neg hz, toInt32_toUInt32 _ (by omega), hs2, if_neg hA]
      simp

theorem length_foldl_track (calls : List CustomCall) (L : List CspString) :
    (calls.foldl CustomCall.track L).length ≤ L.length + calls.length := by
  induction calls generalizing L with
  | nil => simp
  | cons call calls ih =>
    rw [List.foldl_cons, List.length_cons]
    refine le_trans (ih _) ?_
    have h : (CustomCall.track L call).length ≤ L.length + 1 := by
      cases call with
      | Set K V =>
        simp only [CustomCall.track]
        split_ifs <;> simp
      | Remove K =>
        simp only [CustomCall.track]
        exact le_trans (List.length_erase_le _ _) (Nat.le_succ _)
    omega

/-! ## The key-list invariant along a sequence of calls -/

theorem ListInvariant_create (ApplicationOrigin Id : Nat) :
    ListInvariant (create ApplicationOrigin Id : ComponentBase H) [] := by
  refine ⟨fun _ => rfl, ?_, fun K hK => absurd hK (List.not_mem_nil K)⟩
  intro v hv
  have h1 : ((Map.empty : Map Nat ReplicatedValue).set ApplicationOrigin
      (ReplicatedValue.string [])).find 0 = some v := hv
  rw [Map.find_set] at h1
  by_cases h : 0 = ApplicationOrigin
  · rw [if_pos h] at h1
    exact (Option.some.inj h1).symm
  · rw [if_neg h] at h1
    exact absurd h1 (by simp)

theorem ListInvariant.keys_eq {c : ComponentBase H} {L : List CspString}
    (linv : ListInvariant c L) : GetCustomPropertyKeys c = L := by
  unfold GetCustomPropertyKeys
  rw [CUSTOM_PROPERTY_LIST_KEY]
  by_cases hz : c.Properties.HasKey 0 = true
  · rw [if_pos hz]
    obtain ⟨v, hv⟩ := (Map.HasKey_eq_true_iff _ _).mp hz
    rw [GetProperty_of_find c 0 v hv, linv.stored v hv]
    by_cases hL : L = []
    · subst hL
      rfl
    · have hne := joinKeys_ne_nil L hL (fun K hK => (linv.shape K hK).1)
      have he : (joinKeys L).isEmpty = false := by
        cases hj : joinKeys L with
        | nil => exact absurd hj hne
        | cons a l => rfl
      simp only [he, Bool.not_false, if_true]
      exact Split_joinKeys L hL (fun K hK => (linv.shape K hK).2)
  · rw [if_neg hz]
    rw [Bool.not_eq_true] at hz
    exact (linv.absent hz).symm

theorem ListInvariant.list_set {hash : CspString → Nat} {ApplicationOrigin : Nat}
    {P : CspString → Prop} {c : ComponentBase H} {L : List CspString}
    (inv : KeyInvariant hash ApplicationOrigin P c L) (linv : ListInvariant c L)
    (hP : ∀ K, P K → toUInt32 (hash K) ≠ 0 ∧ toUInt32 (hash K) ≠ ApplicationOrigin)
    (hinj : ∀ K K', P K → P K' → toUInt32 (hash K) = toUInt32 (hash K') → K = K')
    (K : CspString) (V : ReplicatedValue) (hK : P K) (hshape : K ≠ [] ∧ ',' ∉ K) :
    ListInvariant (SetCustomProperty hash c K V) (CustomCall.track L (CustomCall.Set K V)) := by
  by_cases hV : V.GetReplicatedValueType = ReplicatedValueType.InvalidType
  · rw [SetCustomProperty_of_invalid hash c K V hV]
    simpa [CustomCall.track, hV] using linv
  have hmem := inv.mem_iff hP hinj K hK
  have hk0 := (hP K hK).1
  have h00 : (0 : Nat) ≠ toUInt32 (hash K) := fun h => hk0 h.symm
  rw [SetCustomProperty_of_valid hash c K V hV]
  by_cases hin : K ∈ L
  · have ht : CustomCall.track L (CustomCall.Set K V) = L := by simp [CustomCall.track, hV, hin]
    rw [ht, if_pos (hmem.mpr hin)]
    refine ⟨?_, ?_, linv.shape⟩
    · intro h
      apply linv.absent
      have h1 : (c.Properties.set (toUInt32 (hash K)) V).HasKey 0 = false := h
      rw [Map.HasKey_set] at h1
      simpa [h00] using h1
    · intro v hv
      have h1 : (c.Properties.set (toUInt32 (hash K)) V).find 0 = some v := hv
      rw [Map.find_set_ne _ _ _ _ h00] at h1
      exact linv.stored v h1
  · have ht : CustomCall.track L (CustomCall.Set K V) = L ++ [K] := by
      simp [CustomCall.track, hV, hin]
    rw [ht, if_neg (fun h => hin (hmem.mp h))]
    have hfind : ∀ v, ((AddKey c K).SetProperty (toUInt32 (hash K)) V).Properties.find 0 = some v →
        (AddKey c K).Properties.find 0 = some v := by
      intro v hv
      have h1 : ((AddKey c K).Properties.set (toUInt32 (hash K)) V).find 0 = some v := hv
      rwa [Map.find_set_ne _ _ _ _ h00] at h1
    refine ⟨?_, ?_, ?_⟩
    · intro h
      have h1 : ((AddKey c K).Properties.set (toUInt32 (hash K)) V).HasKey 0 = false := h
      rw [Map.HasKey_set, AddKey_HasKey] at h1
      simp at h1
    · intro v hv
      have h1 := hfind v hv
      cases hf : c.Properties.find 0 with
      | none =>
        have hz : c.Properties.HasKey 0 = false := (Map.HasKey_eq_false_iff _ _).mpr hf
        rw [AddKey_of_absent c K hz] at h1
        have h2 : (c.Properties.set 0 (ReplicatedValue.string K)).find 0 = some v := h1
        rw [Map.find_set_same] at h2
        rw [linv.absent hz, ← Option.some.inj h2]
        rfl
      | some w =>
        have hw := linv.stored w hf
        subst hw
        rw [AddKey_of_string c K _ hf] at h1
        have h2 : (c.Properties.set 0 _).find 0 = some v := h1
        rw [Map.find_set_same] at h2
        rw [← Option.some.inj h2]
        by_cases hL : L = []
        · subst hL
          rfl
        · have hne := joinKeys_ne_nil L hL (fun K' hK' => (linv.shape K' hK').1)
          rw [if_neg hne, joinKeys_append_singleton L K hL]
    · intro K' hK'
      rcases List.mem_append.mp hK' with h | h
      · exact linv.shape K' h
      · rw [List.mem_singleton.mp h]
        exact hshape

theorem ListInvariant.list_remove {hash : CspString → Nat} {ApplicationOrigin : Nat}
    {P : CspString → Prop} {c : ComponentBase H} {L : List CspString}
    (inv : KeyInvariant hash ApplicationOrigin P c L) (linv : ListInvariant c L)
    (hP : ∀ K, P K → toUInt32 (hash K) ≠ 0 ∧ toUInt32 (hash K) ≠ ApplicationOrigin)
    (hinj : ∀ K K', P K → P K' → toUInt32 (hash K) = toUInt32 (hash K') → K = K')
    (K : CspString) (hK : P K) :
    ListInvariant (RemoveCustomProperty hash c K) (L.erase K) := by
  have hmem := inv.mem_iff hP hinj K hK
  have hk0 := (hP K hK).1
  have h00 : (0 : Nat) ≠ toUInt32 (hash K) := fun h => hk0 h.symm
  by_cases hin : K ∈ L
  · have hL : L ≠ [] := List.ne_nil_of_mem hin
    have hz : c.Properties.HasKey 0 = true := by
      rw [← Bool.not_eq_false]
      exact fun h => hL (linv.absent h)
    obtain ⟨v, hv⟩ := (Map.HasKey_eq_true_iff _ _).mp hz
    have hvs := linv.stored v hv
    subst hvs
    have h1 : (c.RemoveProperty (toUInt32 (hash K))).Properties.find 0
        = some (ReplicatedValue.string (joinKeys L)) := by
      show (c.Properties.Remove _).find 0 = _
      rw [Map.find_Remove_ne _ _ _ h00]
      exact hv
    have hsplit := Split_joinKeys L hL (fun K' hK' => (linv.shape K' hK').2)
    have hrem : RemoveCustomProperty hash c K
        = (c.RemoveProperty (toUInt32 (hash K))).SetProperty 0
            (ReplicatedValue.string (joinKeys (L.erase K))) := by
      unfold RemoveCustomProperty
      simp only [hmem.mpr hin, if_true]
      rw [RemoveKey_of_string _ K _ h1, hsplit, if_pos hin]
    rw [hrem]
    refine ⟨?_, ?_, fun K' hK' => linv.shape K' (List.mem_of_mem_erase hK')⟩
    · intro h
      have h2 : ((c.RemoveProperty (toUInt32 (hash K))).Properties.set 0 _).HasKey 0 = false := h
      rw [Map.HasKey_set] at h2
      simp at h2
    · intro w hw
      have h2 : ((c.RemoveProperty (toUInt32 (hash K))).Properties.set 0 _).find 0 = some w := hw
      rw [Map.find_set_same] at h2
      exact (Option.some.inj h2).symm
  · have hhas : ¬ c.Properties.HasKey (toUInt32 (hash K)) = true := fun h => hin (hmem.mp h)
    have hrem : RemoveCustomProperty hash c K = c := by
      unfold RemoveCustomProperty
      simp [hhas]
    rw [hrem, List.erase_of_not_mem hin]
    exact linv

theorem invariants_run {hash : CspString → Nat} {ApplicationOrigin : Nat}
    {P : CspString → Prop}
    (hP : ∀ K, P K → toUInt32 (hash K) ≠ 0 ∧ toUInt32 (hash K) ≠ ApplicationOrigin)
    (hinj : ∀ K K', P K → P K' → toUInt32 (hash K) = toUInt32 (hash K') → K = K')
    (calls : List CustomCall) (hcalls : ∀ call ∈ calls, P call.Key)
    (hshape : ∀ K V, CustomCall.Set K V ∈ calls → K ≠ [] ∧ ',' ∉ K)
    (c : ComponentBase H) (L : List CspString)
    (inv : KeyInvariant hash ApplicationOrigin P c L) (linv : ListInvariant c L) :
    KeyInvariant hash ApplicationOrigin P (CustomCall.run hash c calls)
        (calls.foldl CustomCall.track L)
      ∧ ListInvariant (CustomCall.run hash c calls) (calls.foldl CustomCall.track L) := by
  induction calls generalizing c L with
  | nil => exact ⟨inv, linv⟩
  | cons call calls ih =>
    rw [run_cons, List.foldl_cons]
    have hK := hcalls call (List.mem_cons_self _ _)
    refine ih (fun x hx => hcalls x (List.mem_cons_of_mem _ hx))
      (fun K V h => hshape K V (List.mem_cons_of_mem _ h)) _ _ (inv.key_apply hP hinj call hK) ?_
    cases call with
    | Set K V => exact linv.list_set inv hP hinj K V hK (hshape K V (List.mem_cons_self _ _))
    | Remove K => exact linv.list_remove inv hP hinj K hK

theorem foldl_track_sets (kvs : List (CspString × ReplicatedValue)) (L : List CspString)
    (hvalid : ∀ kv ∈ kvs, kv.2.GetReplicatedValueType ≠ ReplicatedValueType.InvalidType)
    (hnodup : (kvs.map Prod.fst).Nodup) (hnew : ∀ kv ∈ kvs, kv.1 ∉ L) :
    (kvs.map (fun kv => CustomCall.Set kv.1 kv.2)).foldl CustomCall.track L
      = L ++ kvs.map Prod.fst := by
  induction kvs generalizing L with
  | nil => simp
  | cons kv kvs ih =>
    have hn := List.nodup_cons.mp hnodup
    have h1 : CustomCall.track L (CustomCall.Set kv.1 kv.2) = L ++ [kv.1] := by
      simp [CustomCall.track, hvalid kv (List.mem_cons_self _ _), hnew kv (List.mem_cons_self _ _)]
    rw [List.map_cons, List.foldl_cons, h1, ih]
    · simp
    · exact fun x hx => hvalid x (List.mem_cons_of_mem _ hx)
    · exact hn.2
    · intro x hx hmem
      rcases List.mem_append.mp hmem with h | h
      · exact hnew x (List.mem_cons_of_mem _ hx) h
      · rw [List.mem_singleton] at h
        exact hn.1 (h ▸ List.mem_map_of_mem Prod.fst hx)

theorem HasKey_run_of_no_remove (hash : CspString → Nat) (k : Nat) (calls : List CustomCall)
    (c : ComponentBase H) (hc : c.Properties.HasKey k = true)
    (hcalls : ∀ K', CustomCall.Remove K' ∈ calls → toUInt32 (hash K') ≠ k) :
    (CustomCall.run hash c calls).Properties.HasKey k = true := by
  induction calls generalizing c with
  | nil => exact hc
  | cons call calls ih =>
    rw [run_cons]
    refine ih _ ?_ (fun K' h => hcalls K' (List.mem_cons_of_mem _ h))
    cases call with
    | Set K V => exact SetCustomProperty_HasKey_mono hash c K V k hc
    | Remove K =>
      show (RemoveCustomProperty hash c K).Properties.HasKey k = true
      rw [RemoveCustomProperty_HasKey, hc]
      have := hcalls K (List.mem_cons_self _ _)
      simpa using fun h => this h.symm

theorem HasKey_run_of_no_set (hash : CspString → Nat) (k : Nat) (hk : k ≠ 0)
    (calls : List CustomCall) (c : ComponentBase H) (hc : c.Properties.HasKey k = false)
    (hcalls : ∀ K' V, CustomCall.Set K' V ∈ calls → toUInt32 (hash K') ≠ k) :
    (CustomCall.run hash c calls).Properties.HasKey k = false := by
  induction calls generalizing c with
  | nil => exact hc
  | cons call calls ih =>
    rw [run_cons]
    refine ih _ ?_ (fun K' V h => hcalls K' V (List.mem_cons_of_mem _ h))
    cases call with
    | Set K V =>
      show (SetCustomProperty hash c K V).Properties.HasKey k = false
      by_cases hV : V.GetReplicatedValueType = ReplicatedValueType.InvalidType
      · rw [SetCustomProperty_of_invalid hash c K V hV]
        exact hc
      · rw [SetCustomProperty_HasKey hash c K V k hV, hc]
        have hne : ¬ k = toUInt32 (hash K) := fun h => hcalls K V (List.mem_cons_self _ _) h.symm
        simp [hk, hne]
    | Remove K =>
      show (RemoveCustomProperty hash c K).Properties.HasKey k = false
      rw [RemoveCustomProperty_HasKey, hc]
      simp

theorem create_find (ApplicationOrigin Id k : Nat) :
    (create ApplicationOrigin Id : ComponentBase H).Properties.find k
      = if k = ApplicationOrigin then some (ReplicatedValue.string []) else none := by
  show ((Map.empty : Map Nat ReplicatedValue).set _ _).find k = _
  rw [Map.find_set, Map.find_empty]

theorem create_HasKey (ApplicationOrigin Id k : Nat) :
    (create ApplicationOrigin Id : ComponentBase H).Properties.HasKey k
      = decide (k = ApplicationOrigin) := by
  unfold Map.HasKey
  rw [create_find]
  by_cases h : k = ApplicationOrigin <;> simp [h]

theorem create_Size (ApplicationOrigin Id : Nat) :
    (create ApplicationOrigin Id : ComponentBase H).Properties.Size = 1 := rfl

theorem GetCustomPropertyKeys_of_string (c : ComponentBase H) (s : CspString)
    (h : c.Properties.find 0 = some (ReplicatedValue.string s)) :
    GetCustomPropertyKeys c = if s = [] then [] else Split s ',' := by
  have h1 : c.Properties.HasKey 0 = true := (Map.HasKey_eq_true_iff _ _).mpr ⟨_, h⟩
  unfold GetCustomPropertyKeys
  rw [CUSTOM_PROPERTY_LIST_KEY, if_pos h1, GetProperty_of_find c 0 _ h]
  cases s with
  | nil => rfl
  | cons a l => rfl

theorem GetCustomPropertyKeys_of_other (c : ComponentBase H)
    (h : ∀ s, c.Properties.find 0 ≠ some (ReplicatedValue.string s)) :
    GetCustomPropertyKeys c = [] := by
  unfold GetCustomPropertyKeys GetProperty
  rw [CUSTOM_PROPERTY_LIST_KEY]
  cases hf : c.Properties.find 0 with
  | none => simp
  | some v =>
    cases v with
    | string s => exact absurd hf (h s)
    | _ => simp

/-! ## Custom properties: the claims -/

/-- C1: for every name `K` and every value `V` whose type is not `InvalidType`,
after `SetCustomProperty(K, V)` the call `GetCustomProperty(K)` returns `V`
itself, whatever the state of the component was. -/
theorem GetCustomProperty_SetCustomProperty (hash : CspString → Nat) (c : ComponentBase H)
    (K : CspString) (V : ReplicatedValue)
    (hV : V.GetReplicatedValueType ≠ ReplicatedValueType.InvalidType) :
    GetCustomProperty hash (SetCustomProperty hash c K V) K = V := by
  unfold GetCustomProperty
  exact GetProperty_of_find _ _ _ (SetCustomProperty_find_key hash c K V hV)

/-- C1 at the test's input: a new component, the name "Vector3" and the vector
(10, 10, 10). -/
theorem GetCustomProperty_SetCustomProperty_witness :
    (ReplicatedValue.vector3 1092616192 1092616192 1092616192).GetReplicatedValueType
        ≠ ReplicatedValueType.InvalidType
      ∧ GetCustomProperty sampleHash
          (SetCustomProperty sampleHash (create 0 1 : ComponentBase Unit) "Vector3".toList
            (ReplicatedValue.vector3 1092616192 1092616192 1092616192)) "Vector3".toList
        = ReplicatedValue.vector3 1092616192 1092616192 1092616192 :=
  ⟨by decide, GetCustomProperty_SetCustomProperty sampleHash _ _ _ (by decide)⟩

/-- C2, as stated, fails for every hash function and every application-origin
key: there are always two different names with the same 32-bit key, and once
one of them is set `HasCustomProperty` is true for the other, which was never
set. -/
theorem HasCustomProperty_counterexample :
    ¬ ∃ (hash : CspString → Nat) (ApplicationOrigin : Nat),
        ∀ K K' : CspString, K' ≠ K →
          HasCustomProperty hash
            (SetCustomProperty hash (create ApplicationOrigin 0 : ComponentBase Unit) K
              (ReplicatedValue.boolean true)) K' = false := by
  rintro ⟨hash, ApplicationOrigin, h⟩
  obtain ⟨K, K', hne, he⟩ := exists_key_collision hash
  have h1 := h K K' (fun h2 => hne h2.symm)
  have h2 := SetCustomProperty_find_key hash (create ApplicationOrigin 0 : ComponentBase Unit) K
    (ReplicatedValue.boolean true) (by decide)
  unfold HasCustomProperty at h1
  rw [← he] at h1
  have h3 := (Map.HasKey_eq_true_iff _ _).mpr ⟨_, h2⟩
  rw [h3] at h1
  exact absurd h1 (by decide)

/-- C2, amended. `HasCustomProperty(K)` is true once `K` has been set with a valid
value, whatever the component was before, as long as no name with the hash key
of `K` is removed afterwards; and on a component built by the constructor it is
false for a name `K` when no name with the hash key of `K` has been set and that
key is neither 0 (the key of the name list) nor the application-origin key. -/
theorem HasCustomProperty_after_calls (hash : CspString → Nat) (ApplicationOrigin Id : Nat) :
    (∀ (c : ComponentBase H) (K : CspString) (V : ReplicatedValue) (calls : List CustomCall),
        V.GetReplicatedValueType ≠ ReplicatedValueType.InvalidType →
        (∀ K', CustomCall.Remove K' ∈ calls → toUInt32 (hash K') ≠ toUInt32 (hash K)) →
        HasCustomProperty hash (CustomCall.run hash (SetCustomProperty hash c K V) calls) K = true)
    ∧ (∀ (calls : List CustomCall) (K : CspString),
        toUInt32 (hash K) ≠ 0 → toUInt32 (hash K) ≠ ApplicationOrigin →
        (∀ K' V, CustomCall.Set K' V ∈ calls → toUInt32 (hash K') ≠ toUInt32 (hash K)) →
        HasCustomProperty hash
          (CustomCall.run hash (create ApplicationOrigin Id : ComponentBase H) calls) K = false) := by
  constructor
  · intro c K V calls hV hcalls
    unfold HasCustomProperty
    refine HasKey_run_of_no_remove hash _ calls _ ?_ hcalls
    exact (Map.HasKey_eq_true_iff _ _).mpr ⟨_, SetCustomProperty_find_key hash c K V hV⟩
  · intro calls K h0 hA hcalls
    unfold HasCustomProperty
    refine HasKey_run_of_no_set hash _ h0 calls _ ?_ hcalls
    rw [create_HasKey]
    simpa using hA

/-- C2, amended, at the test's input: after the six properties of the test are
set on a new component, "Boolean" is there and "BooleanFalse" is not. -/
theorem HasCustomProperty_after_calls_witness :
    HasCustomProperty sampleHash
        (CustomCall.run sampleHash
          (SetCustomProperty sampleHash (create 0 1 : ComponentBase Unit) "Boolean".toList
            (ReplicatedValue.boolean true))
          [CustomCall.Set "Integer".toList (ReplicatedValue.integer 1),
           CustomCall.Remove "Integer".toList]) "Boolean".toList = true
      ∧ HasCustomProperty sampleHash
          (CustomCall.run sampleHash (create 0 1 : ComponentBase Unit)
            (testProperties.map (fun kv => CustomCall.Set kv.1 kv.2))) "BooleanFalse".toList
        = false :=
  ⟨(HasCustomProperty_after_calls sampleHash 0 1).1 _ _ _ _ (by decide)
      (by
        intro K' h
        simp at h
        subst h
        decide),
   (HasCustomProperty_after_calls sampleHash 0 1).2 _ _ (by decide) (by decide)
      (by
        intro K' V h
        simp [testProperties] at h
        rcases h with h | h | h | h | h | h <;>
        · obtain ⟨rfl, _⟩ := h
          decide)⟩

/-- C3, as stated, fails for every hash function and every application-origin
key. When the application-origin key is not 0, a new component (no name set)
already reports one property; when it is 0, two different names with the same
32-bit key exist, and after both are set the count is not 2. -/
theorem GetNumProperties_counterexample :
    ¬ ∃ (hash : CspString → Nat) (ApplicationOrigin : Nat),
        ∀ names : List CspString, names.Nodup →
          GetNumProperties
            (CustomCall.run hash (create ApplicationOrigin 0 : ComponentBase Unit)
              (names.map (fun K => CustomCall.Set K (ReplicatedValue.boolean true))))
            = (names.length : Int) := by
  rintro ⟨hash, ApplicationOrigin, h⟩
  by_cases hA : ApplicationOrigin = 0
  · subst hA
    obtain ⟨K, K', hne, he⟩ := exists_key_collision hash
    have h1 := h [K, K'] (by simp [hne])
    have hV : (ReplicatedValue.boolean true).GetReplicatedValueType
        ≠ ReplicatedValueType.InvalidType := by decide
    have hrun : CustomCall.run hash (create 0 0 : ComponentBase Unit)
        ([K, K'].map (fun K => CustomCall.Set K (ReplicatedValue.boolean true)))
        = SetCustomProperty hash (SetCustomProperty hash (create 0 0) K (ReplicatedValue.boolean true))
            K' (ReplicatedValue.boolean true) := rfl
    rw [hrun] at h1
    have hz0 : (create 0 0 : ComponentBase Unit).Properties.HasKey 0 = true := by
      rw [create_HasKey]
      rfl
    have hz1 := SetCustomProperty_HasKey_mono hash _ K (ReplicatedValue.boolean true) 0 hz0
    have hz2 := SetCustomProperty_HasKey_mono hash _ K' (ReplicatedValue.boolean true) 0 hz1
    have hk1 : (SetCustomProperty hash (create 0 0 : ComponentBase Unit) K
        (ReplicatedValue.boolean true)).Properties.HasKey (toUInt32 (hash K')) = true := by
      rw [← he]
      exact (Map.HasKey_eq_true_iff _ _).mpr ⟨_, SetCustomProperty_find_key hash _ K _ hV⟩
    have hs2 := SetCustomProperty_Size hash
      (SetCustomProperty hash (create 0 0 : ComponentBase Unit) K (ReplicatedValue.boolean true))
      K' (ReplicatedValue.boolean true) hV
    rw [if_pos hk1] at hs2
    have hs1 := SetCustomProperty_Size hash (create 0 0 : ComponentBase Unit) K
      (ReplicatedValue.boolean true) hV
    rw [create_Size] at hs1
    have hle : (SetCustomProperty hash (create 0 0 : ComponentBase Unit) K
        (ReplicatedValue.boolean true)).Properties.Size ≤ 2 := by
      rw [hs1]
      split
      · omega
      · rw [if_pos (Or.inr hz0)]
    unfold GetNumProperties at h1
    rw [CUSTOM_PROPERTY_LIST_KEY, if_pos hz2, hs2, toInt32_toUInt32 _ (by omega)] at h1
    simp only [List.length_cons, List.length_nil] at h1
    omega
  · have h1 := h [] List.nodup_nil
    have hz : ¬ (create ApplicationOrigin 0 : ComponentBase Unit).Properties.HasKey 0 = true := by
      rw [create_HasKey]
      simpa using fun h2 : 0 = ApplicationOrigin => hA h2.symm
    have hrun : CustomCall.run hash (create ApplicationOrigin 0 : ComponentBase Unit)
        (([] : List CspString).map (fun K => CustomCall.Set K (ReplicatedValue.boolean true)))
        = create ApplicationOrigin 0 := rfl
    rw [hrun] at h1
    unfold GetNumProperties at h1
    rw [CUSTOM_PROPERTY_LIST_KEY, if_neg hz, create_Size, toInt32_toUInt32 _ (by norm_num)] at h1
    simp at h1

/-- C3, amended. On a newly constructed custom component, after
`SetCustomProperty` has been called with valid values on `n` distinct names
(`n + 2 < 2 ^ 31`) whose 32-bit hash keys are pairwise distinct and different from
0 and from the application-origin key, `GetNumProperties()` is `n` when the
application-origin key is 0, the key of the name list (the seeded entry and the
list entry are then one entry, which is not counted), and `n + 1` otherwise (the
seeded entry is then counted). -/
theorem GetNumProperties_after_sets (hash : CspString → Nat) (ApplicationOrigin Id : Nat)
    (kvs : List (CspString × ReplicatedValue))
    (hdistinct : (kvs.map Prod.fst).Nodup)
    (hvalid : ∀ kv ∈ kvs, kv.2.GetReplicatedValueType ≠ ReplicatedValueType.InvalidType)
    (hkeys : ∀ kv ∈ kvs,
      toUInt32 (hash kv.1) ≠ 0 ∧ toUInt32 (hash kv.1) ≠ ApplicationOrigin)
    (hinj : ∀ kv ∈ kvs, ∀ kv' ∈ kvs,
      toUInt32 (hash kv.1) = toUInt32 (hash kv'.1) → kv.1 = kv'.1)
    (hlen : kvs.length + 2 < 2 ^ 31) :
    GetNumProperties
        (CustomCall.run hash (create ApplicationOrigin Id : ComponentBase H)
          (kvs.map (fun kv => CustomCall.Set kv.1 kv.2)))
      = (kvs.length : Int) + (if ApplicationOrigin = 0 then 0 else 1) := by
  have hP : ∀ K, K ∈ kvs.map Prod.fst →
      toUInt32 (hash K) ≠ 0 ∧ toUInt32 (hash K) ≠ ApplicationOrigin := by
    intro K hK
    obtain ⟨kv, hkv, rfl⟩ := List.mem_map.mp hK
    exact hkeys kv hkv
  have hinj2 : ∀ K K', K ∈ kvs.map Prod.fst → K' ∈ kvs.map Prod.fst →
      toUInt32 (hash K) = toUInt32 (hash K') → K = K' := by
    intro K K' hK hK'
    obtain ⟨kv, hkv, rfl⟩ := List.mem_map.mp hK
    obtain ⟨kv', hkv', rfl⟩ := List.mem_map.mp hK'
    exact hinj kv hkv kv' hkv'
  have hcalls : ∀ call ∈ kvs.map (fun kv => CustomCall.Set kv.1 kv.2),
      call.Key ∈ kvs.map Prod.fst := by
    intro call hcall
    obtain ⟨kv, hkv, rfl⟩ := List.mem_map.mp hcall
    exact List.mem_map_of_mem Prod.fst hkv
  have inv := KeyInvariant.key_run hP hinj2 _ hcalls
    (create ApplicationOrigin Id : ComponentBase H) []
    (KeyInvariant_create hash ApplicationOrigin Id _)
  rw [foldl_track_sets kvs [] hvalid hdistinct (fun kv _ => List.not_mem_nil _)] at inv
  have hl : ([] ++ kvs.map Prod.fst).length = kvs.length := by simp
  have := inv.GetNumProperties_eq (by rw [hl]; exact hlen)
  rw [hl] at this
  exact this

/-- C3, amended, at the test's input: with the application origin under key 0, the
six properties of the test give `GetNumProperties() = 6`. -/
theorem GetNumProperties_after_sets_witness :
    GetNumProperties
        (CustomCall.run sampleHash (create 0 1 : ComponentBase Unit)
          (testProperties.map (fun kv => CustomCall.Set kv.1 kv.2)))
      = 6 := by
  have h := @GetNumProperties_after_sets Unit sampleHash 0 1 testProperties
    (by decide) (by decide) (by decide) (by decide) (by decide)
  simpa [testProperties] using h

theorem GetNumProperties_RemoveCustomProperty (hash : CspString → Nat) (c : ComponentBase H)
    (K : CspString) (hset : c.Properties.HasKey (toUInt32 (hash K)) = true)
    (hk : toUInt32 (hash K) ≠ 0) (hsize : c.Properties.Size < 2 ^ 31) :
    GetNumProperties (RemoveCustomProperty hash c K) = GetNumProperties c - 1 := by
  have h00 : (0 : Nat) ≠ toUInt32 (hash K) := fun h => hk h.symm
  have hz : (RemoveCustomProperty hash c K).Properties.HasKey 0 = c.Properties.HasKey 0 := by
    rw [RemoveCustomProperty_HasKey]
    simp [h00]
  have hs := RemoveCustomProperty_Size hash c K
  rw [if_pos hset] at hs
  have hpos := Map.Size_pos_of_HasKey _ _ hset
  unfold GetNumProperties
  rw [CUSTOM_PROPERTY_LIST_KEY, hz, hs]
  by_cases h0 : c.Properties.HasKey 0 = true
  · have h1 : (c.Properties.Remove (toUInt32 (hash K))).HasKey 0 = true := by
      rw [Map.HasKey_Remove, h0]
      simp [h00]
    have h2 := Map.Size_pos_of_HasKey _ _ h1
    rw [Map.Size_Remove, if_pos hset] at h2
    rw [if_pos h0, if_pos h0, toInt32_toUInt32 _ (by omega), toInt32_toUInt32 _ (by omega)]
    omega
  · rw [if_neg h0, if_neg h0, toInt32_toUInt32 _ (by omega), toInt32_toUInt32 _ (by omega)]
    omega

theorem not_mem_keys_RemoveCustomProperty (hash : CspString → Nat) (c : ComponentBase H)
    (K : CspString) (hset : c.Properties.HasKey (toUInt32 (hash K)) = true)
    (hcount : (GetCustomPropertyKeys c).count K ≤ 1) :
    K ∉ GetCustomPropertyKeys (RemoveCustomProperty hash c K) := by
  have hrem : RemoveCustomProperty hash c K
      = RemoveKey (c.RemoveProperty (toUInt32 (hash K))) K := by
    unfold RemoveCustomProperty
    simp [hset]
  rw [hrem]
  by_cases hs : ∃ s, (c.RemoveProperty (toUInt32 (hash K))).Properties.find 0
      = some (ReplicatedValue.string s)
  · obtain ⟨s, hs⟩ := hs
    have hk : (0 : Nat) ≠ toUInt32 (hash K) := by
      intro h
      have h1 : (c.Properties.Remove (toUInt32 (hash K))).find 0 = _ := hs
      rw [← h, Map.find_Remove_same] at h1
      exact absurd h1 (by simp)
    have hc : c.Properties.find 0 = some (ReplicatedValue.string s) := by
      have h1 : (c.Properties.Remove (toUInt32 (hash K))).find 0 = _ := hs
      rwa [Map.find_Remove_ne _ _ _ hk] at h1
    rw [GetCustomPropertyKeys_of_string c s hc] at hcount
    rw [RemoveKey_of_string _ K s hs]
    by_cases hin : K ∈ Split s ','
    · rw [if_pos hin]
      have hf : ((c.RemoveProperty (toUInt32 (hash K))).SetProperty 0
          (ReplicatedValue.string (joinKeys ((Split s ',').erase K)))).Properties.find 0
          = some (ReplicatedValue.string (joinKeys ((Split s ',').erase K))) :=
        Map.find_set_same _ _ _
      rw [GetCustomPropertyKeys_of_string _ _ hf]
      by_cases hj : joinKeys ((Split s ',').erase K) = []
      · rw [if_pos hj]
        exact List.not_mem_nil K
      · rw [if_neg hj]
        have hne : (Split s ',').erase K ≠ [] := by
          intro h
          rw [h] at hj
          exact hj rfl
        rw [Split_joinKeys _ hne
          (fun K' hK' => not_mem_of_mem_Split ',' s K' (List.mem_of_mem_erase hK'))]
        by_cases hse : s = []
        · subst hse
          have h1 : K = [] := by simpa [Split] using hin
          subst h1
          exact absurd rfl hne
        · rw [if_neg hse] at hcount
          intro hmem
          have h1 := List.count_pos_iff.mpr hmem
          rw [List.count_erase_self] at h1
          omega
    · rw [if_neg hin, GetCustomPropertyKeys_of_string _ s hs]
      split
      · exact List.not_mem_nil K
      · exact hin
  · rw [RemoveKey_of_other _ K (fun s h => hs ⟨s, h⟩),
      GetCustomPropertyKeys_of_other _ (fun s h => hs ⟨s, h⟩)]
    exact List.not_mem_nil K

/-- C4, amended. `RemoveCustomProperty(K)`, for a name `K` for which
`HasCustomProperty(K)` is true: afterwards `HasCustomProperty(K)` is false;
`GetNumProperties()` is exactly one less than before when the hash key of `K` is
not 0 (and the component holds fewer than `2 ^ 31` properties); and `K` does not
appear in `GetCustomPropertyKeys()` when it was listed there at most once before
the call. -/
theorem RemoveCustomProperty_erases (hash : CspString → Nat) (c : ComponentBase H)
    (K : CspString) (hset : HasCustomProperty hash c K = true) :
    HasCustomProperty hash (RemoveCustomProperty hash c K) K = false
      ∧ (toUInt32 (hash K) ≠ 0 → c.Properties.Size < 2 ^ 31 →
          GetNumProperties (RemoveCustomProperty hash c K) = GetNumProperties c - 1)
      ∧ ((GetCustomPropertyKeys c).count K ≤ 1 →
          K ∉ GetCustomPropertyKeys (RemoveCustomProperty hash c K)) := by
  refine ⟨?_, ?_, ?_⟩
  · unfold HasCustomProperty
    rw [RemoveCustomProperty_HasKey]
    simp
  · exact fun hk hsize => GetNumProperties_RemoveCustomProperty hash c K hset hk hsize
  · exact fun hcount => not_mem_keys_RemoveCustomProperty hash c K hset hcount

/-- C4, amended, at the test's input: after the six properties of the test are set
on a new component, removing "Boolean" takes the count from 6 to 5. -/
theorem RemoveCustomProperty_erases_witness :
    HasCustomProperty sampleHash
        (CustomCall.run sampleHash (create 0 1 : ComponentBase Unit)
          (testProperties.map (fun kv => CustomCall.Set kv.1 kv.2))) "Boolean".toList = true
      ∧ HasCustomProperty sampleHash
          (RemoveCustomProperty sampleHash
            (CustomCall.run sampleHash (create 0 1 : ComponentBase Unit)
              (testProperties.map (fun kv => CustomCall.Set kv.1 kv.2))) "Boolean".toList)
          "Boolean".toList = false
      ∧ GetNumProperties
          (RemoveCustomProperty sampleHash
            (CustomCall.run sampleHash (create 0 1 : ComponentBase Unit)
              (testProperties.map (fun kv => CustomCall.Set kv.1 kv.2))) "Boolean".toList)
        = GetNumProperties
            (CustomCall.run sampleHash (create 0 1 : ComponentBase Unit)
              (testProperties.map (fun kv => CustomCall.Set kv.1 kv.2))) - 1
      ∧ "Boolean".toList ∉ GetCustomPropertyKeys
          (RemoveCustomProperty sampleHash
            (CustomCall.run sampleHash (create 0 1 : ComponentBase Unit)
              (testProperties.map (fun kv => CustomCall.Set kv.1 kv.2))) "Boolean".toList) :=
  ⟨by decide,
   (RemoveCustomProperty_erases sampleHash _ "Boolean".toList (by decide)).1,
   (RemoveCustomProperty_erases sampleHash _ "Boolean".toList (by decide)).2.1
     (by decide) (by decide),
   (RemoveCustomProperty_erases sampleHash _ "Boolean".toList (by decide)).2.2 (by decide)⟩

theorem SetCustomProperty_find_zero (hash : CspString → Nat) (c : ComponentBase H)
    (K : CspString) (V : ReplicatedValue)
    (hV : V.GetReplicatedValueType ≠ ReplicatedValueType.InvalidType)
    (hk : toUInt32 (hash K) ≠ 0) (hnew : c.Properties.HasKey (toUInt32 (hash K)) = false) :
    (SetCustomProperty hash c K V).Properties.find 0 = (AddKey c K).Properties.find 0 := by
  rw [SetCustomProperty_of_valid hash c K V hV, if_neg (by simp [hnew])]
  exact Map.find_set_ne _ _ _ _ (fun h => hk h.symm)

theorem RemoveCustomProperty_of_key_zero (hash : CspString → Nat) (c : ComponentBase H)
    (K : CspString) (hk : toUInt32 (hash K) = 0) (hset : c.Properties.HasKey 0 = true) :
    RemoveCustomProperty hash c K = c.RemoveProperty 0 := by
  unfold RemoveCustomProperty
  simp only [hk, hset, if_true]
  refine RemoveKey_of_other _ K ?_
  intro s hs
  have h1 : (c.Properties.Remove 0).find 0 = some (ReplicatedValue.string s) := hs
  rw [Map.find_Remove_same] at h1
  exact absurd h1 (by simp)

/-- C4, as stated, fails in two ways. (1) A name with a comma puts two names on the
list: after "x,x" and "x" are set on a new component, `RemoveCustomProperty("x")`
leaves "x" in `GetCustomPropertyKeys()`; this is so under the sample hash with the
application origin at key 0, and under every hash function for which the keys of
the two names differ from each other, from 0 and from the application-origin key.
(2) For a name whose hash key is 0, the key of the name list, removal leaves
`GetNumProperties()` unchanged, under every hash function and in every state. -/
theorem RemoveCustomProperty_counterexample :
    (HasCustomProperty sampleHash
        (CustomCall.run sampleHash (create 0 0 : ComponentBase Unit)
          [CustomCall.Set "x,x".toList (ReplicatedValue.boolean true),
           CustomCall.Set "x".toList (ReplicatedValue.boolean true)]) "x".toList = true
      ∧ "x".toList ∈ GetCustomPropertyKeys
          (RemoveCustomProperty sampleHash
            (CustomCall.run sampleHash (create 0 0 : ComponentBase Unit)
              [CustomCall.Set "x,x".toList (ReplicatedValue.boolean true),
               CustomCall.Set "x".toList (ReplicatedValue.boolean true)]) "x".toList))
    ∧ (∀ (hash : CspString → Nat) (ApplicationOrigin : Nat),
        toUInt32 (hash "x".toList) ≠ 0 → toUInt32 (hash "x,x".toList) ≠ 0 →
        toUInt32 (hash "x".toList) ≠ toUInt32 (hash "x,x".toList) →
        toUInt32 (hash "x".toList) ≠ ApplicationOrigin →
        toUInt32 (hash "x,x".toList) ≠ ApplicationOrigin →
        HasCustomProperty hash
            (CustomCall.run hash (create ApplicationOrigin 0 : ComponentBase Unit)
              [CustomCall.Set "x,x".toList (ReplicatedValue.boolean true),
               CustomCall.Set "x".toList (ReplicatedValue.boolean true)]) "x".toList = true
          ∧ "x".toList ∈ GetCustomPropertyKeys
              (RemoveCustomProperty hash
                (CustomCall.run hash (create ApplicationOrigin 0 : ComponentBase Unit)
                  [CustomCall.Set "x,x".toList (ReplicatedValue.boolean true),
                   CustomCall.Set "x".toList (ReplicatedValue.boolean true)]) "x".toList))
    ∧ (∀ (hash : CspString → Nat) (c : ComponentBase Unit) (K : CspString),
        toUInt32 (hash K) = 0 → HasCustomProperty hash c K = true →
        GetNumProperties (RemoveCustomProperty hash c K) = GetNumProperties c
          ∧ GetNumProperties (RemoveCustomProperty hash c K) ≠ GetNumProperties c - 1) := by
  refine ⟨by decide, ?_, ?_⟩
  · intro hash ApplicationOrigin hx0 hxx0 hne hxA hxxA
    have hV : (ReplicatedValue.boolean true).GetReplicatedValueType
        ≠ ReplicatedValueType.InvalidType := by decide
    have hrun : CustomCall.run hash (create ApplicationOrigin 0 : ComponentBase Unit)
        [CustomCall.Set "x,x".toList (ReplicatedValue.boolean true),
          CustomCall.Set "x".toList (ReplicatedValue.boolean true)]
        = SetCustomProperty hash
            (SetCustomProperty hash (create ApplicationOrigin 0) "x,x".toList
              (ReplicatedValue.boolean true)) "x".toList (ReplicatedValue.boolean true) := rfl
    rw [hrun]
    generalize hc1 : SetCustomProperty hash (create ApplicationOrigin 0 : ComponentBase Unit)
      "x,x".toList (ReplicatedValue.boolean true) = c1
    generalize hc2 : SetCustomProperty hash c1 "x".toList (ReplicatedValue.boolean true) = c2
    have hA0 : (create ApplicationOrigin 0 : ComponentBase Unit).Properties.HasKey
        (toUInt32 (hash "x,x".toList)) = false := by
      rw [create_HasKey]
      simpa using hxxA
    have hf1 : c1.Properties.find 0 = some (ReplicatedValue.string "x,x".toList) := by
      rw [← hc1, SetCustomProperty_find_zero hash _ _ _ hV hxx0 hA0]
      by_cases hA : ApplicationOrigin = 0
      · have h0 : (create ApplicationOrigin 0 : ComponentBase Unit).Properties.find 0
            = some (ReplicatedValue.string []) := by
          rw [create_find, if_pos hA.symm]
        rw [AddKey_of_string _ _ _ h0]
        exact Map.find_set_same _ _ _
      · have h0 : (create ApplicationOrigin 0 : ComponentBase Unit).Properties.HasKey 0 = false := by
          rw [create_HasKey]
          simpa using fun h : 0 = ApplicationOrigin => hA h.symm
        rw [AddKey_of_absent _ _ h0]
        exact Map.find_set_same _ _ _
    have hB1 : c1.Properties.HasKey (toUInt32 (hash "x".toList)) = false := by
      rw [← hc1, SetCustomProperty_HasKey hash _ _ _ _ hV, create_HasKey, create_HasKey,
        decide_eq_false hne, decide_eq_false hx0, decide_eq_false hxA]
      rfl
    have hf2 : c2.Properties.find 0 = some (ReplicatedValue.string "x,x,x".toList) := by
      rw [← hc2, SetCustomProperty_find_zero hash _ _ _ hV hx0 hB1, AddKey_of_string _ _ _ hf1]
      exact Map.find_set_same _ _ _
    have hB2 : c2.Properties.HasKey (toUInt32 (hash "x".toList)) = true := by
      rw [← hc2]
      exact (Map.HasKey_eq_true_iff _ _).mpr ⟨_, SetCustomProperty_find_key hash c1 _ _ hV⟩
    refine ⟨hB2, ?_⟩
    have hf3 : (c2.RemoveProperty (toUInt32 (hash "x".toList))).Properties.find 0
        = some (ReplicatedValue.string "x,x,x".toList) := by
      show (c2.Properties.Remove _).find 0 = _
      rw [Map.find_Remove_ne _ _ _ (fun h => hx0 h.symm)]
      exact hf2
    have hrem : RemoveCustomProperty hash c2 "x".toList
        = (c2.RemoveProperty (toUInt32 (hash "x".toList))).SetProperty 0
            (ReplicatedValue.string "x,x".toList) := by
      unfold RemoveCustomProperty
      simp only [hB2, if_true]
      rw [RemoveKey_of_string _ _ _ hf3, if_pos (by decide)]
      rfl
    have hf4 : (RemoveCustomProperty hash c2 "x".toList).Properties.find 0
        = some (ReplicatedValue.string "x,x".toList) := by
      rw [hrem]
      exact Map.find_set_same _ _ _
    rw [GetCustomPropertyKeys_of_string _ _ hf4]
    decide
  · intro hash c K hk hset
    unfold HasCustomProperty at hset
    simp only [hk] at hset
    have heq : GetNumProperties (RemoveCustomProperty hash c K) = GetNumProperties c := by
      rw [RemoveCustomProperty_of_key_zero hash c K hk hset]
      have hz : (c.RemoveProperty 0).Properties.HasKey 0 = false := by
        show (c.Properties.Remove 0).HasKey 0 = false
        rw [Map.HasKey_Remove]
        simp
      unfold GetNumProperties
      rw [CUSTOM_PROPERTY_LIST_KEY, hz, hset]
      show toInt32 (toUInt32 (c.Properties.Remove 0).Size) = toInt32 (toUInt32 (c.Properties.Size - 1))
      rw [Map.Size_Remove, if_pos hset]
    refine ⟨heq, ?_⟩
    rw [heq]
    omega

/-- C5, as stated, fails for every hash function and every application-origin
key. When the application-origin key is not 0, a new component lists no name
but reports one property. When it is 0, setting the empty name (with the
boolean `true`, or with the string "a" when the empty name hashes to key 0)
makes the number of listed names differ from `GetNumProperties()`. -/
theorem GetCustomPropertyKeys_counterexample :
    ¬ ∃ (hash : CspString → Nat) (ApplicationOrigin : Nat),
        ∀ calls : List CustomCall,
          (∀ K V, CustomCall.Set K V ∈ calls →
            V.GetReplicatedValueType ≠ ReplicatedValueType.InvalidType) →
          ((GetCustomPropertyKeys
              (CustomCall.run hash (create ApplicationOrigin 0 : ComponentBase Unit) calls)).length
            : Int)
            = GetNumProperties
                (CustomCall.run hash (create ApplicationOrigin 0 : ComponentBase Unit) calls) := by
  rintro ⟨hash, ApplicationOrigin, h⟩
  by_cases hA : ApplicationOrigin = 0
  · subst hA
    have hz0 : (create 0 0 : ComponentBase Unit).Properties.HasKey 0 = true := by
      rw [create_HasKey]
      rfl
    have hf0 : (create 0 0 : ComponentBase Unit).Properties.find 0
        = some (ReplicatedValue.string []) := by
      rw [create_find, if_pos rfl]
    by_cases hk : toUInt32 (hash []) = 0
    · have hV : (ReplicatedValue.string "a".toList).GetReplicatedValueType
          ≠ ReplicatedValueType.InvalidType := by decide
      have h1 := h [CustomCall.Set [] (ReplicatedValue.string "a".toList)] (by
        intro K V hmem
        simp at hmem
        rw [hmem.2]
        exact hV)
      have hrun : CustomCall.run hash (create 0 0 : ComponentBase Unit)
          [CustomCall.Set [] (ReplicatedValue.string "a".toList)]
          = (create 0 0 : ComponentBase Unit).SetProperty 0 (ReplicatedValue.string "a".toList) := by
        show SetCustomProperty hash (create 0 0 : ComponentBase Unit) []
          (ReplicatedValue.string "a".toList) = _
        rw [SetCustomProperty_of_valid hash _ _ _ hV, hk, if_pos hz0]
      rw [hrun] at h1
      have hf : ((create 0 0 : ComponentBase Unit).SetProperty 0
          (ReplicatedValue.string "a".toList)).Properties.find 0
          = some (ReplicatedValue.string "a".toList) := Map.find_set_same _ _ _
      rw [GetCustomPropertyKeys_of_string _ _ hf] at h1
      exact absurd h1 (by decide)
    · have hV : (ReplicatedValue.boolean true).GetReplicatedValueType
          ≠ ReplicatedValueType.InvalidType := by decide
      have h1 := h [CustomCall.Set [] (ReplicatedValue.boolean true)] (by
        intro K V hmem
        simp at hmem
        rw [hmem.2]
        exact hV)
      have hrun : CustomCall.run hash (create 0 0 : ComponentBase Unit)
          [CustomCall.Set [] (ReplicatedValue.boolean true)]
          = SetCustomProperty hash (create 0 0) [] (ReplicatedValue.boolean true) := rfl
      rw [hrun] at h1
      have hnew : (create 0 0 : ComponentBase Unit).Properties.HasKey (toUInt32 (hash [])) = false := by
        rw [create_HasKey]
        simpa using hk
      have hf : (SetCustomProperty hash (create 0 0 : ComponentBase Unit) []
          (ReplicatedValue.boolean true)).Properties.find 0 = some (ReplicatedValue.string []) := by
        rw [SetCustomProperty_find_zero hash _ _ _ hV hk hnew, AddKey_of_string _ _ _ hf0]
        exact Map.find_set_same _ _ _
      have hz := SetCustomProperty_HasKey_mono hash _ [] (ReplicatedValue.boolean true) 0 hz0
      have hs := SetCustomProperty_Size hash (create 0 0 : ComponentBase Unit) []
        (ReplicatedValue.boolean true) hV
      rw [if_neg (by simp [hnew]), if_pos (Or.inr hz0), create_Size] at hs
      rw [GetCustomPropertyKeys_of_string _ _ hf] at h1
      unfold GetNumProperties at h1
      rw [CUSTOM_PROPERTY_LIST_KEY, if_pos hz, hs] at h1
      exact absurd h1 (by decide)
  · have h1 := h [] (fun K V hmem => absurd hmem (List.not_mem_nil _))
    have hrun : CustomCall.run hash (create ApplicationOrigin 0 : ComponentBase Unit) []
        = create ApplicationOrigin 0 := rfl
    rw [hrun] at h1
    have hz : ¬ (create ApplicationOrigin 0 : ComponentBase Unit).Properties.HasKey 0 = true := by
      rw [create_HasKey]
      simpa using fun h2 : 0 = ApplicationOrigin => hA h2.symm
    have hf : ∀ s, (create ApplicationOrigin 0 : ComponentBase Unit).Properties.find 0
        ≠ some (ReplicatedValue.string s) := by
      intro s
      rw [create_find, if_neg (fun h2 : 0 = ApplicationOrigin => hA h2.symm)]
      simp
    rw [GetCustomPropertyKeys_of_other _ hf] at h1
    unfold GetNumProperties at h1
    rw [CUSTOM_PROPERTY_LIST_KEY, if_neg hz, create_Size] at h1
    exact absurd h1 (by decide)

/-- C5, amended. On a newly constructed custom component `GetCustomPropertyKeys()`
is empty. After every sequence of `SetCustomProperty` and `RemoveCustomProperty`
calls (fewer than `2 ^ 31 - 2` of them) in which different names have different
32-bit hash keys, no name has the key 0 or the application-origin key, and every
name that is set is non-empty and has no comma, `GetCustomPropertyKeys().Size()`
equals `GetNumProperties()` when the application-origin key is 0, the key of the
name list, and is one less otherwise (the seeded entry is then counted). -/
theorem GetCustomPropertyKeys_length (hash : CspString → Nat) (ApplicationOrigin Id : Nat)
    (calls : List CustomCall)
    (hkeys : ∀ call ∈ calls,
      toUInt32 (hash call.Key) ≠ 0 ∧ toUInt32 (hash call.Key) ≠ ApplicationOrigin)
    (hinj : ∀ call ∈ calls, ∀ call' ∈ calls,
      toUInt32 (hash call.Key) = toUInt32 (hash call'.Key) → call.Key = call'.Key)
    (hshape : ∀ K V, CustomCall.Set K V ∈ calls → K ≠ [] ∧ ',' ∉ K)
    (hlen : calls.length + 2 < 2 ^ 31) :
    GetCustomPropertyKeys (create ApplicationOrigin Id : ComponentBase H) = []
      ∧ ((GetCustomPropertyKeys
            (CustomCall.run hash (create ApplicationOrigin Id : ComponentBase H) calls)).length
          : Int) + (if ApplicationOrigin = 0 then 0 else 1)
        = GetNumProperties
            (CustomCall.run hash (create ApplicationOrigin Id : ComponentBase H) calls) := by
  have hP : ∀ K, K ∈ calls.map CustomCall.Key →
      toUInt32 (hash K) ≠ 0 ∧ toUInt32 (hash K) ≠ ApplicationOrigin := by
    intro K hK
    obtain ⟨call, hcall, rfl⟩ := List.mem_map.mp hK
    exact hkeys call hcall
  have hinj2 : ∀ K K', K ∈ calls.map CustomCall.Key → K' ∈ calls.map CustomCall.Key →
      toUInt32 (hash K) = toUInt32 (hash K') → K = K' := by
    intro K K' hK hK'
    obtain ⟨call, hcall, rfl⟩ := List.mem_map.mp hK
    obtain ⟨call', hcall', rfl⟩ := List.mem_map.mp hK'
    exact hinj call hcall call' hcall'
  have hinv := invariants_run hP hinj2 calls
    (fun call hcall => List.mem_map_of_mem CustomCall.Key hcall) hshape
    (create ApplicationOrigin Id : ComponentBase H) []
    (KeyInvariant_create hash ApplicationOrigin Id _) (ListInvariant_create ApplicationOrigin Id)
  have hl := length_foldl_track calls []
  rw [List.length_nil, Nat.zero_add] at hl
  refine ⟨(ListInvariant_create ApplicationOrigin Id).keys_eq, ?_⟩
  rw [hinv.2.keys_eq, hinv.1.GetNumProperties_eq (by omega)]

/-- C5, amended, at the test's input: the six properties of the test are set on a
new component and "Boolean" is removed; five names are listed and
`GetNumProperties()` is 5. -/
theorem GetCustomPropertyKeys_length_witness :
    GetCustomPropertyKeys (create 0 1 : ComponentBase Unit) = []
      ∧ ((GetCustomPropertyKeys
            (CustomCall.run sampleHash (create 0 1 : ComponentBase Unit)
              (testProperties.map (fun kv => CustomCall.Set kv.1 kv.2)
                ++ [CustomCall.Remove "Boolean".toList]))).length : Int)
          + (if (0 : Nat) = 0 then 0 else 1)
        = GetNumProperties
            (CustomCall.run sampleHash (create 0 1 : ComponentBase Unit)
              (testProperties.map (fun kv => CustomCall.Set kv.1 kv.2)
                ++ [CustomCall.Remove "Boolean".toList])) :=
  GetCustomPropertyKeys_length sampleHash 0 1
    (testProperties.map (fun kv => CustomCall.Set kv.1 kv.2)
      ++ [CustomCall.Remove "Boolean".toList])
    (by decide) (by decide)
    (by
      intro K V h
      simp [testProperties] at h
      rcases h with h | h | h | h | h | h <;>
      · obtain ⟨rfl, _⟩ := h
        decide)
    (by decide)

/-! ## Subscription keys and property-change messages -/

/-- C6: `GetCustomPropertySubscriptionKey(K)` does not depend on the component, and
it is the property key that the other methods address. With a valid value,
`SetCustomProperty(K, V)` stores `V` under it and leaves every other key but the
list key alone; `HasCustomProperty(K)` and `GetCustomProperty(K)` test and read
it; `RemoveCustomProperty(K)` erases it and leaves every other key but the list
key alone. -/
theorem GetCustomPropertySubscriptionKey_addresses (hash : CspString → Nat)
    (c c' : ComponentBase H) (K : CspString) (V : ReplicatedValue)
    (hV : V.GetReplicatedValueType ≠ ReplicatedValueType.InvalidType) :
    GetCustomPropertySubscriptionKey hash c K = GetCustomPropertySubscriptionKey hash c' K
      ∧ (SetCustomProperty hash c K V).Properties.find (GetCustomPropertySubscriptionKey hash c K)
          = some V
      ∧ (∀ k, k ≠ GetCustomPropertySubscriptionKey hash c K → k ≠ CUSTOM_PROPERTY_LIST_KEY →
          (SetCustomProperty hash c K V).Properties.find k = c.Properties.find k)
      ∧ HasCustomProperty hash c K
          = c.Properties.HasKey (GetCustomPropertySubscriptionKey hash c K)
      ∧ GetCustomProperty hash c K = c.GetProperty (GetCustomPropertySubscriptionKey hash c K)
      ∧ (RemoveCustomProperty hash c K).Properties.HasKey
          (GetCustomPropertySubscriptionKey hash c K) = false
      ∧ (∀ k, k ≠ GetCustomPropertySubscriptionKey hash c K → k ≠ CUSTOM_PROPERTY_LIST_KEY →
          (RemoveCustomProperty hash c K).Properties.find k = c.Properties.find k) := by
  refine ⟨rfl, SetCustomProperty_find_key hash c K V hV, ?_, rfl, rfl, ?_, ?_⟩
  · exact fun k hk h0 => SetCustomProperty_find_ne hash c K V k hk h0
  · unfold GetCustomPropertySubscriptionKey
    rw [RemoveCustomProperty_HasKey]
    simp
  · exact fun k hk h0 => RemoveCustomProperty_find_ne hash c K k hk h0

/-- C6 at a concrete input: the name "Number" and the integer 0, on a new component
and on one where "Number" is already set. -/
theorem GetCustomPropertySubscriptionKey_addresses_witness :
    GetCustomPropertySubscriptionKey sampleHash (create 0 1 : ComponentBase Unit) "Number".toList
        = GetCustomPropertySubscriptionKey sampleHash
            (SetCustomProperty sampleHash (create 0 1 : ComponentBase Unit) "Number".toList
              (ReplicatedValue.integer 0)) "Number".toList
      ∧ (SetCustomProperty sampleHash (create 0 1 : ComponentBase Unit) "Number".toList
            (ReplicatedValue.integer 0)).Properties.find
          (GetCustomPropertySubscriptionKey sampleHash (create 0 1 : ComponentBase Unit)
            "Number".toList)
        = some (ReplicatedValue.integer 0) :=
  ⟨(GetCustomPropertySubscriptionKey_addresses sampleHash _ _ "Number".toList
      (ReplicatedValue.integer 0) (by decide)).1,
   (GetCustomPropertySubscriptionKey_addresses sampleHash _
      (create 0 1 : ComponentBase Unit) "Number".toList
      (ReplicatedValue.integer 0) (by decide)).2.1⟩

/-- C7: on a custom component where "Number" holds the integer 0 and a
property-change subscription for `GetCustomPropertySubscriptionKey("Number")` is
bound to the message "valueChanged", `SetCustomProperty("Number", 100)` raises
exactly one message, "valueChanged", and afterwards
`GetCustomProperty("Number").GetInt()` is 100. -/
theorem SetCustomProperty_raises_message (hash : CspString → Nat) (c : ComponentBase H)
    (h0 : GetCustomProperty hash c "Number".toList = ReplicatedValue.integer 0) :
    (SetCustomProperty hash
        (c.SubscribeToPropertyChange
          (GetCustomPropertySubscriptionKey hash c "Number".toList) "valueChanged".toList)
        "Number".toList (ReplicatedValue.integer 100)).RaisedMessages
        = c.RaisedMessages ++ ["valueChanged".toList]
      ∧ (GetCustomProperty hash
          (SetCustomProperty hash
            (c.SubscribeToPropertyChange
              (GetCustomPropertySubscriptionKey hash c "Number".toList) "valueChanged".toList)
            "Number".toList (ReplicatedValue.integer 100)) "Number".toList).GetInt
        = some 100 := by
  have hV : (ReplicatedValue.integer 100).GetReplicatedValueType
      ≠ ReplicatedValueType.InvalidType := by decide
  have hhas : c.Properties.HasKey (toUInt32 (hash "Number".toList)) = true := by
    unfold Map.HasKey
    cases hf : c.Properties.find (toUInt32 (hash "Number".toList)) with
    | none =>
      have h1 : c.GetProperty (toUInt32 (hash "Number".toList)) = ReplicatedValue.integer 0 := h0
      rw [GetProperty_of_absent c _ hf] at h1
      exact absurd h1 (by decide)
    | some v => rfl
  constructor
  · rw [SetCustomProperty_of_valid hash _ _ _ hV]
    have hhas2 : (c.SubscribeToPropertyChange
        (GetCustomPropertySubscriptionKey hash c "Number".toList)
        "valueChanged".toList).Properties.HasKey (toUInt32 (hash "Number".toList)) = true := hhas
    rw [if_pos hhas2]
    show c.RaisedMessages ++ changeMessages _ _ = _
    unfold changeMessages
    have hsub : (c.SubscribeToPropertyChange
        (GetCustomPropertySubscriptionKey hash c "Number".toList)
        "valueChanged".toList).Subscriptions.find (toUInt32 (hash "Number".toList))
        = some "valueChanged".toList := Map.find_set_same _ _ _
    rw [hsub]
  · unfold GetCustomProperty
    rw [GetProperty_of_find _ _ _ (SetCustomProperty_find_key hash _ _ _ hV)]
    rfl

/-- C7 at the test's input: "Number" is set to 0 on a new component, the
subscription is made, and "Number" is set to 100. -/
theorem SetCustomProperty_raises_message_witness :
    GetCustomProperty sampleHash
        (SetCustomProperty sampleHash (create 0 1 : ComponentBase Unit) "Number".toList
          (ReplicatedValue.integer 0)) "Number".toList = ReplicatedValue.integer 0
      ∧ (SetCustomProperty sampleHash
          ((SetCustomProperty sampleHash (create 0 1 : ComponentBase Unit) "Number".toList
              (ReplicatedValue.integer 0)).SubscribeToPropertyChange
            (GetCustomPropertySubscriptionKey sampleHash
              (SetCustomProperty sampleHash (create 0 1 : ComponentBase Unit) "Number".toList
                (ReplicatedValue.integer 0)) "Number".toList) "valueChanged".toList)
          "Number".toList (ReplicatedValue.integer 100)).RaisedMessages
        = [] ++ ["valueChanged".toList] :=
  ⟨by decide, (SetCustomProperty_raises_message sampleHash _ (by decide)).1⟩

end CustomSpaceComponent

/-! ## Action handlers and patches -/

namespace ComponentBase

open common

variable {H : Type}

/-- C8: after `RegisterActionHandler(A, h)`, `InvokeAction(A, P)` makes exactly one
handler call: it calls `h` with this component, the action name `A` and the
parameters `P`. -/
theorem InvokeAction_RegisterActionHandler (c : ComponentBase H) (A P : CspString) (h : H) :
    (c.RegisterActionHandler A h).InvokeAction A P
      = [{ Handler := h, Component := c.RegisterActionHandler A h, Action := A, Params := P }] := by
  unfold InvokeAction
  have hf : (c.RegisterActionHandler A h).ActionMap.find A = some h := Map.find_set_same _ _ _
  rw [hf]

/-- C9: a component keeps at most one handler per action name. After a second
registration for a name only the handler registered last is called;
`InvokeAction` for a name without a handler (unregistered, never registered on
this component, or on a new component) calls nothing; and no invocation makes
more than one call. -/
theorem InvokeAction_dispatch (c : ComponentBase H) (A P : CspString) (h₁ h₂ : H) :
    ((c.RegisterActionHandler A h₁).RegisterActionHandler A h₂).InvokeAction A P
        = [{ Handler := h₂
             Component := (c.RegisterActionHandler A h₁).RegisterActionHandler A h₂
             Action := A
             Params := P }]
      ∧ (c.UnregisterActionHandler A).InvokeAction A P = []
      ∧ (c.ActionMap.HasKey A = false → c.InvokeAction A P = [])
      ∧ (∀ (Type_ : ComponentType) (Id : Nat),
          (create Type_ Id : ComponentBase H).InvokeAction A P = [])
      ∧ (c.InvokeAction A P).length ≤ 1 := by
  refine ⟨?_, ?_, ?_, ?_, ?_⟩
  · unfold InvokeAction
    have hf : ((c.RegisterActionHandler A h₁).RegisterActionHandler A h₂).ActionMap.find A
        = some h₂ := Map.find_set_same _ _ _
    rw [hf]
  · unfold InvokeAction
    have hf : (c.UnregisterActionHandler A).ActionMap.find A = none := Map.find_Remove_same _ _
    rw [hf]
  · intro hno
    unfold InvokeAction
    rw [(Map.HasKey_eq_false_iff _ _).mp hno]
  · intro Type_ Id
    rfl
  · unfold InvokeAction
    cases c.ActionMap.find A <;> simp

/-- C9 at a concrete input: a Light component (as in the test `ActionHandlerTest`)
on which "TestAction" was never registered. -/
theorem InvokeAction_dispatch_witness :
    (create ComponentType.Light 3 : ComponentBase Nat).ActionMap.HasKey "TestAction".toList = false
      ∧ (create ComponentType.Light 3 : ComponentBase Nat).InvokeAction "TestAction".toList
          "TestParam".toList = [] :=
  ⟨by decide,
   (InvokeAction_dispatch (create ComponentType.Light 3 : ComponentBase Nat)
      "TestAction".toList "TestParam".toList 1 2).2.2.1 (by decide)⟩

theorem Size_DirtyProperties_foldl (patch : List (Nat × ReplicatedValue)) (c : ComponentBase H)
    (h : c.DirtyProperties.Size = 0) :
    (patch.foldl (fun c kv => c.SetPropertyFromPatch kv.1 kv.2) c).DirtyProperties.Size = 0 := by
  induction patch generalizing c with
  | nil => exact h
  | cons kv patch ih =>
    rw [List.foldl_cons]
    apply ih
    show (c.DirtyProperties.Remove kv.1).Size = 0
    rw [Map.Size_Remove, h]
    simp

/-- C10: `SetPropertyFromPatch(Key, Value)` has the effect of `SetProperty(Key, Value)`
on `Properties` (`Properties[Key]` becomes `Value`) and marks nothing dirty: every
key that is dirty afterwards was dirty before, and a component whose
`DirtyProperties` is empty before a sequence of `SetPropertyFromPatch` calls has
an empty `DirtyProperties` after it. -/
theorem SetPropertyFromPatch_not_dirty (c : ComponentBase H) (Key : Nat)
    (Value : ReplicatedValue) :
    (c.SetPropertyFromPatch Key Value).Properties = (c.SetProperty Key Value).Properties
      ∧ (c.SetPropertyFromPatch Key Value).Properties.find Key = some Value
      ∧ (∀ k, (c.SetPropertyFromPatch Key Value).DirtyProperties.HasKey k = true →
          c.DirtyProperties.HasKey k = true)
      ∧ (∀ patch : List (Nat × ReplicatedValue), c.DirtyProperties.Size = 0 →
          (patch.foldl (fun c kv => c.SetPropertyFromPatch kv.1 kv.2) c).DirtyProperties.Size
            = 0) := by
  refine ⟨rfl, Map.find_set_same _ _ _, ?_, fun patch h => Size_DirtyProperties_foldl patch c h⟩
  intro k hk
  have h1 : (c.DirtyProperties.Remove Key).HasKey k = true := hk
  rw [Map.HasKey_Remove] at h1
  simp only [Bool.and_eq_true] at h1
  exact h1.2

/-- C10 at a concrete input: a patch of two properties applied to a new component. -/
theorem SetPropertyFromPatch_not_dirty_witness :
    (create ComponentType.StaticModel 1 : ComponentBase Unit).DirtyProperties.Size = 0
      ∧ ([(1, ReplicatedValue.string "X".toList), (2, ReplicatedValue.boolean true)].foldl
          (fun c kv => c.SetPropertyFromPatch kv.1 kv.2)
          (create ComponentType.StaticModel 1 : ComponentBase Unit)).DirtyProperties.Size = 0 :=
  ⟨by decide,
   (SetPropertyFromPatch_not_dirty (create ComponentType.StaticModel 1 : ComponentBase Unit) 1
      (ReplicatedValue.string "X".toList)).2.2.2 _ (by decide)⟩

end ComponentBase

/-! ## The dirty journal -/

namespace ComponentBase

open common CustomSpaceComponent

variable {H : Type}

/-- C12: `SetProperty(Key, V)` marks `Key` dirty on every call: after
`SetProperty(Key, V)`, a flush that clears the dirty map, and a second
`SetProperty(Key, V)` with the same value, `Key` is in `DirtyProperties` with the
value `V` (and `Properties[Key]` is `V`). -/
theorem SetProperty_marks_dirty_again (c : ComponentBase H) (Key : Nat) (V : ReplicatedValue) :
    (((c.SetProperty Key V).ClearDirtyProperties).SetProperty Key V).DirtyProperties.find Key
        = some V
      ∧ ((c.SetProperty Key V).ClearDirtyProperties).DirtyProperties.HasKey Key = false
      ∧ (((c.SetProperty Key V).ClearDirtyProperties).SetProperty Key V).Properties.find Key
        = some V :=
  ⟨Map.find_set_same _ _ _, rfl, Map.find_set_same _ _ _⟩

end ComponentBase

/-! ## Components of an entity -/

namespace SpaceEntity

open common

variable {H : Type}

theorem AddComponent_of_none (defaults : ComponentType → Map Nat ReplicatedValue)
    (e : SpaceEntity H) (T : ComponentType) (h : e.ExistingSingleton T = none) :
    e.AddComponent defaults T
      = ({ e with
            Components := e.Components.set (toUInt16 e.NextComponentId)
              { ComponentBase.create T (toUInt16 e.NextComponentId) with Properties := defaults T }
            NextComponentId := e.NextComponentId + 1
            IsDirty := true },
          { ComponentBase.create T (toUInt16 e.NextComponentId) with Properties := defaults T }) := by
  unfold AddComponent
  rw [h]

theorem AddComponent_of_some (defaults : ComponentType → Map Nat ReplicatedValue)
    (e : SpaceEntity H) (T : ComponentType) (c : ComponentBase H)
    (h : e.ExistingSingleton T = some c) : e.AddComponent defaults T = (e, c) := by
  unfold AddComponent
  rw [h]

theorem toUInt16_toUInt16 (n : Nat) : toUInt16 (toUInt16 n) = toUInt16 n := by
  unfold toUInt16
  omega

theorem created_ids_step (defaults : ComponentType → Map Nat ReplicatedValue) (n0 : Nat)
    (s : SpaceEntity H × List Nat) (call : ComponentCall)
    (hle : n0 ≤ s.1.NextComponentId)
    (hlog : s.2 = (List.range (s.1.NextComponentId - n0)).map (fun i => toUInt16 (n0 + i))) :
    n0 ≤ (ComponentCall.apply defaults s call).1.NextComponentId
      ∧ (ComponentCall.apply defaults s call).2
        = (List.range ((ComponentCall.apply defaults s call).1.NextComponentId - n0)).map
            (fun i => toUInt16 (n0 + i)) := by
  cases call with
  | Remove Key => exact ⟨hle, hlog⟩
  | Add T =>
    cases hex : s.1.ExistingSingleton T with
    | some c =>
      simp only [ComponentCall.apply, hex, AddComponent_of_some defaults s.1 T c hex,
        Option.isSome_some, if_true]
      exact ⟨hle, hlog⟩
    | none =>
      simp only [ComponentCall.apply, hex, AddComponent_of_none defaults s.1 T hex,
        Option.isSome_none, Bool.false_eq_true, if_false]
      refine ⟨Nat.le_succ_of_le hle, ?_⟩
      have h1 : s.1.NextComponentId + 1 - n0 = (s.1.NextComponentId - n0) + 1 := by omega
      rw [h1, List.range_succ, List.map_append, ← hlog]
      have h2 : n0 + (s.1.NextComponentId - n0) = s.1.NextComponentId := by omega
      simp only [List.map_cons, List.map_nil, h2]
      show s.2 ++ [toUInt16 (toUInt16 s.1.NextComponentId)] = _
      rw [toUInt16_toUInt16]

theorem created_ids_foldl (defaults : ComponentType → Map Nat ReplicatedValue) (n0 : Nat)
    (calls : List ComponentCall) (s : SpaceEntity H × List Nat)
    (hle : n0 ≤ s.1.NextComponentId)
    (hlog : s.2 = (List.range (s.1.NextComponentId - n0)).map (fun i => toUInt16 (n0 + i))) :
    n0 ≤ (calls.foldl (ComponentCall.apply defaults) s).1.NextComponentId
      ∧ (calls.foldl (ComponentCall.apply defaults) s).2
        = (List.range ((calls.foldl (ComponentCall.apply defaults) s).1.NextComponentId - n0)).map
            (fun i => toUInt16 (n0 + i)) := by
  induction calls generalizing s with
  | nil => exact ⟨hle, hlog⟩
  | cons call calls ih =>
    rw [List.foldl_cons]
    have h := created_ids_step defaults n0 s call hle hlog
    exact ih _ h.1 h.2

theorem created_ids_run (defaults : ComponentType → Map Nat ReplicatedValue)
    (e : SpaceEntity H) (calls : List ComponentCall) :
    (ComponentCall.run defaults e calls).2
      = (List.range ((ComponentCall.run defaults e calls).1.NextComponentId
            - e.NextComponentId)).map (fun i => toUInt16 (e.NextComponentId + i)) := by
  have h := created_ids_foldl defaults e.NextComponentId calls (e, []) (Nat.le_refl _)
    (by simp)
  exact h.2

theorem NextComponentId_replicate (defaults : ComponentType → Map Nat ReplicatedValue)
    (n : Nat) (s : SpaceEntity H × List Nat) :
    ((List.replicate n (ComponentCall.Add ComponentType.StaticModel)).foldl
        (ComponentCall.apply defaults) s).1.NextComponentId
      = s.1.NextComponentId + n := by
  induction n generalizing s with
  | zero => rfl
  | succ n ih =>
    rw [List.replicate_succ, List.foldl_cons, ih]
    have hex : s.1.ExistingSingleton ComponentType.StaticModel = none := by
      unfold ExistingSingleton
      rw [if_neg (by decide)]
    simp only [ComponentCall.apply, AddComponent_of_none defaults s.1 _ hex]
    omega

theorem created_ids_replicate_not_nodup (defaults : ComponentType → Map Nat ReplicatedValue)
    (e : SpaceEntity H) (n : Nat) (hn : 2 ^ 16 < n) :
    ¬ (ComponentCall.run defaults e
        (List.replicate n (ComponentCall.Add ComponentType.StaticModel))).2.Nodup := by
  intro h
  rw [created_ids_run] at h
  have hnext : (ComponentCall.run defaults e
      (List.replicate n (ComponentCall.Add ComponentType.StaticModel))).1.NextComponentId
      = e.NextComponentId + n := NextComponentId_replicate defaults n (e, [])
  rw [hnext, Nat.add_sub_cancel_left] at h
  have h0 : 0 ∈ List.range n := List.mem_range.mpr (by omega)
  have h1 : 65536 ∈ List.range n := List.mem_range.mpr (by omega)
  have heq : toUInt16 (e.NextComponentId + 0) = toUInt16 (e.NextComponentId + 65536) := by
    unfold toUInt16
    omega
  have h2 : (0 : Nat) = 65536 := List.inj_on_of_nodup_map h h0 h1 heq
  omega

/-- C13, as stated, fails once an entity has created more than `2 ^ 16` components:
the id of a component is a `uint16_t`, so among the ids of 65537 components
created on a new entity two are equal. -/
theorem AddComponent_ids_counterexample :
    ¬ (ComponentCall.run (fun _ => Map.empty)
        (SpaceEntity.create [] ⟨(0, 0, 0), (0, 0, 0, 0), (0, 0, 0)⟩ : SpaceEntity Unit)
        (List.replicate 65537 (ComponentCall.Add ComponentType.StaticModel))).2.Nodup :=
  created_ids_replicate_not_nodup _ _ 65537 (by norm_num)

/-- C13, amended. For every sequence of `AddComponent` and `RemoveComponent` calls on
one entity that creates at most `2 ^ 16` components, every component created gets
an id (`GetId`) different from the ids of all the components created before it in
the sequence, removed ones included; and right after an `AddComponent` that
creates a component, `GetComponent` of its id returns that component, whose
type is the one it was added with. -/
theorem AddComponent_ids_unique (defaults : ComponentType → Map Nat ReplicatedValue)
    (e : SpaceEntity H) (calls : List ComponentCall)
    (hcount : (ComponentCall.run defaults e calls).2.length ≤ 2 ^ 16) :
    (ComponentCall.run defaults e calls).2.Nodup
      ∧ ∀ (e' : SpaceEntity H) (T : ComponentType), e'.ExistingSingleton T = none →
          (e'.AddComponent defaults T).1.GetComponent (e'.AddComponent defaults T).2.GetId
            = some (e'.AddComponent defaults T).2
          ∧ (e'.AddComponent defaults T).2.GetComponentType = T := by
  constructor
  · have hrun := created_ids_run defaults e calls
    rw [hrun] at hcount ⊢
    rw [List.length_map, List.length_range] at hcount
    refine List.Nodup.map_on ?_ (List.nodup_range _)
    intro a ha b hb hab
    rw [List.mem_range] at ha hb
    unfold toUInt16 at hab
    omega
  · intro e' T hex
    rw [AddComponent_of_none defaults e' T hex]
    refine ⟨?_, rfl⟩
    show (e'.Components.set (toUInt16 e'.NextComponentId) _).find
      (toUInt16 (toUInt16 e'.NextComponentId)) = _
    rw [toUInt16_toUInt16]
    exact Map.find_set_same _ _ _

/-- C13, amended, at the test's input: a StaticModel and then an Image component are
added to a new entity. -/
theorem AddComponent_ids_unique_witness :
    (ComponentCall.run (fun _ => Map.empty)
        (SpaceEntity.create "Object 1".toList ⟨(0, 0, 0), (0, 0, 0, 0), (0, 0, 0)⟩ : SpaceEntity Unit)
        [ComponentCall.Add ComponentType.StaticModel, ComponentCall.Add ComponentType.Image]).2.length
        ≤ 2 ^ 16
      ∧ (ComponentCall.run (fun _ => Map.empty)
          (SpaceEntity.create "Object 1".toList ⟨(0, 0, 0), (0, 0, 0, 0), (0, 0, 0)⟩ : SpaceEntity Unit)
          [ComponentCall.Add ComponentType.StaticModel,
            ComponentCall.Add ComponentType.Image]).2.Nodup :=
  ⟨by decide, (AddComponent_ids_unique _ _ _ (by decide)).1⟩

theorem ExistingSingleton_of_find (e : SpaceEntity H) (k : Nat) (c : ComponentBase H)
    (hc : e.Components.find k = some c) (ht : c.Type_ = ComponentType.ScriptData) :
    ∃ k' c', e.ExistingSingleton ComponentType.ScriptData = some c'
      ∧ e.Components.find k' = some c' ∧ c'.Type_ = ComponentType.ScriptData := by
  have hmem := Map.mem_entries_of_find _ _ _ hc
  have hsome : (e.Components.entries.find?
      (fun kv => decide (kv.2.Type_ = ComponentType.ScriptData))).isSome = true := by
    rw [List.find?_isSome]
    exact ⟨(k, c), hmem, by simpa using ht⟩
  obtain ⟨kv, hkv⟩ := Option.isSome_iff_exists.mp hsome
  refine ⟨kv.1, kv.2, ?_, ?_, ?_⟩
  · unfold ExistingSingleton FindFirstComponentOfType
    rw [if_pos rfl, hkv]
    rfl
  · exact Map.find_of_mem_entries _ _ _ (List.mem_of_find?_eq_some hkv)
  · simpa using List.find?_some hkv

/-- C14: when an entity already has a ScriptData component, `AddComponent(ScriptData)`
creates no component: it leaves the entity as it is and returns a ScriptData
component that the entity already has. On a new entity, after two
`AddComponent(ScriptData)` calls the component map has size 1 and the second
call returns the component that the first one created. -/
theorem AddComponent_ScriptData_singleton (defaults : ComponentType → Map Nat ReplicatedValue)
    (e : SpaceEntity H) :
    (∀ (k : Nat) (c : ComponentBase H), e.Components.find k = some c →
        c.Type_ = ComponentType.ScriptData →
        (e.AddComponent defaults ComponentType.ScriptData).1 = e
          ∧ ∃ k', e.Components.find k' = some (e.AddComponent defaults ComponentType.ScriptData).2
              ∧ (e.AddComponent defaults ComponentType.ScriptData).2.Type_
                = ComponentType.ScriptData)
      ∧ ∀ (Name : CspString) (Transform : SpaceTransform),
          (((SpaceEntity.create Name Transform : SpaceEntity H).AddComponent defaults
              ComponentType.ScriptData).1.AddComponent defaults
              ComponentType.ScriptData).1.GetComponents.Size = 1
            ∧ (((SpaceEntity.create Name Transform : SpaceEntity H).AddComponent defaults
                ComponentType.ScriptData).1.AddComponent defaults ComponentType.ScriptData).2
              = ((SpaceEntity.create Name Transform : SpaceEntity H).AddComponent defaults
                  ComponentType.ScriptData).2 := by
  constructor
  · intro k c hc ht
    obtain ⟨k', c', hex, hfind, htype⟩ := ExistingSingleton_of_find e k c hc ht
    rw [AddComponent_of_some defaults e _ c' hex]
    exact ⟨rfl, k', hfind, htype⟩
  · intro Name Transform
    exact ⟨rfl, rfl⟩

/-- C14 at the test's input: a new entity "Object 1" with one ScriptData component; a
second `AddComponent(ScriptData)` leaves the entity unchanged. -/
theorem AddComponent_ScriptData_singleton_witness :
    ((SpaceEntity.create "Object 1".toList ⟨(0, 0, 0), (0, 0, 0, 0), (0, 0, 0)⟩ :
          SpaceEntity Unit).AddComponent (fun _ => Map.empty)
        ComponentType.ScriptData).1.Components.find 0
        = some (ComponentBase.create ComponentType.ScriptData 0)
      ∧ (((SpaceEntity.create "Object 1".toList ⟨(0, 0, 0), (0, 0, 0, 0), (0, 0, 0)⟩ :
            SpaceEntity Unit).AddComponent (fun _ => Map.empty)
          ComponentType.ScriptData).1.AddComponent (fun _ => Map.empty)
          ComponentType.ScriptData).1
        = ((SpaceEntity.create "Object 1".toList ⟨(0, 0, 0), (0, 0, 0, 0), (0, 0, 0)⟩ :
            SpaceEntity Unit).AddComponent (fun _ => Map.empty) ComponentType.ScriptData).1 :=
  ⟨rfl,
   ((AddComponent_ScriptData_singleton (fun _ => Map.empty)
      ((SpaceEntity.create "Object 1".toList ⟨(0, 0, 0), (0, 0, 0, 0), (0, 0, 0)⟩ :
        SpaceEntity Unit).AddComponent (fun _ => Map.empty) ComponentType.ScriptData).1).1
      0 (ComponentBase.create ComponentType.ScriptData 0) rfl rfl).1⟩

/-- C15: for an entity and the id of a component attached to it, `RemoveComponent(id)`
takes effect locally. Right after the call the lookup of the id fails; after the
next processed update (`QueueUpdate`, then the flush) the component map has no
key `id` and its size has dropped by one; the components with other ids remain:
their keys are still there, and right after the call their lookups give what
they gave before. -/
theorem RemoveComponent_takes_effect (e : SpaceEntity H) (Key : Nat)
    (h : e.GetComponents.HasKey Key = true) :
    (e.RemoveComponent Key).GetComponent Key = none
      ∧ (e.RemoveComponent Key).QueueUpdate.BuildPatch.GetComponents.HasKey Key = false
      ∧ (e.RemoveComponent Key).QueueUpdate.BuildPatch.GetComponents.Size + 1
          = e.GetComponents.Size
      ∧ ∀ Key', Key' ≠ Key →
          (e.RemoveComponent Key).QueueUpdate.BuildPatch.GetComponents.HasKey Key'
              = e.GetComponents.HasKey Key'
            ∧ (e.RemoveComponent Key).GetComponent Key' = e.GetComponent Key' := by
  have hpos := Map.Size_pos_of_HasKey _ _ h
  refine ⟨Map.find_Remove_same _ _, ?_, ?_, ?_⟩
  · show ((e.Components.Remove Key).mapValues _).HasKey Key = false
    rw [Map.HasKey_mapValues, Map.HasKey_Remove]
    simp
  · show ((e.Components.Remove Key).mapValues _).Size + 1 = e.Components.Size
    have h1 : e.Components.HasKey Key = true := h
    have h2 : 0 < e.Components.Size := hpos
    rw [Map.Size_mapValues, Map.Size_Remove, if_pos h1]
    omega
  · intro Key' hne
    constructor
    · show ((e.Components.Remove Key).mapValues _).HasKey Key' = e.Components.HasKey Key'
      rw [Map.HasKey_mapValues, Map.HasKey_Remove]
      simp [hne]
    · exact Map.find_Remove_ne _ _ _ hne

/-- C15 at the test's input: a StaticModel and an Image component are added to a new
entity, then the first one (id 0) is removed. -/
theorem RemoveComponent_takes_effect_witness :
    (ComponentCall.run (fun _ => Map.empty)
        (SpaceEntity.create "Object 1".toList ⟨(0, 0, 0), (0, 0, 0, 0), (0, 0, 0)⟩ : SpaceEntity Unit)
        [ComponentCall.Add ComponentType.StaticModel,
          ComponentCall.Add ComponentType.Image]).1.GetComponents.HasKey 0 = true
      ∧ ((ComponentCall.run (fun _ => Map.empty)
          (SpaceEntity.create "Object 1".toList ⟨(0, 0, 0), (0, 0, 0, 0), (0, 0, 0)⟩ : SpaceEntity Unit)
          [ComponentCall.Add ComponentType.StaticModel,
            ComponentCall.Add ComponentType.Image]).1.RemoveComponent
          0).QueueUpdate.BuildPatch.GetComponents.HasKey 0 = false :=
  ⟨by decide, (RemoveComponent_takes_effect _ 0 (by decide)).2.1⟩

/-- C17: selection is a two-state flag. After a sequence of `Select()` and
`Deselect()` calls `IsSelected()` is true exactly when the last call was
`Select()` (with no call it is what it was); after `Select()` it is true, after a
following `Deselect()` it is false; repeating a call changes nothing. -/
theorem IsSelected_after_calls (e : SpaceEntity H) (calls : List SelectionCall) :
    (SelectionCall.run e calls).IsSelected
        = (match calls.getLast? with
          | some SelectionCall.Select => true
          | some SelectionCall.Deselect => false
          | none => e.IsSelected)
      ∧ e.Select.IsSelected = true
      ∧ e.Select.Deselect.IsSelected = false
      ∧ e.Select.Select = e.Select
      ∧ e.Deselect.Deselect = e.Deselect := by
  refine ⟨?_, rfl, rfl, rfl, rfl⟩
  rcases List.eq_nil_or_concat calls with h | ⟨l, call, h⟩
  · subst h
    rfl
  · subst h
    unfold SelectionCall.run
    rw [List.concat_eq_append, List.foldl_append, List.getLast?_concat]
    cases call <;> rfl

end SpaceEntity

/-! ## The entity system -/

namespace SpaceEntitySystem

open common

variable {H : Type}

theorem GetId_of_findSome (Id : Nat) (l : List (SpaceEntity H)) (c : ComponentBase H)
    (h : l.findSome? (fun e =>
      (e.Components.entries.find? (fun kv => decide (kv.2.GetId = Id))).map Prod.snd) = some c) :
    c.GetId = Id := by
  induction l with
  | nil => simp at h
  | cons e l ih =>
    rw [List.findSome?_cons] at h
    cases hf : e.Components.entries.find? (fun kv => decide (kv.2.GetId = Id)) with
    | none =>
      rw [hf] at h
      exact ih h
    | some kv =>
      rw [hf] at h
      have h1 : kv.2 = c := by simpa using h
      rw [← h1]
      simpa using List.find?_some hf

/-- C16: `FindComponentById(id)` looks across the components of all entities:
whenever some entity of the system has a component whose `GetId()` is `id`, the
result is a component, and its `GetId()` is `id`. -/
theorem FindComponentById_finds (s : SpaceEntitySystem H) (Id : Nat)
    (h : ∃ e ∈ s.Entities, ∃ k c, e.Components.find k = some c ∧ c.GetId = Id) :
    ∃ c, s.FindComponentById Id = some c ∧ c.GetId = Id := by
  obtain ⟨e, he, k, c, hc, hid⟩ := h
  have hsome : (s.FindComponentById Id).isSome = true := by
    unfold FindComponentById
    rw [List.findSome?_isSome_iff]
    refine ⟨e, he, ?_⟩
    rw [Option.isSome_map', List.find?_isSome]
    exact ⟨(k, c), Map.mem_entries_of_find _ _ _ hc, by simpa using hid⟩
  obtain ⟨c', hc'⟩ := Option.isSome_iff_exists.mp hsome
  exact ⟨c', hc', GetId_of_findSome Id s.Entities c' hc'⟩

/-- C16 at the test's input: two entities, one AnimatedModel component added to each;
the component of the first entity is found by its id. -/
theorem FindComponentById_finds_witness :
    ∃ c, (SpaceEntitySystem.mk
        [((SpaceEntity.create "Object 1".toList ⟨(0, 0, 0), (0, 0, 0, 0), (0, 0, 0)⟩ :
            SpaceEntity Unit).AddComponent (fun _ => Map.empty) ComponentType.AnimatedModel).1,
          ((SpaceEntity.create "Object 2".toList ⟨(0, 0, 0), (0, 0, 0, 0), (0, 0, 0)⟩ :
            SpaceEntity Unit).AddComponent (fun _ => Map.empty)
            ComponentType.AnimatedModel).1]).FindComponentById
          ((SpaceEntity.create "Object 1".toList ⟨(0, 0, 0), (0, 0, 0, 0), (0, 0, 0)⟩ :
            SpaceEntity Unit).AddComponent (fun _ => Map.empty) ComponentType.AnimatedModel).2.GetId
        = some c
      ∧ c.GetId
        = ((SpaceEntity.create "Object 1".toList ⟨(0, 0, 0), (0, 0, 0, 0), (0, 0, 0)⟩ :
            SpaceEntity Unit).AddComponent (fun _ => Map.empty)
            ComponentType.AnimatedModel).2.GetId :=
  FindComponentById_finds _ _
    ⟨_, List.mem_cons_self _ _, 0, ComponentBase.create ComponentType.AnimatedModel 0, rfl, rfl⟩

/-- C18: for every name and transform passed to `CreateObject`, the name, position,
rotation and scale read from the created entity are the inputs, right after the
call; the entity is in the system. -/
theorem CreateObject_reads_back (s : SpaceEntitySystem H) (Name : CspString)
    (Transform : SpaceTransform) :
    (s.CreateObject Name Transform).2.GetName = Name
      ∧ (s.CreateObject Name Transform).2.GetPosition = Transform.Position
      ∧ (s.CreateObject Name Transform).2.GetRotation = Transform.Rotation
      ∧ (s.CreateObject Name Transform).2.GetScale = Transform.Scale
      ∧ (s.CreateObject Name Transform).2 ∈ (s.CreateObject Name Transform).1.Entities := by
  refine ⟨rfl, rfl, rfl, rfl, ?_⟩
  show SpaceEntity.create Name Transform ∈ s.Entities ++ [SpaceEntity.create Name Transform]
  simp

/-- C18 at the test's input: "Object 1" at position (1.452322, 2.34, 3.45) with
rotation (4.1, 5.1, 6.1, 7.1) and scale (1, 1, 1), the floats as bit patterns. -/
theorem CreateObject_reads_back_witness :
    ((SpaceEntitySystem.mk [] : SpaceEntitySystem Unit).CreateObject "Object 1".toList
        ⟨(1069147568, 1075167887, 1079823565),
          (1082340147, 1084437299, 1086534451, 1088631603),
          (1065353216, 1065353216, 1065353216)⟩).2.GetPosition
      = (1069147568, 1075167887, 1079823565) :=
  (CreateObject_reads_back _ _ _).2.1

end SpaceEntitySystem

/-! ## The volume of an audio component -/

namespace AudioSpaceComponent

open common

variable {H : Type}

theorem le_eq_false_of_lt (a b : Nat) (h : Float32.lt a b = true) : Float32.le b a = false := by
  unfold Float32.lt at h
  unfold Float32.le
  simp only [Bool.and_eq_true, decide_eq_true_eq] at h
  have h1 : ¬ Float32.rank b ≤ Float32.rank a := by omega
  simp [h1]

/-- C19: the volume of an audio component is bounded by 0 and 1. `SetVolume(v)` with
`v < 0` or `v > 1` leaves `GetVolume()` as it was; `SetVolume(v)` with
`0 <= v <= 1`, the bounds included, makes `GetVolume()` equal to `v`. -/
theorem SetVolume_bounded (Volume : Nat) (c : ComponentBase H) (v : Nat) :
    ((Float32.lt v Float32.zero = true ∨ Float32.lt Float32.one v = true) →
        GetVolume Volume (SetVolume Volume c v) = GetVolume Volume c)
      ∧ (Float32.le Float32.zero v = true ∧ Float32.le v Float32.one = true →
          GetVolume Volume (SetVolume Volume c v) = v) := by
  constructor
  · intro h
    have hout : (Float32.le Float32.zero v && Float32.le v Float32.one) = false := by
      rcases h with h | h
      · rw [le_eq_false_of_lt _ _ h]
        rfl
      · rw [le_eq_false_of_lt _ _ h]
        simp
    unfold SetVolume
    rw [hout]
    rfl
  · intro h
    unfold SetVolume
    rw [h.1, h.2]
    unfold GetVolume
    simp only [Bool.and_self, if_true]
    rw [CustomSpaceComponent.GetProperty_of_find _ _ _ (Map.find_set_same _ _ _)]

/-- C19 at the test's input: after the volume is 0.5, setting 1.5 and setting -2.5
leave it at 0.5, and setting 1 and setting 0 are accepted. -/
theorem SetVolume_bounded_witness :
    (Float32.lt Float32.one 1069547520 = true
        ∧ GetVolume 7 (SetVolume 7
            (SetVolume 7 (ComponentBase.create ComponentType.Audio 1 : ComponentBase Unit)
              1056964608) 1069547520)
          = GetVolume 7
              (SetVolume 7 (ComponentBase.create ComponentType.Audio 1 : ComponentBase Unit)
                1056964608))
      ∧ (Float32.lt 3223322624 Float32.zero = true
        ∧ GetVolume 7 (SetVolume 7
            (SetVolume 7 (ComponentBase.create ComponentType.Audio 1 : ComponentBase Unit)
              1056964608) 3223322624)
          = GetVolume 7
              (SetVolume 7 (ComponentBase.create ComponentType.Audio 1 : ComponentBase Unit)
                1056964608))
      ∧ GetVolume 7 (SetVolume 7
          (SetVolume 7 (ComponentBase.create ComponentType.Audio 1 : ComponentBase Unit)
            1056964608) Float32.one) = Float32.one
      ∧ GetVolume 7 (SetVolume 7
          (SetVolume 7 (ComponentBase.create ComponentType.Audio 1 : ComponentBase Unit)
            1056964608) Float32.zero) = Float32.zero :=
  ⟨⟨by decide, (SetVolume_bounded 7 _ 1069547520).1 (Or.inr (by decide))⟩,
   ⟨by decide, (SetVolume_bounded 7 _ 3223322624).1 (Or.inl (by decide))⟩,
   (SetVolume_bounded 7 _ Float32.one).2 ⟨by decide, by decide⟩,
   (SetVolume_bounded 7 _ Float32.zero).2 ⟨by decide, by decide⟩⟩

end AudioSpaceComponent

/-! ## Custom properties: invalid values, the application origin and the name list -/

namespace CustomSpaceComponent

open common ComponentBase

variable {H : Type}

theorem GetApplicationOrigin_of_find (ApplicationOrigin : Nat) (c : ComponentBase H)
    (s : CspString) (h : c.Properties.find ApplicationOrigin = some (ReplicatedValue.string s)) :
    GetApplicationOrigin ApplicationOrigin c = s := by
  unfold GetApplicationOrigin
  rw [GetProperty_of_find c _ _ h]

theorem GetCustomPropertyKeys_congr (c c' : ComponentBase H)
    (h : c'.Properties.find 0 = c.Properties.find 0) :
    GetCustomPropertyKeys c' = GetCustomPropertyKeys c := by
  unfold GetCustomPropertyKeys GetProperty Map.HasKey
  rw [CUSTOM_PROPERTY_LIST_KEY, h]

theorem mem_foldl_track (K : CspString) (calls : List CustomCall) (L : List CspString)
    (hK : K ∈ L) (hcalls : CustomCall.Remove K ∉ calls) :
    K ∈ calls.foldl CustomCall.track L := by
  induction calls generalizing L with
  | nil => exact hK
  | cons call calls ih =>
    rw [List.foldl_cons]
    refine ih _ ?_ (fun h => hcalls (List.mem_cons_of_mem _ h))
    cases call with
    | Set K' V =>
      simp only [CustomCall.track]
      split_ifs
      · exact hK
      · exact List.mem_append_left _ hK
      · exact hK
    | Remove K' =>
      have hne : K ≠ K' := by
        rintro rfl
        exact hcalls (List.mem_cons_self _ _)
      exact (List.mem_erase_of_ne hne).mpr hK

/-- C21: `SetCustomProperty(K, V)` with `V` of type `InvalidType` does nothing, for
every name `K` and whatever the component holds: the component is the same
afterwards, in particular `Properties`, `DirtyProperties` and the list that
`GetCustomPropertyKeys()` returns. -/
theorem SetCustomProperty_InvalidType_noop (hash : CspString → Nat) (c : ComponentBase H)
    (K : CspString) (V : ReplicatedValue)
    (hV : V.GetReplicatedValueType = ReplicatedValueType.InvalidType) :
    SetCustomProperty hash c K V = c
      ∧ (SetCustomProperty hash c K V).Properties = c.Properties
      ∧ (SetCustomProperty hash c K V).DirtyProperties = c.DirtyProperties
      ∧ GetCustomPropertyKeys (SetCustomProperty hash c K V) = GetCustomPropertyKeys c := by
  rw [SetCustomProperty_of_invalid hash c K V hV]
  exact ⟨rfl, rfl, rfl, rfl⟩

/-- C21 at a concrete input: "Number" holds the integer 0 and is set again with a
default-constructed value; and "Other", never set, is set with such a value. -/
theorem SetCustomProperty_InvalidType_noop_witness :
    ReplicatedValue.invalid.GetReplicatedValueType = ReplicatedValueType.InvalidType
      ∧ (SetCustomProperty sampleHash
            (SetCustomProperty sampleHash (create 0 1 : ComponentBase Unit) "Number".toList
              (ReplicatedValue.integer 0))
            "Number".toList ReplicatedValue.invalid).Properties
        = (SetCustomProperty sampleHash (create 0 1 : ComponentBase Unit) "Number".toList
            (ReplicatedValue.integer 0)).Properties
      ∧ GetCustomPropertyKeys
          (SetCustomProperty sampleHash
            (SetCustomProperty sampleHash (create 0 1 : ComponentBase Unit) "Number".toList
              (ReplicatedValue.integer 0))
            "Other".toList ReplicatedValue.invalid)
        = GetCustomPropertyKeys
            (SetCustomProperty sampleHash (create 0 1 : ComponentBase Unit) "Number".toList
              (ReplicatedValue.integer 0)) :=
  ⟨rfl,
   (SetCustomProperty_InvalidType_noop sampleHash _ "Number".toList ReplicatedValue.invalid
      rfl).2.1,
   (SetCustomProperty_InvalidType_noop sampleHash _ "Other".toList ReplicatedValue.invalid
      rfl).2.2.2⟩

/-- C22, what the code does when `CustomComponentPropertyKeys::ApplicationOrigin` is
the key 0 (the value for which the counts that `CustomComponentTest` expects come
out), which is `CUSTOM_PROPERTY_LIST_KEY`: the application origin and the
comma-separated name list are one entry of `Properties`. On a component where
that entry holds the string `s`, `GetApplicationOrigin()` returns `s`; after
`SetCustomProperty(K, V)` with a valid `V` and a name `K` for which
`HasCustomProperty(K)` was false, it returns the name list with `K` added (`K`
itself when `s` was empty), under every hash function: the application origin
has changed, unless both `s` and `K` are empty. -/
theorem SetCustomProperty_overwrites_ApplicationOrigin (hash : CspString → Nat)
    (ApplicationOrigin : Nat) (c : ComponentBase H) (s K : CspString) (V : ReplicatedValue)
    (hA : ApplicationOrigin = CUSTOM_PROPERTY_LIST_KEY)
    (hs : c.Properties.find ApplicationOrigin = some (ReplicatedValue.string s))
    (hnew : HasCustomProperty hash c K = false)
    (hV : V.GetReplicatedValueType ≠ ReplicatedValueType.InvalidType) :
    GetApplicationOrigin ApplicationOrigin c = s
      ∧ GetApplicationOrigin ApplicationOrigin (SetCustomProperty hash c K V)
          = (if s = [] then K else s ++ [','] ++ K)
      ∧ (s ≠ [] ∨ K ≠ [] →
          GetApplicationOrigin ApplicationOrigin (SetCustomProperty hash c K V)
            ≠ GetApplicationOrigin ApplicationOrigin c) := by
  subst hA
  rw [CUSTOM_PROPERTY_LIST_KEY] at hs ⊢
  have hnew2 : c.Properties.HasKey (toUInt32 (hash K)) = false := hnew
  have hz : c.Properties.HasKey 0 = true := (Map.HasKey_eq_true_iff _ _).mpr ⟨_, hs⟩
  have hk : toUInt32 (hash K) ≠ 0 := by
    intro h
    rw [h, hz] at hnew2
    exact absurd hnew2 (by decide)
  have hf : (SetCustomProperty hash c K V).Properties.find 0
      = some (ReplicatedValue.string (if s = [] then K else s ++ [','] ++ K)) := by
    rw [SetCustomProperty_find_zero hash c K V hV hk hnew2, AddKey_of_string c K s hs]
    exact Map.find_set_same _ _ _
  rw [GetApplicationOrigin_of_find 0 c s hs, GetApplicationOrigin_of_find 0 _ _ hf]
  refine ⟨rfl, rfl, ?_⟩
  intro h
  by_cases hse : s = []
  · rw [if_pos hse, hse]
    rcases h with h | h
    · exact absurd hse h
    · exact h
  · rw [if_neg hse]
    intro heq
    have hlen := congrArg List.length heq
    simp at hlen

/-- C22 at the test's input: on a new custom component, with the application origin
at key 0, the first call of the test, `SetCustomProperty("Vector3", (10, 10, 10))`,
turns `GetApplicationOrigin()` from the empty string into "Vector3". -/
theorem SetCustomProperty_overwrites_ApplicationOrigin_witness :
    GetApplicationOrigin 0 (create 0 1 : ComponentBase Unit) = []
      ∧ GetApplicationOrigin 0
          (SetCustomProperty sampleHash (create 0 1 : ComponentBase Unit) "Vector3".toList
            (ReplicatedValue.vector3 1092616192 1092616192 1092616192))
        = "Vector3".toList := by
  have h := @SetCustomProperty_overwrites_ApplicationOrigin Unit sampleHash 0 (create 0 1) []
    "Vector3".toList (ReplicatedValue.vector3 1092616192 1092616192 1092616192)
    rfl rfl (by decide) (by decide)
  exact ⟨h.1, h.2.1⟩

/-- C23, as stated, fails for every hash function and every application-origin
key: after `SetCustomProperty("a,b", 1)` on a new component the name "a,b", set
and not removed, is not among the names `GetCustomPropertyKeys()` returns (the
list is kept as one comma-separated string, so it reads as "a" and "b", or the
entry of the list is not a list at all). Under the sample hash, with the
application origin at key 0, the name "a" is returned although
`HasCustomProperty("a")` is false. -/
theorem GetCustomPropertyKeys_invariant_counterexample :
    (¬ ∃ (hash : CspString → Nat) (ApplicationOrigin : Nat),
        "a,b".toList ∈ GetCustomPropertyKeys
          (SetCustomProperty hash (create ApplicationOrigin 0 : ComponentBase Unit) "a,b".toList
            (ReplicatedValue.integer 1)))
    ∧ ("a".toList ∈ GetCustomPropertyKeys
          (SetCustomProperty sampleHash (create 0 0 : ComponentBase Unit) "a,b".toList
            (ReplicatedValue.integer 1))
        ∧ HasCustomProperty sampleHash
            (SetCustomProperty sampleHash (create 0 0 : ComponentBase Unit) "a,b".toList
              (ReplicatedValue.integer 1)) "a".toList = false) := by
  refine ⟨?_, by decide, by decide⟩
  rintro ⟨hash, A, h⟩
  have hV : (ReplicatedValue.integer 1).GetReplicatedValueType
      ≠ ReplicatedValueType.InvalidType := by decide
  by_cases hk : toUInt32 (hash "a,b".toList) = 0
  · have hf : (SetCustomProperty hash (create A 0 : ComponentBase Unit) "a,b".toList
        (ReplicatedValue.integer 1)).Properties.find 0 = some (ReplicatedValue.integer 1) := by
      have h1 := SetCustomProperty_find_key hash (create A 0 : ComponentBase Unit) "a,b".toList
        (ReplicatedValue.integer 1) hV
      rwa [hk] at h1
    rw [GetCustomPropertyKeys_of_other _ (fun s hs => by
      rw [hf] at hs
      exact absurd hs (by simp))] at h
    exact absurd h (List.not_mem_nil _)
  · by_cases hA : toUInt32 (hash "a,b".toList) = A
    · have hhas : (create A 0 : ComponentBase Unit).Properties.HasKey
          (toUInt32 (hash "a,b".toList)) = true := by
        rw [create_HasKey]
        simpa using hA
      have hA0 : ¬ (0 = A) := fun h0 => hk (hA.trans h0.symm)
      have hf : (SetCustomProperty hash (create A 0 : ComponentBase Unit) "a,b".toList
          (ReplicatedValue.integer 1)).Properties.find 0 = none := by
        rw [SetCustomProperty_of_valid hash _ _ _ hV, if_pos hhas]
        show ((create A 0 : ComponentBase Unit).Properties.set _ _).find 0 = none
        rw [Map.find_set_ne _ _ _ _ (fun h0 => hk h0.symm), create_find, if_neg hA0]
      rw [GetCustomPropertyKeys_of_other _ (fun s hs => by
        rw [hf] at hs
        exact absurd hs (by simp))] at h
      exact absurd h (List.not_mem_nil _)
    · have hnew : (create A 0 : ComponentBase Unit).Properties.HasKey
          (toUInt32 (hash "a,b".toList)) = false := by
        rw [create_HasKey]
        simpa using hA
      have hf : (SetCustomProperty hash (create A 0 : ComponentBase Unit) "a,b".toList
          (ReplicatedValue.integer 1)).Properties.find 0
          = some (ReplicatedValue.string "a,b".toList) := by
        rw [SetCustomProperty_find_zero hash _ _ _ hV hk hnew]
        by_cases hA0 : A = 0
        · have h0 : (create A 0 : ComponentBase Unit).Properties.find 0
              = some (ReplicatedValue.string []) := by
            rw [create_find, if_pos hA0.symm]
          rw [AddKey_of_string _ _ _ h0]
          exact Map.find_set_same _ _ _
        · have h0 : (create A 0 : ComponentBase Unit).Properties.HasKey 0 = false := by
            rw [create_HasKey]
            simpa using fun h1 : 0 = A => hA0 h1.symm
          rw [AddKey_of_absent _ _ h0]
          exact Map.find_set_same _ _ _
      rw [GetCustomPropertyKeys_of_string _ _ hf] at h
      exact absurd h (by decide)

/-- C23, amended. Take a sequence of `SetCustomProperty` and `RemoveCustomProperty`
calls on a newly constructed component in which different names have different
32-bit hash keys, no name has the key 0 or the application-origin key, and every
name that is set is non-empty and has no comma. In the state reached, every
name returned by `GetCustomPropertyKeys()` satisfies `HasCustomProperty`, and
every name that was set with a valid value and not removed since is returned by
`GetCustomPropertyKeys()`. -/
theorem GetCustomPropertyKeys_invariant (hash : CspString → Nat) (ApplicationOrigin Id : Nat)
    (calls : List CustomCall)
    (hkeys : ∀ call ∈ calls,
      toUInt32 (hash call.Key) ≠ 0 ∧ toUInt32 (hash call.Key) ≠ ApplicationOrigin)
    (hinj : ∀ call ∈ calls, ∀ call' ∈ calls,
      toUInt32 (hash call.Key) = toUInt32 (hash call'.Key) → call.Key = call'.Key)
    (hshape : ∀ K V, CustomCall.Set K V ∈ calls → K ≠ [] ∧ ',' ∉ K) :
    (∀ K ∈ GetCustomPropertyKeys
          (CustomCall.run hash (create ApplicationOrigin Id : ComponentBase H) calls),
        HasCustomProperty hash
          (CustomCall.run hash (create ApplicationOrigin Id : ComponentBase H) calls) K = true)
      ∧ ∀ (before after : List CustomCall) (K : CspString) (V : ReplicatedValue),
          calls = before ++ CustomCall.Set K V :: after →
          V.GetReplicatedValueType ≠ ReplicatedValueType.InvalidType →
          CustomCall.Remove K ∉ after →
          K ∈ GetCustomPropertyKeys
            (CustomCall.run hash (create ApplicationOrigin Id : ComponentBase H) calls) := by
  have hP : ∀ K, K ∈ calls.map CustomCall.Key →
      toUInt32 (hash K) ≠ 0 ∧ toUInt32 (hash K) ≠ ApplicationOrigin := by
    intro K hK
    obtain ⟨call, hcall, rfl⟩ := List.mem_map.mp hK
    exact hkeys call hcall
  have hinj2 : ∀ K K', K ∈ calls.map CustomCall.Key → K' ∈ calls.map CustomCall.Key →
      toUInt32 (hash K) = toUInt32 (hash K') → K = K' := by
    intro K K' hK hK'
    obtain ⟨call, hcall, rfl⟩ := List.mem_map.mp hK
    obtain ⟨call', hcall', rfl⟩ := List.mem_map.mp hK'
    exact hinj call hcall call' hcall'
  have hinv := invariants_run hP hinj2 calls
    (fun call hcall => List.mem_map_of_mem CustomCall.Key hcall) hshape
    (create ApplicationOrigin Id : ComponentBase H) []
    (KeyInvariant_create hash ApplicationOrigin Id _) (ListInvariant_create ApplicationOrigin Id)
  rw [hinv.2.keys_eq]
  constructor
  · intro K hK
    exact (hinv.1.mem_iff hP hinj2 K (hinv.1.names K hK)).mpr hK
  · intro before after K V hcalls hV hafter
    rw [hcalls, List.foldl_append, List.foldl_cons]
    refine mem_foldl_track K after _ ?_ hafter
    simp only [CustomCall.track]
    rw [if_pos hV]
    split_ifs with hin
    · exact hin
    · exact List.mem_append_right _ (List.mem_singleton_self K)

/-- C23, amended, at the test's input: the six properties of the test are set on a
new component and "Boolean" is removed; "Integer", set and not removed, is
among the names returned, and `HasCustomProperty("Integer")` is true. -/
theorem GetCustomPropertyKeys_invariant_witness :
    "Integer".toList ∈ GetCustomPropertyKeys
        (CustomCall.run sampleHash (create 0 1 : ComponentBase Unit)
          (testProperties.map (fun kv => CustomCall.Set kv.1 kv.2)
            ++ [CustomCall.Remove "Boolean".toList]))
      ∧ HasCustomProperty sampleHash
          (CustomCall.run sampleHash (create 0 1 : ComponentBase Unit)
            (testProperties.map (fun kv => CustomCall.Set kv.1 kv.2)
              ++ [CustomCall.Remove "Boolean".toList])) "Integer".toList = true := by
  have h := @GetCustomPropertyKeys_invariant Unit sampleHash 0 1
    (testProperties.map (fun kv => CustomCall.Set kv.1 kv.2)
      ++ [CustomCall.Remove "Boolean".toList])
    (by decide) (by decide)
    (by
      intro K V h
      simp [testProperties] at h
      rcases h with h | h | h | h | h | h <;>
      · obtain ⟨rfl, _⟩ := h
        decide)
  have hmem := h.2
    ((testProperties.take 4).map (fun kv => CustomCall.Set kv.1 kv.2))
    [CustomCall.Set "Float".toList (ReplicatedValue.float 1065353216),
      CustomCall.Remove "Boolean".toList]
    "Integer".toList (ReplicatedValue.integer 1) rfl (by decide) (by decide)
  exact ⟨hmem, h.1 _ hmem⟩

/-- C24, as stated, fails for a name whose 32-bit hash key is 0, the key of the name
list, under every hash function that has such a name and every
application-origin key: `K` set to "a" and then to "b", `HasCustomProperty(K)`
being true in between, makes `GetCustomPropertyKeys()` go from "a" to "b". For
instance, when the hash of a name is its length and the application origin is
at key 0, the empty name is there on a new component, and setting it to "b"
changes the list from empty to "b". -/
theorem SetCustomProperty_existing_counterexample :
    (¬ ∃ (hash : CspString → Nat) (ApplicationOrigin : Nat) (K : CspString),
        toUInt32 (hash K) = 0
          ∧ (HasCustomProperty hash
                (SetCustomProperty hash (create ApplicationOrigin 0 : ComponentBase Unit) K
                  (ReplicatedValue.string "a".toList)) K = true →
              GetCustomPropertyKeys
                  (SetCustomProperty hash
                    (SetCustomProperty hash (create ApplicationOrigin 0 : ComponentBase Unit) K
                      (ReplicatedValue.string "a".toList)) K (ReplicatedValue.string "b".toList))
                = GetCustomPropertyKeys
                    (SetCustomProperty hash (create ApplicationOrigin 0 : ComponentBase Unit) K
                      (ReplicatedValue.string "a".toList))))
    ∧ (HasCustomProperty (fun K => K.length) (create 0 0 : ComponentBase Unit) [] = true
        ∧ GetCustomPropertyKeys
            (SetCustomProperty (fun K => K.length) (create 0 0 : ComponentBase Unit) []
              (ReplicatedValue.string "b".toList))
          ≠ GetCustomPropertyKeys (create 0 0 : ComponentBase Unit)) := by
  refine ⟨?_, by decide, by decide⟩
  rintro ⟨hash, A, K, hk, h⟩
  have hVa : (ReplicatedValue.string "a".toList).GetReplicatedValueType
      ≠ ReplicatedValueType.InvalidType := by decide
  have hVb : (ReplicatedValue.string "b".toList).GetReplicatedValueType
      ≠ ReplicatedValueType.InvalidType := by decide
  have hf1 : (SetCustomProperty hash (create A 0 : ComponentBase Unit) K
      (ReplicatedValue.string "a".toList)).Properties.find 0
      = some (ReplicatedValue.string "a".toList) := by
    have h1 := SetCustomProperty_find_key hash (create A 0 : ComponentBase Unit) K _ hVa
    rwa [hk] at h1
  have hf2 : (SetCustomProperty hash
      (SetCustomProperty hash (create A 0 : ComponentBase Unit) K
        (ReplicatedValue.string "a".toList)) K
      (ReplicatedValue.string "b".toList)).Properties.find 0
      = some (ReplicatedValue.string "b".toList) := by
    have h1 := SetCustomProperty_find_key hash
      (SetCustomProperty hash (create A 0 : ComponentBase Unit) K
        (ReplicatedValue.string "a".toList)) K _ hVb
    rwa [hk] at h1
  have hhas : HasCustomProperty hash
      (SetCustomProperty hash (create A 0 : ComponentBase Unit) K
        (ReplicatedValue.string "a".toList)) K = true := by
    show (SetCustomProperty hash (create A 0 : ComponentBase Unit) K
      (ReplicatedValue.string "a".toList)).Properties.HasKey (toUInt32 (hash K)) = true
    rw [hk]
    exact (Map.HasKey_eq_true_iff _ _).mpr ⟨_, hf1⟩
  have h1 := h hhas
  rw [GetCustomPropertyKeys_of_string _ _ hf2, GetCustomPropertyKeys_of_string _ _ hf1] at h1
  exact absurd h1 (by decide)

/-- C24, amended. If `HasCustomProperty(K)` is already true, `SetCustomProperty(K, V2)`
with a valid `V2` stores `V2` for `K` and changes no other entry of `Properties`;
`GetNumProperties()` is the same before and after; and `GetCustomPropertyKeys()`
is the same before and after when the hash key of `K` is not 0, the key of the
name list. -/
theorem SetCustomProperty_existing (hash : CspString → Nat) (c : ComponentBase H)
    (K : CspString) (V2 : ReplicatedValue)
    (hhas : HasCustomProperty hash c K = true)
    (hV : V2.GetReplicatedValueType ≠ ReplicatedValueType.InvalidType) :
    GetNumProperties (SetCustomProperty hash c K V2) = GetNumProperties c
      ∧ (toUInt32 (hash K) ≠ 0 →
          GetCustomPropertyKeys (SetCustomProperty hash c K V2) = GetCustomPropertyKeys c)
      ∧ (SetCustomProperty hash c K V2).Properties.find (toUInt32 (hash K)) = some V2
      ∧ ∀ k, k ≠ toUInt32 (hash K) →
          (SetCustomProperty hash c K V2).Properties.find k = c.Properties.find k := by
  have hk : c.Properties.HasKey (toUInt32 (hash K)) = true := hhas
  have hset : SetCustomProperty hash c K V2 = c.SetProperty (toUInt32 (hash K)) V2 := by
    rw [SetCustomProperty_of_valid hash c K V2 hV, if_pos hk]
  rw [hset]
  refine ⟨?_, ?_, Map.find_set_same _ _ _, fun k hne => Map.find_set_ne _ _ _ _ hne⟩
  · have hz : (c.SetProperty (toUInt32 (hash K)) V2).Properties.HasKey 0
        = c.Properties.HasKey 0 := by
      show (c.Properties.set _ _).HasKey 0 = _
      rw [Map.HasKey_set]
      by_cases h0 : 0 = toUInt32 (hash K)
      · rw [← h0] at hk
        simp [hk]
      · simp [h0]
    have hs : (c.SetProperty (toUInt32 (hash K)) V2).Properties.Size = c.Properties.Size := by
      show (c.Properties.set _ _).Size = _
      rw [Map.Size_set, if_pos hk]
    unfold GetNumProperties
    rw [CUSTOM_PROPERTY_LIST_KEY, hz, hs]
  · intro h0
    exact GetCustomPropertyKeys_congr c _ (Map.find_set_ne _ _ _ _ (fun h => h0 h.symm))

/-- C24, amended, at a concrete input: "Number" holds the integer 0 on a custom
component and is set to 100. -/
theorem SetCustomProperty_existing_witness :
    HasCustomProperty sampleHash
        (SetCustomProperty sampleHash (create 0 1 : ComponentBase Unit) "Number".toList
          (ReplicatedValue.integer 0)) "Number".toList = true
      ∧ toUInt32 (sampleHash "Number".toList) ≠ 0
      ∧ GetCustomPropertyKeys
          (SetCustomProperty sampleHash
            (SetCustomProperty sampleHash (create 0 1 : ComponentBase Unit) "Number".toList
              (ReplicatedValue.integer 0)) "Number".toList (ReplicatedValue.integer 100))
        = GetCustomPropertyKeys
            (SetCustomProperty sampleHash (create 0 1 : ComponentBase Unit) "Number".toList
              (ReplicatedValue.integer 0)) :=
  ⟨by decide, by decide,
   (SetCustomProperty_existing sampleHash _ "Number".toList (ReplicatedValue.integer 100)
      (by decide) (by decide)).2.1 (by decide)⟩

/-- C25. Take a sequence of `SetCustomProperty` and `RemoveCustomProperty` calls on a
newly constructed component, and a name `K` to remove next, such that the names
have pairwise distinct 32-bit hash keys, different from 0 (and from the
application-origin key, should that not be 0), and every name that is set is
non-empty and has no comma. Then `GetCustomPropertyKeys()` returns the names
currently set, each once, in the order in which they were set for the first time
since they were last absent (setting a listed name again does not move it): for
distinct names set one after the other it is the list of these names in that
order. `RemoveCustomProperty(K)` turns the list into the same list without `K`,
the other names in the same order, and the string stored under key 0 is what is
left joined with commas, the empty string when nothing is left. -/
theorem GetCustomPropertyKeys_order (hash : CspString → Nat) (ApplicationOrigin Id : Nat)
    (calls : List CustomCall) (K : CspString)
    (hkeys : ∀ call ∈ calls ++ [CustomCall.Remove K], toUInt32 (hash call.Key) ≠ 0)
    (hA : ApplicationOrigin = 0
      ∨ ∀ call ∈ calls ++ [CustomCall.Remove K], toUInt32 (hash call.Key) ≠ ApplicationOrigin)
    (hinj : ∀ call ∈ calls ++ [CustomCall.Remove K],
      ∀ call' ∈ calls ++ [CustomCall.Remove K],
        toUInt32 (hash call.Key) = toUInt32 (hash call'.Key) → call.Key = call'.Key)
    (hshape : ∀ K' V, CustomCall.Set K' V ∈ calls → K' ≠ [] ∧ ',' ∉ K') :
    GetCustomPropertyKeys
        (CustomCall.run hash (create ApplicationOrigin Id : ComponentBase H) calls)
      = calls.foldl CustomCall.track []
    ∧ (∀ kvs : List (CspString × ReplicatedValue),
        calls = kvs.map (fun kv => CustomCall.Set kv.1 kv.2) →
        (kvs.map Prod.fst).Nodup →
        (∀ kv ∈ kvs, kv.2.GetReplicatedValueType ≠ ReplicatedValueType.InvalidType) →
        GetCustomPropertyKeys
            (CustomCall.run hash (create ApplicationOrigin Id : ComponentBase H) calls)
          = kvs.map Prod.fst)
    ∧ (GetCustomPropertyKeys
        (CustomCall.run hash (create ApplicationOrigin Id : ComponentBase H) calls)).Nodup
    ∧ (∀ call ∈ calls,
        (call.Key ∈ GetCustomPropertyKeys
            (CustomCall.run hash (create ApplicationOrigin Id : ComponentBase H) calls)
          ↔ HasCustomProperty hash
              (CustomCall.run hash (create ApplicationOrigin Id : ComponentBase H) calls)
              call.Key = true))
    ∧ GetCustomPropertyKeys
          (RemoveCustomProperty hash
            (CustomCall.run hash (create ApplicationOrigin Id : ComponentBase H) calls) K)
        = (GetCustomPropertyKeys
            (CustomCall.run hash (create ApplicationOrigin Id : ComponentBase H) calls)).filter
            (fun K' => decide (K' ≠ K))
    ∧ (K ∈ GetCustomPropertyKeys
          (CustomCall.run hash (create ApplicationOrigin Id : ComponentBase H) calls) →
        (RemoveCustomProperty hash
            (CustomCall.run hash (create ApplicationOrigin Id : ComponentBase H) calls)
            K).Properties.find CUSTOM_PROPERTY_LIST_KEY
          = some (ReplicatedValue.string (joinKeys
              ((GetCustomPropertyKeys
                (CustomCall.run hash (create ApplicationOrigin Id : ComponentBase H)
                  calls)).filter (fun K' => decide (K' ≠ K)))))) := by
  have hP : ∀ K', K' ∈ (calls ++ [CustomCall.Remove K]).map CustomCall.Key →
      toUInt32 (hash K') ≠ 0 ∧ toUInt32 (hash K') ≠ ApplicationOrigin := by
    intro K' hK'
    obtain ⟨call, hcall, rfl⟩ := List.mem_map.mp hK'
    refine ⟨hkeys call hcall, ?_⟩
    rcases hA with hA | hA
    · rw [hA]
      exact hkeys call hcall
    · exact hA call hcall
  have hinj2 : ∀ K' K'', K' ∈ (calls ++ [CustomCall.Remove K]).map CustomCall.Key →
      K'' ∈ (calls ++ [CustomCall.Remove K]).map CustomCall.Key →
      toUInt32 (hash K') = toUInt32 (hash K'') → K' = K'' := by
    intro K' K'' hK' hK''
    obtain ⟨call, hcall, rfl⟩ := List.mem_map.mp hK'
    obtain ⟨call', hcall', rfl⟩ := List.mem_map.mp hK''
    exact hinj call hcall call' hcall'
  have hsub : ∀ call ∈ calls,
      call.Key ∈ (calls ++ [CustomCall.Remove K]).map CustomCall.Key :=
    fun call hcall => List.mem_map_of_mem CustomCall.Key (List.mem_append_left _ hcall)
  have hKP : K ∈ (calls ++ [CustomCall.Remove K]).map CustomCall.Key :=
    List.mem_map.mpr ⟨CustomCall.Remove K, by simp, rfl⟩
  have hinv := invariants_run hP hinj2 calls hsub hshape
    (create ApplicationOrigin Id : ComponentBase H) []
    (KeyInvariant_create hash ApplicationOrigin Id _) (ListInvariant_create ApplicationOrigin Id)
  have linv := hinv.2.list_remove hinv.1 hP hinj2 K hKP
  have hfil : (calls.foldl CustomCall.track []).erase K
      = (calls.foldl CustomCall.track []).filter (fun K' => decide (K' ≠ K)) := by
    rw [hinv.1.nodup.erase_eq_filter K]
    refine List.filter_congr (fun x _ => ?_)
    by_cases hx : x = K <;> simp [hx]
  rw [hinv.2.keys_eq, linv.keys_eq, ← hfil]
  refine ⟨rfl, ?_, hinv.1.nodup, ?_, rfl, ?_⟩
  · intro kvs hcalls hnodup hvalid
    rw [hcalls, foldl_track_sets kvs [] hvalid hnodup (fun kv _ => List.not_mem_nil _)]
    rfl
  · intro call hcall
    exact (hinv.1.mem_iff hP hinj2 call.Key (hsub call hcall)).symm
  · intro hin
    have hL : calls.foldl CustomCall.track [] ≠ [] := List.ne_nil_of_mem hin
    have hz : (CustomCall.run hash (create ApplicationOrigin Id : ComponentBase H)
        calls).Properties.HasKey 0 = true := by
      rw [← Bool.not_eq_false]
      exact fun h => hL (hinv.2.absent h)
    have hz2 : (RemoveCustomProperty hash
        (CustomCall.run hash (create ApplicationOrigin Id : ComponentBase H) calls)
        K).Properties.HasKey 0 = true := by
      rw [RemoveCustomProperty_HasKey, hz]
      simpa using fun h : 0 = toUInt32 (hash K) => (hP K hKP).1 h.symm
    obtain ⟨v, hv⟩ := (Map.HasKey_eq_true_iff _ _).mp hz2
    rw [CUSTOM_PROPERTY_LIST_KEY, hv, linv.stored v hv]

/-- C25 at the test's input: the six properties of the test are set on a new
component, in the order of the test, and "Boolean" is removed. -/
theorem GetCustomPropertyKeys_order_witness :
    GetCustomPropertyKeys
        (CustomCall.run sampleHash (create 0 1 : ComponentBase Unit)
          (testProperties.map (fun kv => CustomCall.Set kv.1 kv.2)))
      = testProperties.map Prod.fst
    ∧ GetCustomPropertyKeys
          (RemoveCustomProperty sampleHash
            (CustomCall.run sampleHash (create 0 1 : ComponentBase Unit)
              (testProperties.map (fun kv => CustomCall.Set kv.1 kv.2))) "Boolean".toList)
        = (GetCustomPropertyKeys
            (CustomCall.run sampleHash (create 0 1 : ComponentBase Unit)
              (testProperties.map (fun kv => CustomCall.Set kv.1 kv.2)))).filter
            (fun K' => decide (K' ≠ "Boolean".toList)) := by
  have h := @GetCustomPropertyKeys_order Unit sampleHash 0 1
    (testProperties.map (fun kv => CustomCall.Set kv.1 kv.2)) "Boolean".toList
    (by decide) (Or.inl rfl) (by decide)
    (by
      intro K V h
      simp [testProperties] at h
      rcases h with h | h | h | h | h | h <;>
      · obtain ⟨rfl, _⟩ := h
        decide)
  exact ⟨h.2.1 testProperties rfl (by decide) (by decide), h.2.2.2.2.1⟩

end CustomSpaceComponent

end multiplayer

/-! ## Script modules -/

namespace systems

namespace ScriptSystem

open common

/-- C20, what the code does when the fetched lookup table already contains `Name`:
`Callback` is invoked with `NullResult::Invalid()` and, there being no `return`
after it, the function goes on to create the asset, upload its data and update
the lookup table with `Name` mapped to the new asset, and `Callback` is invoked
a second time with the result of the update. -/
theorem CreateScriptModuleAsset_existing_name (AssetSystem : AssetSystem)
    (InvalidNullResult : NullResult) (Namespace Name ModuleText : CspString)
    (Collection : AssetCollection) (Asset : Asset) (Updated : AssetCollectionResult)
    (hget : (AssetSystem.GetAssetCollectionByName
        (ASSET_COLLECTION_NAME_PREFIX ++ Namespace)).AssetCollection = Collection)
    (hhas : Collection.Metadata.HasKey Name = true)
    (hcreate : (AssetSystem.CreateAsset Collection.Id
        (Collection.Id ++ "_".toList ++ Name)).Asset = Asset)
    (hupdate : AssetSystem.UpdateAssetCollectionMetadata Collection.Id
        (Collection.Metadata.set Name Asset.Id) = Updated) :
    CreateScriptModuleAsset AssetSystem InvalidNullResult Namespace Name ModuleText recordCallback
        = [Event.GetAssetCollectionByName (ASSET_COLLECTION_NAME_PREFIX ++ Namespace),
            Event.Callback InvalidNullResult,
            Event.CreateAsset Collection.Id (Collection.Id ++ "_".toList ++ Name),
            Event.UploadAssetData Collection.Id Asset.Id ModuleText,
            Event.UpdateAssetCollectionMetadata Collection.Id
              (Collection.Metadata.set Name Asset.Id),
            Event.Callback
              { ResultCode := Updated.ResultCode, HttpResultCode := Updated.HttpResultCode }]
      ∧ ((CreateScriptModuleAsset AssetSystem InvalidNullResult Namespace Name ModuleText
            recordCallback).filter Event.isCallback).length = 2
      ∧ ((CreateScriptModuleAsset AssetSystem InvalidNullResult Namespace Name ModuleText
            recordCallback).filter Event.isWrite).length = 3 := by
  have hev : CreateScriptModuleAsset AssetSystem InvalidNullResult Namespace Name ModuleText
      recordCallback
      = [Event.GetAssetCollectionByName (ASSET_COLLECTION_NAME_PREFIX ++ Namespace),
          Event.Callback InvalidNullResult,
          Event.CreateAsset Collection.Id (Collection.Id ++ "_".toList ++ Name),
          Event.UploadAssetData Collection.Id Asset.Id ModuleText,
          Event.UpdateAssetCollectionMetadata Collection.Id
            (Collection.Metadata.set Name Asset.Id),
          Event.Callback
            { ResultCode := Updated.ResultCode, HttpResultCode := Updated.HttpResultCode }] := by
    unfold CreateScriptModuleAsset GetScriptModuleCollection _GetScriptModuleCollectionCallback
      UpdateScriptModuleCollectionLookupTable recordCallback
    simp only [hget, hhas, hcreate, hupdate, if_true]
    rfl
  refine ⟨hev, ?_, ?_⟩
  · rw [hev]
    rfl
  · rw [hev]
    rfl

/-- C20 at a concrete input: the namespace "ns" whose lookup table maps "module" to
the asset "a0"; the asset system creates the asset "a1". -/
theorem CreateScriptModuleAsset_existing_name_witness :
    ((CreateScriptModuleAsset
        { GetAssetCollectionByName := fun _ =>
            { ResultCode := EResultCode.Success
              HttpResultCode := 200
              AssetCollection :=
                { Id := "c0".toList
                  Metadata := (Map.empty : Map CspString CspString).set "module".toList
                    "a0".toList } }
          GetAssetCollectionById := fun _ =>
            { ResultCode := EResultCode.Success
              HttpResultCode := 200
              AssetCollection := { Id := "c0".toList, Metadata := Map.empty } }
          CreateAsset := fun _ _ =>
            { ResultCode := EResultCode.Success, HttpResultCode := 200, Asset := { Id := "a1".toList } }
          UpdateAssetCollectionMetadata := fun Id Metadata =>
            { ResultCode := EResultCode.Success
              HttpResultCode := 200
              AssetCollection := { Id := Id, Metadata := Metadata } } }
        { ResultCode := EResultCode.Failed, HttpResultCode := 0 }
        "ns".toList "module".toList "var x = 1;".toList recordCallback).filter
        Event.isCallback).length = 2 :=
  (CreateScriptModuleAsset_existing_name _ _ "ns".toList "module".toList "var x = 1;".toList
    { Id := "c0".toList
      Metadata := (Map.empty : Map CspString CspString).set "module".toList "a0".toList }
    { Id := "a1".toList }
    { ResultCode := EResultCode.Success
      HttpResultCode := 200
      AssetCollection :=
        { Id := "c0".toList
          Metadata := ((Map.empty : Map CspString CspString).set "module".toList
            "a0".toList).set "module".toList "a1".toList } }
    rfl (by decide) rfl rfl).2.1

/-- C26, what the code does. When `Name` is in the lookup table of the collection
passed in, `GetScriptModuleAsset` requests the asset and never invokes
`Callback`: the callback it gives to `GetAssetById` has an empty body. When `Name`
is found only in the re-fetched collection, the same happens after the
re-fetch. When `Name` is in neither table (a re-fetch that failed included: the
failure is not passed on), `Callback` is invoked once, with `Failed`, the HTTP
code 400 and the body "Module does not exist in namespace!". -/
theorem GetScriptModuleAsset_callbacks (AssetSystem : AssetSystem)
    (Collection : ScriptModuleCollection) (Name : CspString) :
    (∀ AssetId, Collection.LookupTable.find Name = some AssetId →
        GetScriptModuleAsset AssetSystem Collection Name recordModuleCallback
            = [Event.GetAssetById Collection.Id AssetId]
          ∧ ((GetScriptModuleAsset AssetSystem Collection Name recordModuleCallback).filter
              Event.isCallback).length = 0)
    ∧ (Collection.LookupTable.find Name = none →
        ∀ AssetId,
          (AssetSystem.GetAssetCollectionById Collection.Id).AssetCollection.Metadata.find Name
            = some AssetId →
          GetScriptModuleAsset AssetSystem Collection Name recordModuleCallback
              = [Event.GetAssetCollectionById Collection.Id,
                  Event.GetAssetById
                    (AssetSystem.GetAssetCollectionById Collection.Id).AssetCollection.Id AssetId]
            ∧ ((GetScriptModuleAsset AssetSystem Collection Name recordModuleCallback).filter
                Event.isCallback).length = 0)
    ∧ (Collection.LookupTable.find Name = none →
        (AssetSystem.GetAssetCollectionById Collection.Id).AssetCollection.Metadata.find Name
          = none →
        GetScriptModuleAsset AssetSystem Collection Name recordModuleCallback
            = [Event.GetAssetCollectionById Collection.Id,
                Event.ModuleCallback
                  { ResultCode := EResultCode.Failed
                    HttpResultCode := 400
                    ResponseBody := "Module does not exist in namespace!".toList }]
          ∧ ((GetScriptModuleAsset AssetSystem Collection Name recordModuleCallback).filter
              Event.isCallback).length = 1) := by
  refine ⟨?_, ?_, ?_⟩
  · intro AssetId h
    have hev : GetScriptModuleAsset AssetSystem Collection Name recordModuleCallback
        = [Event.GetAssetById Collection.Id AssetId] := by
      unfold GetScriptModuleAsset
      simp only [h]
    rw [hev]
    exact ⟨rfl, rfl⟩
  · intro h AssetId h2
    have hev : GetScriptModuleAsset AssetSystem Collection Name recordModuleCallback
        = [Event.GetAssetCollectionById Collection.Id,
            Event.GetAssetById
              (AssetSystem.GetAssetCollectionById Collection.Id).AssetCollection.Id AssetId] := by
      unfold GetScriptModuleAsset GetScriptModuleCollectionById
        _GetScriptModuleCollectionCallback
      simp only [h, h2, if_true]
    rw [hev]
    exact ⟨rfl, rfl⟩
  · intro h h2
    have hev : GetScriptModuleAsset AssetSystem Collection Name recordModuleCallback
        = [Event.GetAssetCollectionById Collection.Id,
            Event.ModuleCallback
              { ResultCode := EResultCode.Failed
                HttpResultCode := 400
                ResponseBody := "Module does not exist in namespace!".toList }] := by
      unfold GetScriptModuleAsset GetScriptModuleCollectionById
        _GetScriptModuleCollectionCallback recordModuleCallback
      simp only [h, h2, if_true]
    rw [hev]
    exact ⟨rfl, rfl⟩

/-- C26 at a concrete input: the lookup table of the collection "c0" maps "module" to
the asset "a0"; the asset is requested and the callback is not invoked. -/
theorem GetScriptModuleAsset_callbacks_witness :
    GetScriptModuleAsset
        { GetAssetCollectionByName := fun _ =>
            { ResultCode := EResultCode.Success
              HttpResultCode := 200
              AssetCollection := { Id := "c0".toList, Metadata := Map.empty } }
          GetAssetCollectionById := fun _ =>
            { ResultCode := EResultCode.Success
              HttpResultCode := 200
              AssetCollection := { Id := "c0".toList, Metadata := Map.empty } }
          CreateAsset := fun _ _ =>
            { ResultCode := EResultCode.Success
              HttpResultCode := 200
              Asset := { Id := "a1".toList } }
          UpdateAssetCollectionMetadata := fun Id Metadata =>
            { ResultCode := EResultCode.Success
              HttpResultCode := 200
              AssetCollection := { Id := Id, Metadata := Metadata } } }
        { Id := "c0".toList
          LookupTable := (Map.empty : Map CspString CspString).set "module".toList "a0".toList }
        "module".toList recordModuleCallback
      = [Event.GetAssetById "c0".toList "a0".toList] :=
  ((GetScriptModuleAsset_callbacks _
      { Id := "c0".toList
        LookupTable := (Map.empty : Map CspString CspString).set "module".toList "a0".toList }
      "module".toList).1 "a0".toList (by decide)).1

/-- C27, what the code does: the result delivered to the callback always has the
result code `Success` and the HTTP code 400, whatever the codes of the
asset-collection request were; its collection has the `Id` of the asset
collection and, as lookup table, the metadata map of the asset collection. -/
theorem GetScriptModuleCollection_result (AssetSystem : AssetSystem) (Namespace Id : CspString)
    (Callback : ScriptModuleCollectionResult → List Event) (Result : AssetCollectionResult) :
    _GetScriptModuleCollectionCallback Callback Result
        = Callback
            { ResultCode := EResultCode.Success
              HttpResultCode := 400
              Collection :=
                { Id := Result.AssetCollection.Id
                  LookupTable := Result.AssetCollection.Metadata } }
      ∧ GetScriptModuleCollection AssetSystem Namespace Callback
        = Event.GetAssetCollectionByName (ASSET_COLLECTION_NAME_PREFIX ++ Namespace) ::
            Callback
              { ResultCode := EResultCode.Success
                HttpResultCode := 400
                Collection :=
                  { Id := (AssetSystem.GetAssetCollectionByName
                      (ASSET_COLLECTION_NAME_PREFIX ++ Namespace)).AssetCollection.Id
                    LookupTable := (AssetSystem.GetAssetCollectionByName
                      (ASSET_COLLECTION_NAME_PREFIX ++ Namespace)).AssetCollection.Metadata } }
      ∧ GetScriptModuleCollectionById AssetSystem Id Callback
        = Event.GetAssetCollectionById Id ::
            Callback
              { ResultCode := EResultCode.Success
                HttpResultCode := 400
                Collection :=
                  { Id := (AssetSystem.GetAssetCollectionById Id).AssetCollection.Id
                    LookupTable :=
                      (AssetSystem.GetAssetCollectionById Id).AssetCollection.Metadata } } :=
  ⟨rfl, rfl, rfl⟩

/-- C28: when the runtime has no context for `ContextId`, `RunScript` and
`RunScriptFile` return false and evaluate nothing; when it has one, each asks
that context for one evaluation, of the text or of the file, and returns true
exactly when the value of the evaluation is not an exception. -/
theorem RunScript_result {C V : Type} (TheScriptRuntime : ScriptRuntime C V) (ContextId : Int)
    (ScriptText ScriptFilePath : CspString) :
    (TheScriptRuntime.GetContext ContextId = none →
        RunScript TheScriptRuntime ContextId ScriptText = (false, [])
          ∧ RunScriptFile TheScriptRuntime ContextId ScriptFilePath = (false, []))
    ∧ (∀ TheScriptContext, TheScriptRuntime.GetContext ContextId = some TheScriptContext →
        ((RunScript TheScriptRuntime ContextId ScriptText).1 = true
            ↔ TheScriptRuntime.isException
                (TheScriptRuntime.eval TheScriptContext ScriptText) = false)
          ∧ (RunScript TheScriptRuntime ContextId ScriptText).2
              = [Evaluation.eval TheScriptContext ScriptText]
          ∧ ((RunScriptFile TheScriptRuntime ContextId ScriptFilePath).1 = true
              ↔ TheScriptRuntime.isException
                  (TheScriptRuntime.evalFile TheScriptContext ScriptFilePath) = false)
          ∧ (RunScriptFile TheScriptRuntime ContextId ScriptFilePath).2
              = [Evaluation.evalFile TheScriptContext ScriptFilePath]) := by
  constructor
  · intro h
    unfold RunScript RunScriptFile
    simp [h]
  · intro TheScriptContext h
    unfold RunScript RunScriptFile
    simp [h]

/-- C28 at a concrete input: a runtime whose only context has the id 1 and in which
the evaluation of the empty text is an exception. -/
theorem RunScript_result_witness :
    RunScript
        ({ GetContext := fun ContextId => if ContextId = 1 then some 7 else none
           eval := fun _ ScriptText => ScriptText.isEmpty
           evalFile := fun _ ScriptFilePath => ScriptFilePath.isEmpty
           isException := fun Result => Result } : ScriptRuntime Nat Bool)
        2 "var x = 1;".toList = (false, [])
      ∧ (RunScript
          ({ GetContext := fun ContextId => if ContextId = 1 then some 7 else none
             eval := fun _ ScriptText => ScriptText.isEmpty
             evalFile := fun _ ScriptFilePath => ScriptFilePath.isEmpty
             isException := fun Result => Result } : ScriptRuntime Nat Bool)
          1 "var x = 1;".toList).2 = [Evaluation.eval 7 "var x = 1;".toList] :=
  ⟨((RunScript_result _ 2 "var x = 1;".toList "main.js".toList).1 rfl).1,
   ((RunScript_result _ 1 "var x = 1;".toList "main.js".toList).2 7 rfl).2.1⟩

/-- C29: when `Name` is not in the fetched lookup table, `CreateScriptModuleAsset`
creates the asset, uploads the module text and updates the lookup table, and
the table it passes on is the fetched table with `Name` mapped to the `Id` of the
new asset: every other key has the value it had, every key that was there is
still there, and there is one entry more. `Callback` is then invoked once, with
the codes of the update. -/
theorem CreateScriptModuleAsset_new_name (AssetSystem : AssetSystem)
    (InvalidNullResult : NullResult) (Namespace Name ModuleText : CspString)
    (Collection : AssetCollection) (Asset : Asset)
    (hget : (AssetSystem.GetAssetCollectionByName
        (ASSET_COLLECTION_NAME_PREFIX ++ Namespace)).AssetCollection = Collection)
    (hnew : Collection.Metadata.HasKey Name = false)
    (hcreate : (AssetSystem.CreateAsset Collection.Id
        (Collection.Id ++ "_".toList ++ Name)).Asset = Asset) :
    CreateScriptModuleAsset AssetSystem InvalidNullResult Namespace Name ModuleText recordCallback
        = [Event.GetAssetCollectionByName (ASSET_COLLECTION_NAME_PREFIX ++ Namespace),
            Event.CreateAsset Collection.Id (Collection.Id ++ "_".toList ++ Name),
            Event.UploadAssetData Collection.Id Asset.Id ModuleText,
            Event.UpdateAssetCollectionMetadata Collection.Id
              (Collection.Metadata.set Name Asset.Id),
            Event.Callback
              { ResultCode := (AssetSystem.UpdateAssetCollectionMetadata Collection.Id
                  (Collection.Metadata.set Name Asset.Id)).ResultCode
                HttpResultCode := (AssetSystem.UpdateAssetCollectionMetadata Collection.Id
                  (Collection.Metadata.set Name Asset.Id)).HttpResultCode }]
      ∧ (Collection.Metadata.set Name Asset.Id).find Name = some Asset.Id
      ∧ (∀ k, k ≠ Name →
          (Collection.Metadata.set Name Asset.Id).find k = Collection.Metadata.find k)
      ∧ (∀ k, Collection.Metadata.HasKey k = true →
          (Collection.Metadata.set Name Asset.Id).HasKey k = true)
      ∧ (Collection.Metadata.set Name Asset.Id).Size = Collection.Metadata.Size + 1 := by
  refine ⟨?_, Map.find_set_same _ _ _, fun k hk => Map.find_set_ne _ _ _ _ hk, ?_, ?_⟩
  · unfold CreateScriptModuleAsset GetScriptModuleCollection _GetScriptModuleCollectionCallback
      UpdateScriptModuleCollectionLookupTable recordCallback
    simp only [hget, hnew, hcreate, Bool.false_eq_true, if_false]
    rfl
  · intro k hk
    rw [Map.HasKey_set, hk]
    simp
  · rw [Map.Size_set, hnew]
    simp

/-- C29 at a concrete input: the namespace "ns" whose lookup table maps "other" to
the asset "a0"; the module "module" is created as the asset "a1". -/
theorem CreateScriptModuleAsset_new_name_witness :
    CreateScriptModuleAsset
        { GetAssetCollectionByName := fun _ =>
            { ResultCode := EResultCode.Success
              HttpResultCode := 200
              AssetCollection :=
                { Id := "c0".toList
                  Metadata := (Map.empty : Map CspString CspString).set "other".toList
                    "a0".toList } }
          GetAssetCollectionById := fun _ =>
            { ResultCode := EResultCode.Success
              HttpResultCode := 200
              AssetCollection := { Id := "c0".toList, Metadata := Map.empty } }
          CreateAsset := fun _ _ =>
            { ResultCode := EResultCode.Success
              HttpResultCode := 200
              Asset := { Id := "a1".toList } }
          UpdateAssetCollectionMetadata := fun Id Metadata =>
            { ResultCode := EResultCode.Success
              HttpResultCode := 200
              AssetCollection := { Id := Id, Metadata := Metadata } } }
        { ResultCode := EResultCode.Failed, HttpResultCode := 0 }
        "ns".toList "module".toList "var x = 1;".toList recordCallback
      = [Event.GetAssetCollectionByName (ASSET_COLLECTION_NAME_PREFIX ++ "ns".toList),
          Event.CreateAsset "c0".toList ("c0".toList ++ "_".toList ++ "module".toList),
          Event.UploadAssetData "c0".toList "a1".toList "var x = 1;".toList,
          Event.UpdateAssetCollectionMetadata "c0".toList
            (((Map.empty : Map CspString CspString).set "other".toList "a0".toList).set
              "module".toList "a1".toList),
          Event.Callback { ResultCode := EResultCode.Success, HttpResultCode := 200 }] :=
  (CreateScriptModuleAsset_new_name _ _ "ns".toList "module".toList "var x = 1;".toList
    { Id := "c0".toList
      Metadata := (Map.empty : Map CspString CspString).set "other".toList "a0".toList }
    { Id := "a1".toList } rfl (by decide) rfl).1

end ScriptSystem

end systems

end csp
